import Mathlib

/-!
# CRM backend: role-scoped authorization and task visibility

A shallow embedding of `controllers/taskController.js`, `controllers/userController.js`,
the three routers under `routes/` and the column declarations of `models/*.js`.

Conventions of the embedding

* A handler is a function of the store, the caller (`req.user`, possibly undefined), the
  route parameters and the JSON body.  It returns a `Reply` and the store after the request.
* `Reply.sent r` is `res.status(..).json(..)`; `Reply.failed e` is `next(error)`: an exception
  caught by the handler's `try/catch` and handed to the error middleware.
* A body field is absent (`undefined` in JavaScript), `null`, or a value of the JSON type of the
  column it is written to (`Field`).  Integers stand for JSON numbers and timestamps are
  milliseconds since the epoch.  The `progress` of `PUT /api/tasks/:id/progress`, which the
  handler compares before any typed use, is an untyped JSON value (`Json`).
* The ORM calls (`findByPk`, `findOne`, `findAll`, `create`, `update`, `destroy`) are modelled on
  lists of rows in primary-key order; `update` and `create` run the validators declared in the
  model files and write nothing when one of them fails.  The write of an `update` fails when it
  gives a foreign key of the migration a new value that is the id of no row.
  The `createdAt`/`updatedAt` columns maintained by the ORM are not part of the rows.
* What the database itself decides, the comparison of a value with a column of another type
  and the integer stored for a value that is not an integer, is a parameter (`Database`).
-/

namespace Crm

/-! ## Data model (`models/User.js`, `models/Machine.js`, `models/Task.js`) -/

/-- Values of the `role` column: 'Admin', 'Sub Admin', 'Manager', 'Employee'. -/
inductive Role
  | Admin | SubAdmin | Manager | Employee
  deriving DecidableEq, Repr

/-- Values of the user `status` column. -/
inductive UserStatus
  | Active | Inactive | Suspended
  deriving DecidableEq, Repr

/-- Values of the task `priority` column. -/
inductive Priority
  | Low | Medium | High | Critical
  deriving DecidableEq, Repr

/-- Values of the task `status` column: 'Pending', 'In Progress', 'Completed', 'Cancelled'. -/
inductive Status
  | Pending | InProgress | Completed | Cancelled
  deriving DecidableEq, Repr

/-- Values of the task `category` column. -/
inductive Category
  | Production | Maintenance | QualityCheck | Training | Other
  deriving DecidableEq, Repr

/-- Values of the task `recurringPattern` column. -/
inductive Pattern
  | Daily | Weekly | Monthly | Yearly
  deriving DecidableEq, Repr

/-- Values of the machine `status` column. -/
inductive MachineStatus
  | Operational | Maintenance | Repair | Offline | Retired
  deriving DecidableEq, Repr

/-- A row of the Users table. -/
structure User where
  id : Int
  name : String
  email : String
  password : String
  role : Role
  status : UserStatus
  avatar : String
  department : Option String
  phone : String
  address : String
  lastLogin : Option Int
  resetPasswordToken : Option String
  resetPasswordExpire : Option Int
  emailVerified : Bool
  twoFactorEnabled : Bool
  deriving DecidableEq, Repr

/-- A row of the Machines table (the columns the task controller reads). -/
structure Machine where
  id : Int
  name : String
  model : String
  status : MachineStatus
  location : String
  department : Option String
  assignedTechnician : Option Int
  deriving DecidableEq, Repr

/-- An entry of the `comments` JSON column, as built by `addTaskComment`. -/
structure Comment where
  id : String
  user : Int
  userName : String
  comment : String
  createdAt : Int
  deriving DecidableEq, Repr

/-- A row of the Tasks table.  `title`, `description`, `assignedTo` and `deadline` are declared
`allowNull: false`; every other column is nullable. -/
structure Task where
  id : Int
  title : String
  description : String
  assignedTo : Int
  employees : Option (List Int)
  deadline : Int
  priority : Option Priority
  status : Option Status
  progress : Option Int
  machine : Option Int
  category : Option Category
  attachments : Option (List String)
  comments : Option (List Comment)
  estimatedHours : Option Int
  actualHours : Option Int
  tags : Option (List String)
  location : Option String
  isRecurring : Option Bool
  recurringPattern : Option Pattern
  createdBy : Option Int
  deriving DecidableEq, Repr

/-- The persistent store: the three tables and the auto-increment counters of the Tasks and
Users tables. -/
structure Store where
  users : List User
  machines : List Machine
  tasks : List Task
  nextTaskId : Int
  nextUserId : Int
  deriving DecidableEq, Repr

/-- The authenticated identity `req.user`: the fields the controllers read. -/
structure Caller where
  id : Int
  name : String
  role : Role
  deriving DecidableEq, Repr

/-! ## Requests -/

/-- A field of a JSON body: absent (`undefined`), `null`, or a value. -/
inductive Field (α : Type)
  | absent
  | null
  | val (a : α)
  deriving DecidableEq, Repr

/-- The `assignedTo` or `machine` of a `createTask` body: a JSON number with an integer value
(`id`) or a JSON string (`name`).  The handler compares either with the `id` column and with
the `name` column. -/
inductive Ident
  | id (n : Int)
  | name (s : String)
  deriving DecidableEq, Repr

/-- JavaScript truthiness of a string field: absent, `null` and `''` are falsy. -/
def Field.truthyStr : Field String → Bool
  | .val s => s != ""
  | _ => false

/-- JavaScript truthiness of a numeric field: absent, `null` and `0` are falsy. -/
def Field.truthyNum : Field Int → Bool
  | .val n => n != 0
  | _ => false

/-- JavaScript truthiness of a boolean field. -/
def Field.truthyBool : Field Bool → Bool
  | .val b => b
  | _ => false

/-- JavaScript truthiness of an id-or-name field. -/
def Field.truthyIdent : Field Ident → Bool
  | .val (.id n) => n != 0
  | .val (.name s) => s != ""
  | _ => false

/-- JavaScript truthiness of a field holding an array or a non-empty enum label: only absent
and `null` are falsy. -/
def Field.present {α : Type} : Field α → Bool
  | .val _ => true
  | _ => false

/-- The body of `PUT /api/tasks/:id`: one optional entry per attribute of the Task model.
Keys that are not attributes of the model, and the primary key, are ignored by
`task.update`. -/
structure UpdateBody where
  title : Field String
  description : Field String
  assignedTo : Field Int
  employees : Field (List Int)
  deadline : Field Int
  priority : Field Priority
  status : Field Status
  progress : Field Int
  machine : Field Int
  category : Field Category
  attachments : Field (List String)
  comments : Field (List Comment)
  estimatedHours : Field Int
  actualHours : Field Int
  tags : Field (List String)
  location : Field String
  isRecurring : Field Bool
  recurringPattern : Field Pattern
  createdBy : Field Int
  deriving DecidableEq, Repr

/-- The body `{}`. -/
def UpdateBody.empty : UpdateBody :=
  { title := .absent, description := .absent, assignedTo := .absent, employees := .absent,
    deadline := .absent, priority := .absent, status := .absent, progress := .absent,
    machine := .absent, category := .absent, attachments := .absent, comments := .absent,
    estimatedHours := .absent, actualHours := .absent, tags := .absent, location := .absent,
    isRecurring := .absent, recurringPattern := .absent, createdBy := .absent }

/-- The body of `POST /api/tasks`. -/
structure CreateBody where
  title : Field String
  description : Field String
  assignedTo : Field Ident
  employees : Field (List Int)
  deadline : Field Int
  priority : Field Priority
  machine : Field Ident
  category : Field Category
  estimatedHours : Field Int
  location : Field String
  isRecurring : Field Bool
  recurringPattern : Field Pattern
  deriving DecidableEq, Repr

/-! ## Untyped JSON values and the numeric conversions of JavaScript -/

/-- The white space that `parseInt`, `parseFloat` and the conversion of a string to a number
skip (code points of `StrWhiteSpaceChar`). -/
def isWhiteSpace (c : Char) : Bool :=
  [9, 10, 11, 12, 13, 32, 160, 5760, 8232, 8233, 8239, 8287, 12288, 65279].contains c.toNat ||
    (decide (8192 ≤ c.toNat) && decide (c.toNat ≤ 8202))

/-- The value of a run of decimal digits. -/
def digitsValue (digits : List Char) : Nat :=
  digits.foldl (fun n d => 10 * n + (d.toNat - 48)) 0

/-- A JSON value under a body key that a handler reads without a type: missing (`undefined`),
`null`, a boolean, a number, a string, or an array or object.  A number is
`mantissa / 2 ^ scale` (every double is of this form; the integer `n` is `num n 0`).  An array
or object is kept as the string `String(value)`, which is all that a comparison or a
validator reads of it. -/
inductive Json
  | absent
  | null
  | bool (b : Bool)
  | num (mantissa : Int) (scale : Nat)
  | str (s : String)
  | compound (text : String)
  deriving DecidableEq, Repr

/-- The result of a conversion to a number: NaN, an infinity, a double `mantissa / 2 ^ scale`,
or a decimal literal `± digits × 10 ^ exponent` that JavaScript rounds to the nearest
double. -/
inductive Numeric
  | nan
  | infinite (negative : Bool)
  | double (mantissa : Int) (scale : Nat)
  | decimal (negative : Bool) (digits : Nat) (exponent : Int)
  deriving DecidableEq, Repr

/-- Whether `digits × 10 ^ exponent` is greater than `a / b`. -/
def decimalAbove (digits : Nat) (exponent : Int) (a b : Nat) : Bool :=
  if 0 ≤ exponent then decide (a < digits * 10 ^ exponent.toNat * b)
  else decide (a * 10 ^ (-exponent).toNat < digits * b)

/-- Whether `digits × 10 ^ exponent` is greater than `2 ^ (-1075)`, half of the least positive
double: a decimal literal of at most this size rounds to 0. -/
def decimalNonZero (digits : Nat) (exponent : Int) : Bool :=
  if 0 ≤ exponent then decide (0 < digits)
  else decide (10 ^ (-exponent).toNat < digits * 2 ^ 1075)

/-- The comparison `x > 0`; false for NaN. -/
def Numeric.gtZero : Numeric → Bool
  | .nan => false
  | .infinite negative => !negative
  | .double mantissa _ => decide (0 < mantissa)
  | .decimal negative digits exponent => !negative && decimalNonZero digits exponent

/-- The comparison `x < 0`; false for NaN. -/
def Numeric.ltZero : Numeric → Bool
  | .nan => false
  | .infinite negative => negative
  | .double mantissa _ => decide (mantissa < 0)
  | .decimal negative digits exponent => negative && decimalNonZero digits exponent

/-- The comparison `x > 100`; false for NaN.  The doubles next to 100 are `100 ± 2 ^ (-46)`, so
a decimal literal rounds to a double above 100 exactly when it is above `100 + 2 ^ (-47)`. -/
def Numeric.gtHundred : Numeric → Bool
  | .nan => false
  | .infinite negative => !negative
  | .double mantissa scale => decide (100 * 2 ^ scale < mantissa)
  | .decimal negative digits exponent =>
    !negative && decimalAbove digits exponent (100 * 2 ^ 47 + 1) (2 ^ 47)

/-- Whether a list of characters starts with a minus sign. -/
def signOf (cs : List Char) : Bool :=
  cs.head? == some '-'

/-- A list of characters without its leading sign, if it has one. -/
def dropSign (cs : List Char) : List Char :=
  if cs.head? == some '-' || cs.head? == some '+' then cs.tail else cs

/-- The exponent part (`e` or `E`, an optional sign, digits) at the start of `cs`, if there is
one: its value and the characters after it.  Without digits there is no exponent part. -/
def exponentPart (cs : List Char) : Int × List Char :=
  match cs with
  | [] => (0, [])
  | c :: rest =>
    let digits := (dropSign rest).takeWhile Char.isDigit
    if (c == 'e' || c == 'E') && !digits.isEmpty then
      (if signOf rest then -(digitsValue digits : Int) else (digitsValue digits : Int),
       (dropSign rest).dropWhile Char.isDigit)
    else (0, cs)

/-- The longest unsigned decimal literal (`StrUnsignedDecimalLiteral` other than `Infinity`) at
the start of `cs`: its digits, its decimal exponent and the characters after it. -/
def unsignedDecimal (cs : List Char) : Option (Nat × Int × List Char) :=
  let whole := cs.takeWhile Char.isDigit
  let afterWhole := cs.dropWhile Char.isDigit
  let fraction :=
    match afterWhole with
    | '.' :: rest => rest.takeWhile Char.isDigit
    | _ => []
  let afterFraction :=
    match afterWhole with
    | '.' :: rest => rest.dropWhile Char.isDigit
    | _ => afterWhole
  if whole.isEmpty && fraction.isEmpty then none
  else
    some (digitsValue (whole ++ fraction),
          (exponentPart afterFraction).1 - (fraction.length : Int),
          (exponentPart afterFraction).2)

/-- The value of a digit in a radix of at most 16, if it is one. -/
def radixDigit (radix : Nat) (c : Char) : Option Nat :=
  let value :=
    if c.isDigit then c.toNat - 48
    else if 97 ≤ c.toNat ∧ c.toNat ≤ 102 then c.toNat - 87
    else if 65 ≤ c.toNat ∧ c.toNat ≤ 70 then c.toNat - 55
    else radix
  if value < radix then some value else none

/-- The value of a `0x`, `0o` or `0b` literal (`NonDecimalIntegerLiteral`), if `cs` is one. -/
def nonDecimalLiteral (cs : List Char) : Option Nat :=
  match cs with
  | '0' :: x :: d :: rest =>
    let radix :=
      if x == 'x' || x == 'X' then 16
      else if x == 'o' || x == 'O' then 8
      else if x == 'b' || x == 'B' then 2
      else 0
    (d :: rest).foldl
      (fun acc c =>
        match acc, radixDigit radix c with
        | some n, some v => some (radix * n + v)
        | _, _ => none)
      (some 0)
  | _ => none

/-- The conversion of a string to a number (`StringToNumber`): white space is trimmed at both
ends, the empty string is 0, and a string that is not a numeric literal is NaN. -/
def stringToNumber (s : String) : Numeric :=
  let trimmed := ((s.toList.dropWhile isWhiteSpace).reverse.dropWhile isWhiteSpace).reverse
  if trimmed.isEmpty then .double 0 0
  else if dropSign trimmed == "Infinity".toList then .infinite (signOf trimmed)
  else
    match nonDecimalLiteral trimmed with
    | some n => .decimal false n 0
    | none =>
      match unsignedDecimal (dropSign trimmed) with
      | some (digits, exponent, []) => .decimal (signOf trimmed) digits exponent
      | _ => .nan

/-- The call `parseFloat(s)`: the longest decimal literal after the leading white space. -/
def parseFloat (s : String) : Numeric :=
  let trimmed := s.toList.dropWhile isWhiteSpace
  if "Infinity".toList.isPrefixOf (dropSign trimmed) then .infinite (signOf trimmed)
  else
    match unsignedDecimal (dropSign trimmed) with
    | some (digits, exponent, _) => .decimal (signOf trimmed) digits exponent
    | none => .nan

/-- The number a value is compared as (`ToNumber`): `undefined` is NaN, `null` is 0, `true` is
1, and a string, array or object is converted through its string. -/
def Json.toNumber : Json → Numeric
  | .absent => .nan
  | .null => .double 0 0
  | .bool b => .double (if b then 1 else 0) 0
  | .num mantissa scale => .double mantissa scale
  | .str s => stringToNumber s
  | .compound text => stringToNumber text

/-- The comparison `value === 100`: only the number 100 is strictly equal to 100. -/
def Json.isHundred : Json → Bool
  | .num mantissa scale => mantissa == 100 * 2 ^ scale
  | _ => false

/-- The integer that a JSON number is, if it is one. -/
def Json.integer? : Json → Option Int
  | .num mantissa scale => if mantissa % 2 ^ scale == 0 then some (mantissa / 2 ^ scale) else none
  | _ => none

/-- The number that the `min` and `max` validators of the ORM compare,
`parseFloat(String(value))`; the strings of `true` and `false` give NaN. -/
def Json.validatorNumber : Json → Numeric
  | .num mantissa scale => .double mantissa scale
  | .str s => parseFloat s
  | .compound text => parseFloat text
  | _ => .nan

/-- The value of a string that consists of decimal digits only. -/
def digitString (s : String) : Option Nat :=
  if !s.toList.isEmpty && s.toList.all Char.isDigit then some (digitsValue s.toList) else none

/-- The comparisons and conversions that the database decides.  The dialect is configuration
(`config/config.js`, MySQL unless `DB_DIALECT` is set) and fixes how a value is compared with
a column of another type, under which collation two strings are equal, and which integer an
INTEGER column stores for a value that is not an integer number.  What every dialect that
runs the queries of the controllers agrees on is kept as the four laws: a number is compared
with an INTEGER column by value, a string of digits is compared with it as the number it
writes, a string equals itself, and a string of digits is stored as the number it writes. -/
structure Database where
  idEq : Ident → Int → Bool
  nameEq : Ident → String → Bool
  toInteger : Json → Option Int
  idEq_id : ∀ n m : Int, idEq (.id n) m = (n == m)
  idEq_digits : ∀ (s : String) (n : Nat) (m : Int), digitString s = some n → n < 2 ^ 31 →
    idEq (.name s) m = ((n : Int) == m)
  nameEq_self : ∀ name : String, nameEq (.name name) name = true
  toInteger_digits : ∀ (s : String) (n : Nat), digitString s = some n → n < 2 ^ 31 →
    toInteger (.str s) = some (n : Int)

/-! ## Responses -/

/-- The `attributes: ['id', 'name', 'email', 'role']` projection of an included user. -/
structure UserRef where
  id : Int
  name : String
  email : String
  role : Role
  deriving DecidableEq, Repr

/-- The `attributes: ['id', 'name', 'model', 'status']` projection of an included machine. -/
structure MachineRef where
  id : Int
  name : String
  model : String
  status : MachineStatus
  deriving DecidableEq, Repr

/-- A task with its `assignedUser`, `createdByUser` and `machineDetails` includes. -/
structure TaskView where
  task : Task
  assignedUser : Option UserRef
  createdByUser : Option UserRef
  machineDetails : Option MachineRef
  deriving DecidableEq, Repr

/-- A user as serialised in a response; `password` is `none` when the key is excluded. -/
structure UserView where
  id : Int
  name : String
  email : String
  password : Option String
  role : Role
  status : UserStatus
  avatar : String
  department : Option String
  phone : String
  address : String
  lastLogin : Option Int
  resetPasswordToken : Option String
  resetPasswordExpire : Option Int
  emailVerified : Bool
  twoFactorEnabled : Bool
  deriving DecidableEq, Repr

/-- The `pagination` object of a list response. -/
structure Pagination where
  total : Nat
  pages : Int
  currentPage : Int
  limit : Int
  deriving DecidableEq, Repr

/-- The `data` object of `getUserStats`. -/
structure UserStats where
  totalUsers : Nat
  roleStats : List (Role × Nat)
  statusStats : List (UserStatus × Nat)
  departmentStats : List (String × Nat)
  tasksPerUser : List (Option Int × Nat)
  deriving DecidableEq, Repr

/-- The `data` object of `getUserAnalytics`.  A distribution is a JavaScript object used as a
mapping from keys to counts, kept as the list of its entries. -/
structure UserAnalytics where
  userStatusDistribution : List (String × Nat)
  usersByDepartment : List (String × Nat)
  tasksPerUser : List (String × Nat)
  recentUsers : List UserView
  totalUsers : Nat
  activeUsers : Nat
  deriving DecidableEq, Repr

/-- The `data` member of the response envelope.  `taskRaw t progress` is a task instance whose
`progress` attribute holds a value that is not an integer number (the instance returned by
`task.update` keeps the value it was given); its other attributes are those of `t`. -/
inductive Payload
  | none
  | emptyObject
  | task (t : Task)
  | taskRaw (t : Task) (progress : Json)
  | taskView (t : TaskView)
  | taskViews (ts : List TaskView)
  | user (u : UserView)
  | users (us : List UserView)
  | userStats (stats : UserStats)
  | userAnalytics (analytics : UserAnalytics)
  deriving DecidableEq, Repr

/-- The JSON envelope sent with `res.status(status).json(..)`. -/
structure Response where
  status : Nat
  success : Bool
  message : Option String
  data : Payload
  count : Option Nat
  pagination : Option Pagination
  newPassword : Option String
  deriving DecidableEq, Repr

/-- An exception caught by a handler and passed to `next`: a validation error of the ORM, a
TypeError or ReferenceError of the runtime, a foreign-key constraint error of the database
(`SequelizeForeignKeyConstraintError`), or another error of the database. -/
inductive Failure
  | validation (column : String)
  | typeError
  | referenceError (name : String)
  | foreignKey
  | database
  deriving DecidableEq, Repr

/-- What a handler does with its request: send a response, or hand an error to `next`. -/
inductive Reply
  | sent (r : Response)
  | failed (e : Failure)
  deriving DecidableEq, Repr

/-- The reply `res.status(status).json({ success: false, message })`. -/
def Reply.fail (status : Nat) (message : String) : Reply :=
  .sent { status := status, success := false, message := some message, data := .none,
          count := none, pagination := none, newPassword := none }

/-- The reply `res.status(status).json({ success: true, data })`. -/
def Reply.ok (status : Nat) (data : Payload) : Reply :=
  .sent { status := status, success := true, message := none, data := data,
          count := none, pagination := none, newPassword := none }

/-- The HTTP status of a reply, when a response was sent. -/
def Reply.status? : Reply → Option Nat
  | .sent r => some r.status
  | .failed _ => none

/-- The `success` flag of a reply, when a response was sent. -/
def Reply.success? : Reply → Option Bool
  | .sent r => some r.success
  | .failed _ => none

/-! ## ORM operations on the Tasks table -/

/-- The call `Task.findByPk(id)`: the row with that primary key, if any. -/
def findByPk (tasks : List Task) (id : Int) : Option Task :=
  tasks.find? (fun t => t.id == id)

/-- The call `User.findByPk(id)`. -/
def findUserByPk (users : List User) (id : Int) : Option User :=
  users.find? (fun u => u.id == id)

/-- Write of a row back to the table: the row with the primary key of `t` is replaced. -/
def saveTask (tasks : List Task) (t : Task) : List Task :=
  tasks.map (fun x => if x.id == t.id then t else x)

/-- Assignment of a body field to a nullable column. -/
def Field.assign {α : Type} (f : Field α) (old : Option α) : Option α :=
  match f with
  | .absent => old
  | .null => none
  | .val a => some a

/-- Assignment of a body field to an `allowNull: false` column; `null` is a validation
error. -/
def Field.assignRequired {α : Type} (column : String) (f : Field α) (old : α) :
    Except Failure α :=
  match f with
  | .absent => .ok old
  | .null => .error (.validation column)
  | .val a => .ok a

/-- A validator of a model attribute, skipped (as the ORM does) for absent and null values. -/
def Field.check {α : Type} (column : String) (f : Field α) (p : α → Bool) :
    Except Failure Unit :=
  match f with
  | .val a => if p a then .ok () else .error (.validation column)
  | _ => .ok ()

/-- The validator `len: [lo, hi]`. -/
def lenBetween (lo hi : Nat) (s : String) : Bool :=
  decide (lo ≤ s.length) && decide (s.length ≤ hi)

/-- The call `task.update(data)` up to the write: the attributes present in `data` are set,
the validators declared in `models/Task.js` are run on them, and the new row is returned.
The primary key is never changed. -/
def Task.update (t : Task) (d : UpdateBody) : Except Failure Task := do
  let title ← d.title.assignRequired "title" t.title
  let description ← d.description.assignRequired "description" t.description
  let assignedTo ← d.assignedTo.assignRequired "assignedTo" t.assignedTo
  let deadline ← d.deadline.assignRequired "deadline" t.deadline
  d.title.check "title" (lenBetween 1 100)
  d.description.check "description" (lenBetween 1 500)
  d.progress.check "progress" (fun p => decide (0 ≤ p) && decide (p ≤ 100))
  d.estimatedHours.check "estimatedHours" (fun h => decide (0 ≤ h))
  d.actualHours.check "actualHours" (fun h => decide (0 ≤ h))
  return { id := t.id, title := title, description := description, assignedTo := assignedTo,
           employees := d.employees.assign t.employees, deadline := deadline,
           priority := d.priority.assign t.priority, status := d.status.assign t.status,
           progress := d.progress.assign t.progress, machine := d.machine.assign t.machine,
           category := d.category.assign t.category,
           attachments := d.attachments.assign t.attachments,
           comments := d.comments.assign t.comments,
           estimatedHours := d.estimatedHours.assign t.estimatedHours,
           actualHours := d.actualHours.assign t.actualHours, tags := d.tags.assign t.tags,
           location := d.location.assign t.location,
           isRecurring := d.isRecurring.assign t.isRecurring,
           recurringPattern := d.recurringPattern.assign t.recurringPattern,
           createdBy := d.createdBy.assign t.createdBy }

/-- The foreign keys of the Tasks table, declared by the migration
`20250822210827-initial-schema-setup.js`: `assignedTo` and `createdBy` reference `Users.id` and
`machine` references `Machines.id`.  The database accepts the UPDATE that takes the row `old`
to the row `updated` when each of these three keeps its value or becomes null (where the
column is nullable) or the id of a row; otherwise the ORM throws
`SequelizeForeignKeyConstraintError` and the row is as before. -/
def Store.foreignKeysHold (s : Store) (old updated : Task) : Bool :=
  (updated.assignedTo == old.assignedTo || s.users.any (fun u => u.id == updated.assignedTo)) &&
  (updated.machine == old.machine ||
    match updated.machine with
    | none => true
    | some m => s.machines.any (fun x => x.id == m)) &&
  (updated.createdBy == old.createdBy ||
    match updated.createdBy with
    | none => true
    | some c => s.users.any (fun u => u.id == c))

/-- The integer an INTEGER column takes for a value: an integer number is stored as it is, and
for any other value the database decides (`none` when it refuses the value). -/
def Database.integerColumn (db : Database) (value : Json) : Option Int :=
  match value.integer? with
  | some n => some n
  | none => db.toInteger value

/-- The call `task.update({ progress, status })` of `updateTaskProgress` up to the write.  A
missing `progress` is left out of the update and `null` is written as it is; on any other value
the `min: 0` and `max: 100` validators of `models/Task.js` run (they compare
`parseFloat(String(value))` and pass on NaN), and the column takes the integer of
`Database.integerColumn`. -/
def Task.updateProgress (db : Database) (t : Task) (progress : Json) (status : Field Status) :
    Except Failure Task :=
  match progress with
  | .absent => .ok { t with status := status.assign t.status }
  | .null => .ok { t with progress := none, status := status.assign t.status }
  | value =>
    if value.validatorNumber.ltZero || value.validatorNumber.gtHundred then
      .error (.validation "progress")
    else
      match db.integerColumn value with
      | none => .error .database
      | some n => .ok { t with progress := some n, status := status.assign t.status }

/-- The `data` of a reply that returns the instance after `task.update({ progress, status })`:
the instance holds `progress` as it was given. -/
def Payload.instance (t : Task) (progress : Json) : Payload :=
  match progress with
  | .absent => .task t
  | .null => .task t
  | value =>
    match value.integer? with
    | .some _ => .task t
    | .none => .taskRaw t value

/-- The `include` of `assignedUser` / `createdByUser`. -/
def userRef (users : List User) (id : Int) : Option UserRef :=
  (findUserByPk users id).map (fun u => { id := u.id, name := u.name, email := u.email,
                                          role := u.role })

/-- The `include` of `machineDetails`. -/
def machineRef (machines : List Machine) (id : Int) : Option MachineRef :=
  (machines.find? (fun m => m.id == id)).map
    (fun m => { id := m.id, name := m.name, model := m.model, status := m.status })

/-- A task joined with its three includes. -/
def Store.view (s : Store) (t : Task) : TaskView :=
  { task := t,
    assignedUser := userRef s.users t.assignedTo,
    createdByUser := t.createdBy.bind (userRef s.users),
    machineDetails := t.machine.bind (machineRef s.machines) }

/-! ## `controllers/taskController.js` -/

/-- The ownership test shared by the task handlers:
`req.user && req.user.role === 'Employee' && task.assignedTo !== req.user.id`. -/
def notOwner (caller : Option Caller) (task : Task) : Bool :=
  match caller with
  | none => false
  | some c => c.role == Role.Employee && task.assignedTo != c.id

/-- Handler of `GET /api/tasks/:id`. -/
def getTask (s : Store) (caller : Option Caller) (id : Int) : Reply × Store :=
  match findByPk s.tasks id with
  | none => (Reply.fail 404 "Task not found", s)
  | some task =>
    if notOwner caller task then
      (Reply.fail 403 "Not authorized to access this task", s)
    else
      (Reply.ok 200 (.taskView (s.view task)), s)

/-- The `allowedFields` filter of `updateTask`: the entries of the body under the keys
`deadline`, `priority`, `machine`, `progress` and `status` whose value is not `undefined`. -/
def allowedFields (body : UpdateBody) : UpdateBody :=
  { UpdateBody.empty with
    deadline := body.deadline, priority := body.priority, machine := body.machine,
    progress := body.progress, status := body.status }

/-- The `updateData` of `updateTask`: the body, filtered for an Employee caller. -/
def updateData (caller : Option Caller) (body : UpdateBody) : UpdateBody :=
  match caller with
  | some c => if c.role == Role.Employee then allowedFields body else body
  | none => body

/-- Handler of `PUT /api/tasks/:id`. -/
def updateTask (s : Store) (caller : Option Caller) (id : Int) (body : UpdateBody) :
    Reply × Store :=
  match findByPk s.tasks id with
  | none => (Reply.fail 404 "Task not found", s)
  | some task =>
    if notOwner caller task then
      (Reply.fail 403 "Not authorized to update this task", s)
    else
      match task.update (updateData caller body) with
      | .error e => (.failed e, s)
      | .ok updatedTask =>
        if s.foreignKeysHold task updatedTask then
          (Reply.ok 200 (.task updatedTask), { s with tasks := saveTask s.tasks updatedTask })
        else
          (.failed .foreignKey, s)

/-- The range guard of `updateTaskProgress`, `progress < 0 || progress > 100`.  Both
comparisons convert `progress` to a number: a comparison with `undefined` (NaN) is false,
`null` compares as 0 and a string as the number it writes. -/
def progressOutOfRange (progress : Json) : Bool :=
  progress.toNumber.ltZero || progress.toNumber.gtHundred

/-- The status that `updateTaskProgress` adds to its update: `progress === 100`, which holds of
the number 100 only, gives 'Completed'; otherwise `progress > 0`, which converts `progress` to
a number, gives 'In Progress'. -/
def statusForProgress (progress : Json) : Field Status :=
  if progress.isHundred then .val .Completed
  else if progress.toNumber.gtZero then .val .InProgress
  else .absent

/-- Handler of `PUT /api/tasks/:id/progress`; `progress` is `req.body.progress`.  The update
writes `progress` and `status` only, so no foreign key is involved. -/
def updateTaskProgress (db : Database) (s : Store) (caller : Option Caller) (id : Int)
    (progress : Json) : Reply × Store :=
  if progressOutOfRange progress then
    (Reply.fail 400 "Progress must be between 0 and 100", s)
  else
    match findByPk s.tasks id with
    | none => (Reply.fail 404 "Task not found", s)
    | some task =>
      if notOwner caller task then
        (Reply.fail 403 "Not authorized to update this task", s)
      else
        match task.updateProgress db progress (statusForProgress progress) with
        | .error e => (.failed e, s)
        | .ok updatedTask =>
          (Reply.ok 200 (Payload.instance updatedTask progress),
           { s with tasks := saveTask s.tasks updatedTask })

/-- The text of a comment field (used after the `!comment` guard). -/
def Field.text : Field String → String
  | .val x => x
  | _ => ""

/-- Handler of `POST /api/tasks/:id/comments`; `comment` is `req.body.comment`, `uuid` the
value of `crypto.randomUUID()` and `now` the value of `new Date()`.  The file has no
`require('crypto')`: `crypto` is the global of the runtime.

When the task has a `comments` array, `task.comments || []` is that array, the one the instance
holds, and `comments.push(newComment)` changes it in place.  `task.update({ comments })` then
sets the attribute to the value it already has: the ORM sees no change and issues no UPDATE,
so the reply shows the new comment and the row keeps its old comments.  Only when `comments`
is null is `[]` a new array, and the update is written. -/
def addTaskComment (s : Store) (caller : Option Caller) (id : Int) (comment : Field String)
    (uuid : String) (now : Int) : Reply × Store :=
  if !comment.truthyStr then
    (Reply.fail 400 "Comment is required", s)
  else
    match findByPk s.tasks id with
    | none => (Reply.fail 404 "Task not found", s)
    | some task =>
      if notOwner caller task then
        (Reply.fail 403 "Not authorized to comment on this task", s)
      else
        match caller with
        | none => (.failed .typeError, s)
        | some c =>
          let newComment : Comment :=
            { id := uuid, user := c.id, userName := c.name, comment := comment.text,
              createdAt := now }
          match task.comments with
          | some held =>
            (Reply.ok 200 (.task { task with comments := some (held ++ [newComment]) }), s)
          | none =>
            match task.update { UpdateBody.empty with comments := .val [newComment] } with
            | .error e => (.failed e, s)
            | .ok updatedTask =>
              (Reply.ok 200 (.task updatedTask),
               { s with tasks := saveTask s.tasks updatedTask })

/-- Handler of `DELETE /api/tasks/:id`. -/
def deleteTask (s : Store) (id : Int) : Reply × Store :=
  match findByPk s.tasks id with
  | none => (Reply.fail 404 "Task not found", s)
  | some task =>
    (Reply.ok 200 .emptyObject, { s with tasks := s.tasks.filter (fun x => x.id != task.id) })

/-- The condition `{ [Op.or]: [{ id: ident }, { name: ident }] }` on a user row: the same
value, a number or a string, is compared with the `id` column and with the `name` column, each
comparison being the database's. -/
def Ident.matchesUser (db : Database) (i : Ident) (u : User) : Bool :=
  db.idEq i u.id || db.nameEq i u.name

/-- The same condition on a machine row. -/
def Ident.matchesMachine (db : Database) (i : Ident) (m : Machine) : Bool :=
  db.idEq i m.id || db.nameEq i m.name

/-- The lookup `User.findOne({ where: { [Op.or]: [{ id }, { name }], role: 'Manager' } })`. -/
def findManager (db : Database) (users : List User) (i : Ident) : Option User :=
  users.find? (fun u => i.matchesUser db u && u.role == Role.Manager)

/-- The lookup `User.findAll({ where: { id: { [Op.in]: employees }, role: 'Employee' } })`. -/
def findEmployees (users : List User) (employees : List Int) : List User :=
  users.filter (fun u => employees.contains u.id && u.role == Role.Employee)

/-- The lookup `Machine.findOne({ where: { [Op.or]: [{ id }, { name }] } })`. -/
def findMachine (db : Database) (machines : List Machine) (i : Ident) : Option Machine :=
  machines.find? (fun m => i.matchesMachine db m)

/-- The value of a field under `field || dflt`, for each JSON type. -/
def Field.orStr (f : Field String) (dflt : String) : String :=
  match f with
  | .val x => if x != "" then x else dflt
  | _ => dflt

/-- The value of `field || dflt` for a number. -/
def Field.orNum (f : Field Int) (dflt : Int) : Int :=
  match f with
  | .val x => if x != 0 then x else dflt
  | _ => dflt

/-- The value of `field || false` for a boolean. -/
def Field.orBool (f : Field Bool) : Bool :=
  match f with
  | .val x => x
  | _ => false

/-- The value of `field || dflt` for an enum label. -/
def Field.orElse {α : Type} (f : Field α) (dflt : α) : α :=
  match f with
  | .val x => x
  | _ => dflt

/-- The value of an identifier field (used after its truthiness guard). -/
def Field.ident : Field Ident → Ident
  | .val i => i
  | _ => .id 0

/-- The value of an array field (used after its truthiness guard). -/
def Field.items : Field (List Int) → List Int
  | .val xs => xs
  | _ => []

/-- Seven days in milliseconds, `7 * 24 * 60 * 60 * 1000`. -/
def sevenDays : Int := 7 * 24 * 60 * 60 * 1000

/-- The required-field guard of `createTask`:
`!title || !description || !assignedTo || !employees || employees.length === 0`. -/
def missingRequired (body : CreateBody) : Bool :=
  !body.title.truthyStr || !body.description.truthyStr || !body.assignedTo.truthyIdent ||
    !body.employees.present || body.employees.items.length == 0

/-- The machine step of `createTask`: `none` when a machine is named and not found,
otherwise the `machineId` to store. -/
def resolveMachine (db : Database) (machines : List Machine) (machine : Field Ident) :
    Option (Option Int) :=
  if machine.truthyIdent then
    match findMachine db machines machine.ident with
    | none => none
    | some machineInstance => some (some machineInstance.id)
  else
    some none

/-- The call `Task.create({...})` of `createTask` up to the insert: the row built from the
body, the resolved references and the defaults of `models/Task.js`, provided the declared
validators accept it. -/
def Task.create (id : Int) (body : CreateBody) (assignedUser : User) (machineId : Option Int)
    (createdBy : Int) (now : Int) : Except Failure Task := do
  body.title.check "title" (lenBetween 1 100)
  body.description.check "description" (lenBetween 1 500)
  let estimatedHours := body.estimatedHours.orNum 0
  if estimatedHours < 0 then throw (Failure.validation "estimatedHours")
  return { id := id, title := body.title.text, description := body.description.text,
           assignedTo := assignedUser.id, employees := some body.employees.items,
           deadline := body.deadline.orNum (now + sevenDays),
           priority := some (body.priority.orElse .Medium), status := some .Pending,
           progress := some 0, machine := machineId,
           category := some (body.category.orElse .Production), attachments := some [],
           comments := some [], estimatedHours := some estimatedHours,
           actualHours := some 0, tags := some [],
           location := some (body.location.orStr ""),
           isRecurring := some body.isRecurring.orBool,
           recurringPattern := some (body.recurringPattern.orElse .Weekly),
           createdBy := some createdBy }

/-- Handler of `POST /api/tasks`; `now` is the value of `Date.now()`. -/
def createTask (db : Database) (s : Store) (caller : Option Caller) (body : CreateBody)
    (now : Int) : Reply × Store :=
  match caller with
  | none => (Reply.fail 401 "User not authenticated", s)
  | some c =>
    if missingRequired body then
      (Reply.fail 400 "Title, description, assignedTo (Manager), and employees are required", s)
    else
      match findManager db s.users body.assignedTo.ident with
      | none => (Reply.fail 404 "Assigned user must be a Manager", s)
      | some assignedUser =>
        if (findEmployees s.users body.employees.items).length
            != body.employees.items.length then
          (Reply.fail 404 "One or more assigned employees not found or not employees", s)
        else
          match resolveMachine db s.machines body.machine with
          | none => (Reply.fail 404 "Machine not found", s)
          | some machineId =>
            match Task.create s.nextTaskId body assignedUser machineId c.id now with
            | .error e => (.failed e, s)
            | .ok task =>
              let s1 := { s with tasks := s.tasks ++ [task], nextTaskId := s.nextTaskId + 1 }
              match findByPk s1.tasks task.id with
              | none => (.failed .typeError, s1)
              | some createdTask => (Reply.ok 201 (.taskView (s1.view createdTask)), s1)

/-! ## List handlers of `controllers/taskController.js` -/

/-- The number of binary digits of `n`, for `n ≤ fuel`. -/
def bitLength : Nat → Nat → Nat
  | 0, _ => 0
  | fuel + 1, n => if n = 0 then 0 else bitLength fuel (n / 2) + 1

/-- The integer nearest to `n` that is a double (53 significant bits, ties to the even
significand): `n` itself below `2 ^ 53`. -/
def roundToDouble (n : Nat) : Nat :=
  if n < 2 ^ 53 then n
  else
    let shift := bitLength n n - 53
    let significand := n / 2 ^ shift
    let rest := n % 2 ^ shift
    let half := 2 ^ (shift - 1)
    if half < rest || (rest == half && significand % 2 == 1) then (significand + 1) * 2 ^ shift
    else significand * 2 ^ shift

/-- The double nearest to an integer, for either sign. -/
def roundInt (n : Int) : Int :=
  if n < 0 then -(roundToDouble n.natAbs : Int) else (roundToDouble n.natAbs : Int)

/-- The call `parseInt(text, 10)` on a query parameter; `none` is NaN.  The result is a double:
the integer written by the digits, rounded when it has more than 53 significant bits.  (From
`2 ^ 1024` on the double is an infinity; the integer is kept here, and `paginated` refuses it
as it refuses every `LIMIT` and `OFFSET` from `2 ^ 64` on.) -/
def parseInt (text : Option String) : Option Int :=
  match text with
  | none => none
  | some str =>
    let trimmed := str.toList.dropWhile isWhiteSpace
    let negative := trimmed.head? == some '-'
    let unsigned :=
      if trimmed.head? == some '-' || trimmed.head? == some '+' then trimmed.tail else trimmed
    let digits := unsigned.takeWhile Char.isDigit
    if digits.isEmpty then none
    else some (if negative then -(roundToDouble (digitsValue digits) : Int)
               else (roundToDouble (digitsValue digits) : Int))

/-- The value of `parseInt(text, 10) || dflt`: NaN and 0 give the default. -/
def parseIntOr (text : Option String) (dflt : Int) : Int :=
  match parseInt text with
  | none => dflt
  | some n => if n = 0 then dflt else n

/-- The query string of the list endpoints.  `page` and `limit` are kept as text; a filter is
`none` when the parameter is absent or empty. -/
structure Query where
  page : Option String
  limit : Option String
  status : Option Status
  priority : Option Priority
  assignedTo : Option Int
  role : Option Role
  department : Option String
  userStatus : Option UserStatus
  deriving DecidableEq, Repr

/-- The value of `Math.ceil(count / limit)` for a positive `limit` and a `count` of rows below
`2 ^ 53`, where the rounding of the quotient to a double does not reach the next integer. -/
def ceilDiv (count : Nat) (limit : Int) : Int :=
  ((count : Int) + limit - 1) / limit

/-- The value of `(page - 1) * limit`: each of the two operations gives the double nearest to
its exact result. -/
def offsetOf (page limit : Int) : Int :=
  roundInt (roundInt (page - 1) * limit)

/-- The reply of a paginated list: `findAndCountAll` over the rows `matching` the `where`
clause, with the given `limit` and `offset`.  A `LIMIT` or `OFFSET` that is negative or is
`2 ^ 64` or more is an error of the database. -/
def paginated (s : Store) (matching : List Task) (page limit : Int) : Reply :=
  let offset := offsetOf page limit
  if limit < 0 ∨ offset < 0 ∨ 2 ^ 64 ≤ limit ∨ 2 ^ 64 ≤ offset then .failed .database
  else
    let tasks := (matching.drop offset.toNat).take limit.toNat
    .sent { status := 200, success := true, message := none,
            data := .taskViews (tasks.map s.view), count := some tasks.length,
            pagination := some { total := matching.length,
                                 pages := ceilDiv matching.length limit,
                                 currentPage := page, limit := limit },
            newPassword := none }

/-- Handler of `GET /api/tasks`. -/
def getTasks (s : Store) (query : Query) : Reply × Store :=
  let page := parseIntOr query.page 1
  let limit := parseIntOr query.limit 10
  let matching := s.tasks.filter (fun t =>
    (match query.status with
     | some st => t.status == some st
     | none => true) &&
    (match query.priority with
     | some pr => t.priority == some pr
     | none => true) &&
    (match query.assignedTo with
     | some a => t.assignedTo == a
     | none => true))
  (paginated s matching page limit, s)

/-- Handler of `GET /api/tasks/filter/:userId`. -/
def getTasksByUser (s : Store) (userId : Int) : Reply × Store :=
  match findUserByPk s.users userId with
  | none => (Reply.fail 404 "User not found", s)
  | some user =>
    let tasks :=
      if user.role == Role.Employee then s.tasks.filter (fun t => t.assignedTo == userId)
      else s.tasks
    (.sent { status := 200, success := true, message := none,
             data := .taskViews (tasks.map s.view), count := some tasks.length,
             pagination := none, newPassword := none }, s)

/-- Handler of `GET /api/tasks/employee/:employeeId`. -/
def getEmployeeTasks (s : Store) (employeeId : Int) (query : Query) : Reply × Store :=
  let page := parseIntOr query.page 1
  let limit := parseIntOr query.limit 10
  match findUserByPk s.users employeeId with
  | none => (Reply.fail 404 "Employee not found", s)
  | some _ =>
    (paginated s (s.tasks.filter (fun t => t.assignedTo == employeeId)) page limit, s)

/-- The `where` clause that `getTasks` builds from the `status`, `priority` and `assignedTo`
query parameters, as a test on a row. -/
def Query.matchesTask (query : Query) (t : Task) : Bool :=
  (match query.status with
   | some st => t.status == some st
   | none => true) &&
  (match query.priority with
   | some pr => t.priority == some pr
   | none => true) &&
  (match query.assignedTo with
   | some a => t.assignedTo == a
   | none => true)

/-! ## `controllers/userController.js` -/

/-- What the controllers take from their environment: the bcrypt hash of the `beforeSave`
hook, the `isEmail` validator, the output of `crypto.randomBytes(8).toString('hex')` and the
database. -/
structure Env where
  hash : String → String
  isEmail : String → Bool
  randomHex : String
  db : Database

/-- The body of `POST /api/users` and `PUT /api/users/:id`. -/
structure UserBody where
  name : Field String
  email : Field String
  password : Field String
  role : Field Role
  status : Field UserStatus
  avatar : Field String
  department : Field String
  phone : Field String
  address : Field String
  emailVerified : Field Bool
  twoFactorEnabled : Field Bool
  deriving DecidableEq, Repr

/-- The result of `user.toJSON()` followed by `delete userWithoutPassword.password`, and of a
query with `attributes: { exclude: ['password'] }`. -/
def User.withoutPassword (u : User) : UserView :=
  { id := u.id, name := u.name, email := u.email, password := none, role := u.role,
    status := u.status, avatar := u.avatar, department := u.department, phone := u.phone,
    address := u.address, lastLogin := u.lastLogin,
    resetPasswordToken := u.resetPasswordToken,
    resetPasswordExpire := u.resetPasswordExpire, emailVerified := u.emailVerified,
    twoFactorEnabled := u.twoFactorEnabled }

/-- The reply `{ success: true, count, data }` with a list of users. -/
def Reply.userList (users : List User) : Reply :=
  .sent { status := 200, success := true, message := none,
          data := .users (users.map User.withoutPassword), count := some users.length,
          pagination := none, newPassword := none }

/-- Handler of `GET /api/users`. -/
def getUsers (s : Store) (query : Query) : Reply × Store :=
  let users := s.users.filter (fun u =>
    (match query.role with
     | some r => u.role == r
     | none => true) &&
    (match query.department with
     | some d => u.department == some d
     | none => true) &&
    (match query.userStatus with
     | some st => u.status == st
     | none => true))
  (Reply.userList users, s)

/-- Handler of `GET /api/users/employees`. -/
def getEmployees (s : Store) : Reply × Store :=
  (Reply.userList (s.users.filter (fun u => u.role == Role.Employee)), s)

/-- Handler of `GET /api/users/:id`. -/
def getUser (s : Store) (id : Int) : Reply × Store :=
  match findUserByPk s.users id with
  | none => (Reply.fail 404 "User not found", s)
  | some user => (Reply.ok 200 (.user user.withoutPassword), s)

/-- The validators of `models/User.js` on the attributes a body sets, and the uniqueness of
`email` among the other rows. -/
def User.validate (env : Env) (others : List User) (b : UserBody) : Except Failure Unit := do
  if b.name == .null then throw (Failure.validation "name")
  if b.email == .null then throw (Failure.validation "email")
  if b.password == .null then throw (Failure.validation "password")
  b.name.check "name" (lenBetween 1 50)
  b.email.check "email" env.isEmail
  b.password.check "password" (lenBetween 6 255)
  b.email.check "email" (fun e => !others.any (fun u => u.email == e))

/-- The `beforeSave` hook: a password that changed is replaced by its hash. -/
def hashIfChanged (env : Env) (old : String) (password : Field String) : String :=
  match password with
  | .val p => if p != old then env.hash p else old
  | _ => old

/-- Handler of `POST /api/users`. -/
def createUser (env : Env) (s : Store) (body : UserBody) : Reply × Store :=
  if !body.name.truthyStr || !body.email.truthyStr || !body.password.truthyStr ||
      !body.role.present then
    (Reply.fail 400 "Name, email, password, and role are required", s)
  else if s.users.any (fun u => u.email == body.email.text) then
    (Reply.fail 400 "User with this email already exists", s)
  else
    match User.validate env s.users
        { body with status := .absent, avatar := .absent, emailVerified := .absent,
                    twoFactorEnabled := .absent } with
    | .error e => (.failed e, s)
    | .ok _ =>
      let user : User :=
        { id := s.nextUserId, name := body.name.text, email := body.email.text,
          password := env.hash body.password.text, role := body.role.orElse .Employee,
          status := .Active, avatar := "",
          department := some (body.department.orStr "General"),
          phone := body.phone.orStr "", address := body.address.orStr "", lastLogin := none,
          resetPasswordToken := none, resetPasswordExpire := none, emailVerified := false,
          twoFactorEnabled := false }
      (Reply.ok 201 (.user user.withoutPassword),
       { s with users := s.users ++ [user], nextUserId := s.nextUserId + 1 })

/-- Write of a user row back to the table. -/
def saveUser (users : List User) (u : User) : List User :=
  users.map (fun x => if x.id == u.id then u else x)

/-- Handler of `PUT /api/users/:id`. -/
def updateUser (env : Env) (s : Store) (id : Int) (body : UserBody) : Reply × Store :=
  match findUserByPk s.users id with
  | none => (Reply.fail 404 "User not found", s)
  | some user =>
    match User.validate env (s.users.filter (fun u => u.id != user.id)) body with
    | .error e => (.failed e, s)
    | .ok _ =>
      let updated : User :=
        { user with
          name := (body.name.assign (some user.name)).getD user.name,
          email := (body.email.assign (some user.email)).getD user.email,
          password := hashIfChanged env user.password body.password,
          role := (body.role.assign (some user.role)).getD user.role,
          status := (body.status.assign (some user.status)).getD user.status,
          avatar := (body.avatar.assign (some user.avatar)).getD user.avatar,
          department := body.department.assign user.department,
          phone := (body.phone.assign (some user.phone)).getD user.phone,
          address := (body.address.assign (some user.address)).getD user.address,
          emailVerified :=
            (body.emailVerified.assign (some user.emailVerified)).getD user.emailVerified,
          twoFactorEnabled :=
            (body.twoFactorEnabled.assign (some user.twoFactorEnabled)).getD
              user.twoFactorEnabled }
      (Reply.ok 200 (.user updated.withoutPassword),
       { s with users := saveUser s.users updated })

/-- The binding of the identifier `Task` in `userController.js`.  The only import of the file
is `const { User } = require('../models/index')`, so `Task` is not bound and evaluating it
throws a ReferenceError. -/
def userControllerTask : Option Unit := none

/-- Handler of `DELETE /api/users/:id`. -/
def deleteUser (s : Store) (id : Int) : Reply × Store :=
  match findUserByPk s.users id with
  | none => (Reply.fail 404 "User not found", s)
  | some user =>
    match userControllerTask with
    | none => (.failed (.referenceError "Task"), s)
    | some _ =>
      let userTasks := (s.tasks.filter (fun t => t.assignedTo == id)).length
      if userTasks > 0 then
        (Reply.fail 400
          "Cannot delete user with assigned tasks. Please reassign tasks first.", s)
      else
        (Reply.ok 200 .emptyObject,
         { s with users := s.users.filter (fun u => u.id != user.id) })

/-- Handler of `PUT /api/users/:id/reset-password`. -/
def resetUserPassword (env : Env) (s : Store) (id : Int) : Reply × Store :=
  match findUserByPk s.users id with
  | none => (Reply.fail 404 "User not found", s)
  | some user =>
    let newPassword := env.randomHex
    let saved : User :=
      { user with password := hashIfChanged env user.password (.val newPassword) }
    if !lenBetween 6 255 newPassword then (.failed (.validation "password"), s)
    else
      (.sent { status := 200, success := true,
               message := some "Password reset successfully", data := .none, count := none,
               pagination := none, newPassword := some newPassword },
       { s with users := saveUser s.users saved })

/-- The counting loop `counts[key] = (counts[key] || 0) + 1` over a list of keys. -/
def tally {α : Type} [DecidableEq α] (keys : List α) : List (α × Nat) :=
  keys.dedup.map (fun k => (k, keys.count k))

/-- Handler of `GET /api/users/stats`. -/
def getUserStats (s : Store) : Reply × Store :=
  let users := s.users
  match userControllerTask with
  | none => (.failed (.referenceError "Task"), s)
  | some _ =>
    let tasks := s.tasks
    let stats : UserStats :=
      { totalUsers := users.length,
        roleStats := [Role.Admin, Role.SubAdmin, Role.Manager, Role.Employee].map
          (fun r => (r, (users.filter (fun u => u.role == r)).length)),
        statusStats := [UserStatus.Active, UserStatus.Inactive, UserStatus.Suspended].map
          (fun st => (st, (users.filter (fun u => u.status == st)).length)),
        departmentStats := tally (users.map (fun u =>
          match u.department with
          | some d => if d != "" then d else "Unassigned"
          | none => "Unassigned")),
        tasksPerUser := tally (tasks.map (fun t =>
          if t.assignedTo != 0 then some t.assignedTo else none)) }
    (Reply.ok 200 (.userStats stats), s)

/-! ## `controllers/analyticsController.js` -/

/-- A row of a grouped count (`group: [column]` with `COUNT`): the value of the grouping
column, which is null for the group of rows without a value, and the count. -/
structure Group where
  key : Field String
  count : Nat
  deriving DecidableEq, Repr

/-- The assignment `acc[key] = count` on a mapping: the entry of an existing key is replaced,
a new key is added.  (Keys that name accessors of `Object.prototype`, such as `__proto__`, are
outside the model.) -/
def setKey : List (String × Nat) → String → Nat → List (String × Nat)
  | [], key, count => [(key, count)]
  | (k, v) :: rest, key, count =>
    if k = key then (key, count) :: rest else (k, v) :: setKey rest key count

/-- The read `acc[key]` of a mapping; `none` is `undefined`. -/
def getKey : List (String × Nat) → String → Option Nat
  | [], _ => none
  | (k, v) :: rest, key => if k = key then some v else getKey rest key

/-- The property key that a value becomes when it is used as `acc[value]`: `null` becomes
`'null'` and `undefined` becomes `'undefined'`. -/
def propertyKey : Field String → String
  | .absent => "undefined"
  | .null => "null"
  | .val text => text

/-- The reduce `data.reduce((acc, item) => { acc[keyOf(item)] = count; return acc }, {})`
shared by the distribution helpers. -/
def distribution (keyOf : Field String → String) (data : List Group) : List (String × Nat) :=
  data.foldl (fun acc item => setKey acc (keyOf item.key) item.count) []

/-- The helper `formatDistribution(data, keyField)` of `getDashboardAnalytics`:
`acc[item.getDataValue(keyField)] = item.getDataValue('count')`. -/
def formatDistribution (data : List Group) : List (String × Nat) :=
  distribution propertyKey data

/-- The reduce `tasksByCategory` of `getTaskAnalytics`:
`acc[item.category || 'Uncategorized'] = count`. -/
def tasksByCategory (byCategory : List Group) : List (String × Nat) :=
  distribution (fun key => key.orStr "Uncategorized") byCategory

/-- The reduce `machinesByDepartment` of `getMachineAnalytics`:
`acc[item.department || 'Unassigned'] = count`. -/
def machinesByDepartment (byDepartment : List Group) : List (String × Nat) :=
  distribution (fun key => key.orStr "Unassigned") byDepartment

/-- The reduce `usersByDepartment` of `getUserAnalytics`:
`acc[item.department || 'Unassigned'] = count`. -/
def usersByDepartment (byDepartment : List Group) : List (String × Nat) :=
  distribution (fun key => key.orStr "Unassigned") byDepartment

/-- The reduce `userStatusDistribution` of `getUserAnalytics`: `acc[item.status] = count`. -/
def userStatusDistribution (userStatus : List Group) : List (String × Nat) :=
  distribution propertyKey userStatus

/-- The query `findAll({ group: [column], attributes: [column, COUNT] })` over the values of
the column in the rows: one group per distinct value, with the number of its rows. -/
def groupCount (values : List (Field String)) : List Group :=
  values.dedup.map (fun v => { key := v, count := values.count v })

/-- The text of a task status. -/
def Status.label : Status → String
  | .Pending => "Pending"
  | .InProgress => "In Progress"
  | .Completed => "Completed"
  | .Cancelled => "Cancelled"

/-- The text of a task category. -/
def Category.label : Category → String
  | .Production => "Production"
  | .Maintenance => "Maintenance"
  | .QualityCheck => "Quality Check"
  | .Training => "Training"
  | .Other => "Other"

/-- The text of a user status. -/
def UserStatus.label : UserStatus → String
  | .Active => "Active"
  | .Inactive => "Inactive"
  | .Suspended => "Suspended"

/-- The value of a nullable column as the key of a group. -/
def columnKey {α : Type} (label : α → String) : Option α → Field String
  | none => .null
  | some a => .val (label a)

/-- The member `taskStatusDistribution` of the data of `getDashboardAnalytics`. -/
def taskStatusDistribution (s : Store) : List (String × Nat) :=
  formatDistribution (groupCount (s.tasks.map (fun t => columnKey Status.label t.status)))

/-- The member `tasksByCategory` of the data of `getTaskAnalytics`. -/
def taskCategoryDistribution (s : Store) : List (String × Nat) :=
  tasksByCategory (groupCount (s.tasks.map (fun t => columnKey Category.label t.category)))

/-- The member `machinesByDepartment` of the data of `getMachineAnalytics`. -/
def machineDepartmentDistribution (s : Store) : List (String × Nat) :=
  machinesByDepartment (groupCount (s.machines.map (fun m => columnKey id m.department)))

/-- The reduce `tasksPerUser` of `getUserAnalytics` over the tasks grouped by their joined
`assignedUser`: a group without a joined user is skipped and the others are recorded under
the user's name. -/
def tasksPerUser (s : Store) : List (String × Nat) :=
  let joined := s.tasks.filterMap (fun t =>
    (findUserByPk s.users t.assignedTo).map (fun u => (u.id, u.name)))
  joined.dedup.foldl (fun acc g => setKey acc g.2 (joined.count g)) []

/-- Handler of `GET /api/analytics/users`.  The rows of the Users table are kept in order of
creation, so `order: [['createdAt', 'DESC']]` with `limit: 10` is the last ten rows,
latest first. -/
def getUserAnalytics (s : Store) : Reply × Store :=
  let totalUsers := s.users.length
  let activeUsers := (s.users.filter (fun u => u.status == UserStatus.Active)).length
  let userStatus := groupCount (s.users.map (fun u => .val u.status.label))
  let byDepartment := groupCount (s.users.map (fun u => columnKey id u.department))
  let recentUsers := (s.users.reverse.take 10).map User.withoutPassword
  (Reply.ok 200 (.userAnalytics
    { userStatusDistribution := userStatusDistribution userStatus,
      usersByDepartment := usersByDepartment byDepartment,
      tasksPerUser := tasksPerUser s,
      recentUsers := recentUsers,
      totalUsers := totalUsers,
      activeUsers := activeUsers }), s)

/-! ## Routers (`routes/tasks.js`, `routes/users.js`, `routes/machines.js`) -/

/-- The routes of the three routers. -/
inductive Route
  | tasksList | tasksCreate | taskGet | taskUpdate | taskDelete | taskProgress | taskComment
  | tasksOfEmployee | tasksFilter
  | usersList | usersCreate | usersEmployees | usersStats | userGet | userUpdate | userDelete
  | userResetPassword
  | machinesList | machinesCreate | machineGet | machineUpdate | machineDelete
  | machineStatus | machineMaintenance
  deriving DecidableEq, Repr

/-- The role list of the `authorize(...)` middleware of a route; `none` for a route that has
no `authorize`. -/
def Route.authorizeList : Route → Option (List Role)
  | .tasksList => none
  | .tasksCreate => some [.Admin, .SubAdmin, .Manager]
  | .taskGet => none
  | .taskUpdate => none
  | .taskDelete => some [.Admin, .SubAdmin]
  | .taskProgress => none
  | .taskComment => none
  | .tasksOfEmployee => some [.Admin, .SubAdmin, .Manager]
  | .tasksFilter => none
  | .usersList => some [.Admin, .SubAdmin]
  | .usersCreate => some [.Admin, .SubAdmin]
  | .usersEmployees => some [.Admin, .SubAdmin, .Manager]
  | .usersStats => some [.Admin, .SubAdmin]
  | .userGet => some [.Admin, .SubAdmin]
  | .userUpdate => some [.Admin, .SubAdmin]
  | .userDelete => some [.Admin, .SubAdmin]
  | .userResetPassword => some [.Admin, .SubAdmin]
  | .machinesList => none
  | .machinesCreate => some [.Admin, .SubAdmin]
  | .machineGet => none
  | .machineUpdate => some [.Admin, .SubAdmin]
  | .machineDelete => some [.Admin, .SubAdmin]
  | .machineStatus => some [.Admin, .SubAdmin, .Manager]
  | .machineMaintenance => some [.Admin, .SubAdmin, .Manager]

/-- Modelled from the spec: `middleware/auth.js` is not among the sources.  By §4.1 and §6 of
the specification, `authorize(...roles)` lets a request through when the caller's role is one
of the listed roles and otherwise denies it with Forbidden (403). -/
def authorize (roles : List Role) (c : Caller) : Bool :=
  roles.contains c.role

/-- Modelled from the spec: the deny signal of `middleware/auth.js`, 401 for a request with no
caller identity and 403 for a caller whose role is not listed.  The message text is not
specified. -/
def Reply.deny (status : Nat) : Reply :=
  .sent { status := status, success := false, message := none, data := .none, count := none,
          pagination := none, newPassword := none }

/-- The body of the machine routes. -/
structure MachineBody where
  name : Field String
  model : Field String
  status : Field MachineStatus
  location : Field String
  department : Field String
  assignedTechnician : Field Int
  notes : Field String
  deriving DecidableEq, Repr

/-- What a machine handler receives: the caller's id and name, the route parameter, the query
and the body. -/
structure MachineInput where
  callerId : Int
  callerName : String
  id : Int
  query : Query
  body : MachineBody
  now : Int
  deriving DecidableEq, Repr

/-- Modelled from the spec: `controllers/machineController.js` is not among the sources.  By
§4.1 of the specification the machine actions have no check beyond the role list of their
route, so each handler is a function of the store and of the request without the caller's
role. -/
structure MachineController where
  getMachines : Store → MachineInput → Reply × Store
  getMachine : Store → MachineInput → Reply × Store
  createMachine : Store → MachineInput → Reply × Store
  updateMachine : Store → MachineInput → Reply × Store
  deleteMachine : Store → MachineInput → Reply × Store
  addMaintenanceRecord : Store → MachineInput → Reply × Store
  updateMachineStatus : Store → MachineInput → Reply × Store

/-- A request: the caller set by `protect`, the route parameter, the query, the body as each
handler reads it, and the values the handlers take from the clock and the random source. -/
structure Request where
  caller : Option Caller
  id : Int
  query : Query
  updateBody : UpdateBody
  createBody : CreateBody
  progress : Json
  comment : Field String
  userBody : UserBody
  machineBody : MachineBody
  uuid : String
  now : Int
  deriving DecidableEq, Repr

/-- The input of a machine handler for a request of caller `c`. -/
def Request.machineInput (req : Request) (c : Caller) : MachineInput :=
  { callerId := c.id, callerName := c.name, id := req.id, query := req.query,
    body := req.machineBody, now := req.now }

/-- The handler a route is bound to, applied to a request of caller `c`. -/
def Route.handler (env : Env) (mc : MachineController) (route : Route) (c : Caller)
    (req : Request) (s : Store) : Reply × Store :=
  match route with
  | .tasksList => getTasks s req.query
  | .tasksCreate => createTask env.db s (some c) req.createBody req.now
  | .taskGet => getTask s (some c) req.id
  | .taskUpdate => updateTask s (some c) req.id req.updateBody
  | .taskDelete => deleteTask s req.id
  | .taskProgress => updateTaskProgress env.db s (some c) req.id req.progress
  | .taskComment => addTaskComment s (some c) req.id req.comment req.uuid req.now
  | .tasksOfEmployee => getEmployeeTasks s req.id req.query
  | .tasksFilter => getTasksByUser s req.id
  | .usersList => getUsers s req.query
  | .usersCreate => createUser env s req.userBody
  | .usersEmployees => getEmployees s
  | .usersStats => getUserStats s
  | .userGet => getUser s req.id
  | .userUpdate => updateUser env s req.id req.userBody
  | .userDelete => deleteUser s req.id
  | .userResetPassword => resetUserPassword env s req.id
  | .machinesList => mc.getMachines s (req.machineInput c)
  | .machinesCreate => mc.createMachine s (req.machineInput c)
  | .machineGet => mc.getMachine s (req.machineInput c)
  | .machineUpdate => mc.updateMachine s (req.machineInput c)
  | .machineDelete => mc.deleteMachine s (req.machineInput c)
  | .machineStatus => mc.updateMachineStatus s (req.machineInput c)
  | .machineMaintenance => mc.addMaintenanceRecord s (req.machineInput c)

/-- A request through a router: `protect`, then the route's `authorize` if it has one, then
the handler. -/
def serve (env : Env) (mc : MachineController) (route : Route) (req : Request) (s : Store) :
    Reply × Store :=
  match req.caller with
  | none => (Reply.deny 401, s)
  | some c =>
    match route.authorizeList with
    | none => route.handler env mc c req s
    | some roles =>
      if authorize roles c then route.handler env mc c req s else (Reply.deny 403, s)

/-- A serialised user `v` shows the row `u` without its password: the key `password` is
missing and every other attribute has the stored value. -/
def UserView.isPublicOf (v : UserView) (u : User) : Prop :=
  v.password = none ∧ v.id = u.id ∧ v.name = u.name ∧ v.email = u.email ∧ v.role = u.role ∧
  v.status = u.status ∧ v.avatar = u.avatar ∧ v.department = u.department ∧
  v.phone = u.phone ∧ v.address = u.address ∧ v.lastLogin = u.lastLogin ∧
  v.resetPasswordToken = u.resetPasswordToken ∧
  v.resetPasswordExpire = u.resetPasswordExpire ∧ v.emailVerified = u.emailVerified ∧
  v.twoFactorEnabled = u.twoFactorEnabled

/-! ## Sequences of task requests -/

/-- A request to one of the five task handlers that write to the Tasks table. -/
inductive TaskRequest
  | createTask (caller : Option Caller) (body : CreateBody) (now : Int)
  | updateTask (caller : Option Caller) (id : Int) (body : UpdateBody)
  | updateTaskProgress (caller : Option Caller) (id : Int) (progress : Json)
  | addTaskComment (caller : Option Caller) (id : Int) (comment : Field String)
      (uuid : String) (now : Int)
  | deleteTask (id : Int)
  deriving DecidableEq, Repr

/-- The store after a request. -/
def TaskRequest.run (db : Database) (s : Store) : TaskRequest → Store
  | .createTask caller body now => (Crm.createTask db s caller body now).2
  | .updateTask caller id body => (Crm.updateTask s caller id body).2
  | .updateTaskProgress caller id progress =>
    (Crm.updateTaskProgress db s caller id progress).2
  | .addTaskComment caller id comment uuid now =>
    (Crm.addTaskComment s caller id comment uuid now).2
  | .deleteTask id => (Crm.deleteTask s id).2

/-- The store after a sequence of requests. -/
def runAll (db : Database) (s : Store) (requests : List TaskRequest) : Store :=
  requests.foldl (TaskRequest.run db) s

/-- Whether a request leaves the pairing of progress and status to `updateTaskProgress`: a
`PUT /api/tasks/:id` whose body has neither `progress` nor `status`, a
`PUT /api/tasks/:id/progress` whose `progress` is missing, null or an integer number, or a
request to another handler. -/
def TaskRequest.derivesStatus : TaskRequest → Bool
  | .updateTask _ _ body => body.progress == .absent && body.status == .absent
  | .updateTaskProgress _ _ .absent => true
  | .updateTaskProgress _ _ .null => true
  | .updateTaskProgress _ _ (.num _ 0) => true
  | .updateTaskProgress _ _ _ => false
  | _ => true

/-- The consistency of progress and status: progress 100 goes with 'Completed', and a
progress strictly between 0 and 100 goes with 'In Progress'. -/
def Task.consistent (t : Task) : Prop :=
  (t.progress = some 100 → t.status = some Status.Completed) ∧
  (∀ p, t.progress = some p → 0 < p → p < 100 → t.status = some Status.InProgress)

/-! ## Sample data -/

/-- A user row with the defaults of `models/User.js`. -/
def mkUser (id : Int) (name : String) (role : Role) : User :=
  { id := id, name := name, email := name ++ "@example.com", password := "$2a$10$hash",
    role := role, status := .Active, avatar := "", department := some "General", phone := "",
    address := "", lastLogin := none, resetPasswordToken := none,
    resetPasswordExpire := none, emailVerified := false, twoFactorEnabled := false }

/-- Task 7, assigned to Manager 5 with Employees 10 and 11, as `createTask` stores it. -/
def task7 : Task :=
  { id := 7, title := "Calibrate press", description := "Monthly calibration",
    assignedTo := 5, employees := some [10, 11], deadline := 604800000,
    priority := some .Medium, status := some .Pending, progress := some 0, machine := none,
    category := some .Production, attachments := some [], comments := some [],
    estimatedHours := some 0, actualHours := some 0, tags := some [], location := some "",
    isRecurring := some false, recurringPattern := some .Weekly, createdBy := some 1 }

/-- A store with an Admin (1), a Sub Admin (2), the Manager Ana (5), two Employees (10, 11)
and task 7. -/
def store7 : Store :=
  { users := [mkUser 1 "Root" .Admin, mkUser 2 "Sam" .SubAdmin, mkUser 5 "Ana" .Manager,
              mkUser 10 "Eve" .Employee, mkUser 11 "Bob" .Employee],
    machines := [], tasks := [task7], nextTaskId := 8, nextUserId := 12 }

/-- The Employee 10 as a caller. -/
def eve : Caller := { id := 10, name := "Eve", role := .Employee }

/-- The Manager 5 as a caller. -/
def ana : Caller := { id := 5, name := "Ana", role := .Manager }

/-- The Admin 1 as a caller. -/
def root : Caller := { id := 1, name := "Root", role := .Admin }

/-- Task 8, reassigned to Employee 10 (an Admin's `updateTask` with `assignedTo: 10`). -/
def task8 : Task := { task7 with id := 8, assignedTo := 10, title := "Clean filters" }

/-- The store `store7` with task 8 added. -/
def store8 : Store := { store7 with tasks := [task7, task8], nextTaskId := 9 }

/-- A well-formed body for `createTask`: Manager "Ana" named by name, Employees 10 and 11,
no machine and no optional field. -/
def createBody : CreateBody :=
  { title := .val "Calibrate press", description := .val "Monthly calibration",
    assignedTo := .val (.name "Ana"), employees := .val [10, 11], deadline := .absent,
    priority := .absent, machine := .absent, category := .absent, estimatedHours := .absent,
    location := .absent, isRecurring := .absent, recurringPattern := .absent }

/-- The users of `store7` with an empty Tasks table. -/
def store0 : Store := { store7 with tasks := [], nextTaskId := 1 }

/-- Machine 3, the press "P-100". -/
def press : Machine :=
  { id := 3, name := "P-100", model := "HX", status := .Operational, location := "Hall A",
    department := some "Production", assignedTechnician := none }

/-- The store `store0` with machine 3. -/
def store3 : Store := { store0 with machines := [press] }

/-- The body `createBody` with the machine named "P-100". -/
def createBodyPress : CreateBody := { createBody with machine := .val (.name "P-100") }

/-- The body `createBody` with the assignee given as the string "5". -/
def createBodyFive : CreateBody := { createBody with assignedTo := .val (.name "5") }

/-- The body `createBody` with the machine given as the string "3". -/
def createBodyThree : CreateBody := { createBody with machine := .val (.name "3") }

/-- A query with only `page` and `limit` set. -/
def pageQuery (page limit : String) : Query :=
  { page := some page, limit := some limit, status := none, priority := none,
    assignedTo := none, role := none, department := none, userStatus := none }

/-- Three machines: one without a department and two of the department named
"Unassigned". -/
def machines3 : List Machine :=
  [{ press with id := 1, name := "M-1", department := none },
   { press with id := 2, name := "M-2", department := some "Unassigned" },
   { press with id := 4, name := "M-4", department := some "Unassigned" }]

/-- A database for the examples.  A string that consists of digits is compared with an
INTEGER column, and stored in one, as the number it writes; a number is compared with a
STRING column through its decimal text; two strings are equal when they are the same; and a
value that is neither an integer nor a string of digits is refused by an INTEGER column. -/
def db0 : Database :=
  { idEq := fun i m =>
      match i with
      | .id n => n == m
      | .name text =>
        match digitString text with
        | some n => (n : Int) == m
        | none => false,
    nameEq := fun i name =>
      match i with
      | .id n => toString n == name
      | .name text => text == name,
    toInteger := fun value =>
      match value with
      | .str text => (digitString text).map Int.ofNat
      | _ => none,
    idEq_id := fun _ _ => rfl,
    idEq_digits := fun s n m h _ => by simp only [h],
    nameEq_self := fun name => by simp,
    toInteger_digits := fun s n h _ => by simp only [h, Option.map_some', Int.ofNat_eq_coe] }

/-- A hashing environment for the examples. -/
def env0 : Env :=
  { hash := fun p => "hash:" ++ p, isEmail := fun e => e.toList.contains '@',
    randomHex := "0f0f0f0f0f0f0f0f", db := db0 }

/-- The body of a request that creates the Employee "Kim". -/
def kimBody : UserBody :=
  { name := .val "Kim", email := .val "kim@example.com", password := .val "secret1",
    role := .val .Employee, status := .absent, avatar := .absent, department := .absent,
    phone := .absent, address := .absent, emailVerified := .absent,
    twoFactorEnabled := .absent }

/-- The body `{ role: 'Employee' }` of a `PUT /api/users/:id`. -/
def employeeRoleBody : UserBody :=
  { name := .absent, email := .absent, password := .absent, role := .val .Employee,
    status := .absent, avatar := .absent, department := .absent, phone := .absent,
    address := .absent, emailVerified := .absent, twoFactorEnabled := .absent }

/-- The user 5 as a caller once the role is 'Employee'. -/
def anaEmployee : Caller := { id := 5, name := "Ana", role := .Employee }

/-- The comment "done" of Manager 5, as `addTaskComment` builds it. -/
def doneComment : Comment :=
  { id := "u-1", user := 5, userName := "Ana", comment := "done", createdAt := 5 }

/-- Task 7 with the comment "done". -/
def task7Commented : Task := { task7 with comments := some [doneComment] }

/-- A request `GET /api/tasks?page=1&limit=10` with empty bodies and no caller yet. -/
def request0 : Request :=
  { caller := none, id := 0, query := pageQuery "1" "10", updateBody := UpdateBody.empty,
    createBody := createBody, progress := .absent, comment := .absent, userBody := kimBody,
    machineBody := { name := .absent, model := .absent, status := .absent,
                     location := .absent, department := .absent,
                     assignedTechnician := .absent, notes := .absent },
    uuid := "u-1", now := 0 }

/-! ## Lemmas on the ORM operations -/

theorem findByPk_id {tasks : List Task} {id : Int} {t : Task}
    (h : findByPk tasks id = some t) : t.id = id := by
  have hp := List.find?_some h
  simpa using hp

theorem findByPk_mem {tasks : List Task} {id : Int} {t : Task}
    (h : findByPk tasks id = some t) : t ∈ tasks :=
  List.mem_of_find?_eq_some h

theorem findByPk_cons (x : Task) (xs : List Task) (id : Int) :
    findByPk (x :: xs) id = if x.id = id then some x else findByPk xs id := by
  by_cases hx : x.id = id <;> simp [findByPk, List.find?_cons, hx]

theorem saveTask_cons (x : Task) (xs : List Task) (u : Task) :
    saveTask (x :: xs) u = (if x.id = u.id then u else x) :: saveTask xs u := by
  by_cases hx : x.id = u.id <;> simp [saveTask, hx]

theorem findByPk_saveTask_self {tasks : List Task} {id : Int} {t u : Task}
    (h : findByPk tasks id = some t) (hid : u.id = id) :
    findByPk (saveTask tasks u) id = some u := by
  induction tasks with
  | nil => simp [findByPk] at h
  | cons x xs ih =>
    rw [saveTask_cons, findByPk_cons]
    rw [findByPk_cons] at h
    by_cases hx : x.id = id
    · have hxu : x.id = u.id := by rw [hx, hid]
      rw [if_pos hxu, if_pos hid]
    · have hxu : ¬ x.id = u.id := by rw [hid]; exact hx
      rw [if_neg hx] at h
      rw [if_neg hxu, if_neg hx]
      exact ih h

theorem findByPk_saveTask_other {tasks : List Task} {id : Int} {u : Task}
    (hid : u.id ≠ id) : findByPk (saveTask tasks u) id = findByPk tasks id := by
  induction tasks with
  | nil => rfl
  | cons x xs ih =>
    rw [saveTask_cons, findByPk_cons, findByPk_cons]
    by_cases hx : x.id = u.id
    · have hx2 : ¬ x.id = id := fun h => hid (hx ▸ h)
      rw [if_pos hx, if_neg hid, if_neg hx2]
      exact ih
    · rw [if_neg hx, ih]

theorem Task.updateProgress_integer (db : Database) (t : Task) (p : Int) (st : Field Status)
    (h0 : 0 ≤ p) (h100 : p ≤ 100) :
    t.updateProgress db (.num p 0) st =
      .ok { t with progress := some p, status := st.assign t.status } := by
  have h1 : ¬ p < 0 := by omega
  have h2 : ¬ 100 < p := by omega
  simp [Task.updateProgress, Json.validatorNumber, Numeric.ltZero, Numeric.gtHundred,
    Database.integerColumn, Json.integer?, h1, h2]

theorem Task.updateProgress_ok {db : Database} {t u : Task} {progress : Json}
    {st : Field Status} (h : t.updateProgress db progress st = .ok u) :
    u.status = st.assign t.status ∧
    (progress = .absent → u.progress = t.progress) ∧
    (progress = .null → u.progress = none) ∧
    (∀ n : Int, progress = .num n 0 → u.progress = some n) := by
  unfold Task.updateProgress at h
  split at h
  · cases h
    exact ⟨rfl, fun _ => rfl, (fun h => nomatch h), (fun n h => nomatch h)⟩
  · cases h
    exact ⟨rfl, (fun h => nomatch h), fun _ => rfl, (fun n h => nomatch h)⟩
  · rename_i hna hnn
    split at h
    · cases h
    · split at h
      · cases h
      · rename_i n hn
        cases h
        refine ⟨rfl, fun h => absurd h hna, fun h => absurd h hnn, ?_⟩
        intro m hm
        subst hm
        simp [Database.integerColumn, Json.integer?] at hn
        simp [hn]

theorem progressOutOfRange_integer (p : Int) :
    progressOutOfRange (.num p 0) = (decide (p < 0) || decide (100 < p)) := by
  simp [progressOutOfRange, Json.toNumber, Numeric.ltZero, Numeric.gtHundred]

theorem statusForProgress_integer (p : Int) :
    statusForProgress (.num p 0) =
      if p = 100 then .val .Completed else if 0 < p then .val .InProgress else .absent := by
  simp [statusForProgress, Json.isHundred, Json.toNumber, Numeric.gtZero]

theorem Task.update_allowedFields (t : Task) (b : UpdateBody) (hd : b.deadline ≠ .null)
    (hp : ∀ p, b.progress = .val p → 0 ≤ p ∧ p ≤ 100) :
    t.update (allowedFields b) =
      .ok { t with deadline := (match b.deadline with
                                | .val d => d
                                | _ => t.deadline),
                   priority := b.priority.assign t.priority,
                   machine := b.machine.assign t.machine,
                   progress := b.progress.assign t.progress,
                   status := b.status.assign t.status } := by
  cases hdl : b.deadline with
  | null => exact absurd hdl hd
  | absent =>
    cases hprog : b.progress with
    | val p =>
      simp [Task.update, allowedFields, UpdateBody.empty, Field.assignRequired, Field.check,
        Field.assign, hdl, hprog, hp p hprog, bind, Except.bind, pure, Except.pure]
    | absent =>
      simp [Task.update, allowedFields, UpdateBody.empty, Field.assignRequired, Field.check,
        Field.assign, hdl, hprog, bind, Except.bind, pure, Except.pure]
    | null =>
      simp [Task.update, allowedFields, UpdateBody.empty, Field.assignRequired, Field.check,
        Field.assign, hdl, hprog, bind, Except.bind, pure, Except.pure]
  | val d =>
    cases hprog : b.progress with
    | val p =>
      simp [Task.update, allowedFields, UpdateBody.empty, Field.assignRequired, Field.check,
        Field.assign, hdl, hprog, hp p hprog, bind, Except.bind, pure, Except.pure]
    | absent =>
      simp [Task.update, allowedFields, UpdateBody.empty, Field.assignRequired, Field.check,
        Field.assign, hdl, hprog, bind, Except.bind, pure, Except.pure]
    | null =>
      simp [Task.update, allowedFields, UpdateBody.empty, Field.assignRequired, Field.check,
        Field.assign, hdl, hprog, bind, Except.bind, pure, Except.pure]

theorem Task.update_allowedFields_error (t : Task) (b : UpdateBody)
    (h : b.deadline = .null ∨ ∃ p, b.progress = .val p ∧ (p < 0 ∨ 100 < p)) :
    ∃ e, t.update (allowedFields b) = .error e := by
  cases hdl : b.deadline with
  | null =>
    exact ⟨.validation "deadline", by
      simp [Task.update, allowedFields, UpdateBody.empty, Field.assignRequired, hdl, bind,
        Except.bind]⟩
  | absent =>
    rcases h with h | ⟨p, hp, hr⟩
    · simp [hdl] at h
    · have hr2 : ¬ (0 ≤ p ∧ p ≤ 100) := by omega
      exact ⟨.validation "progress", by
        simp [Task.update, allowedFields, UpdateBody.empty, Field.assignRequired,
          Field.check, hdl, hp, hr2, bind, Except.bind, pure, Except.pure]⟩
  | val d =>
    rcases h with h | ⟨p, hp, hr⟩
    · simp [hdl] at h
    · have hr2 : ¬ (0 ≤ p ∧ p ≤ 100) := by omega
      exact ⟨.validation "progress", by
        simp [Task.update, allowedFields, UpdateBody.empty, Field.assignRequired,
          Field.check, hdl, hp, hr2, bind, Except.bind, pure, Except.pure]⟩

theorem Task.update_ok {t u : Task} {d : UpdateBody} (h : t.update d = .ok u) :
    u.id = t.id ∧ u.progress = d.progress.assign t.progress ∧
    u.status = d.status.assign t.status ∧
    (∀ p, d.progress = .val p → 0 ≤ p ∧ p ≤ 100) := by
  unfold Task.update at h
  simp only [bind, Except.bind, pure, Except.pure] at h
  repeat' split at h
  all_goals cases h
  have hc : ∃ v, (Field.check "progress" d.progress
      fun p => decide (0 ≤ p) && decide (p ≤ 100)) = Except.ok v := ⟨_, by assumption⟩
  refine ⟨rfl, rfl, rfl, ?_⟩
  intro p hp
  obtain ⟨v, hv⟩ := hc
  simp only [hp, Field.check] at hv
  split at hv
  · rename_i hin
    simpa using hin
  · cases hv

theorem Task.create_ok {id : Int} {body : CreateBody} {assignedUser : User}
    {machineId : Option Int} {createdBy now : Int} {task : Task}
    (h : Task.create id body assignedUser machineId createdBy now = .ok task) :
    task.id = id ∧ task.assignedTo = assignedUser.id ∧ task.progress = some 0 ∧
    task.status = some Status.Pending ∧ task.machine = machineId ∧
    task.createdBy = some createdBy ∧ task.employees = some body.employees.items := by
  unfold Task.create at h
  simp only [bind, Except.bind, pure, Except.pure, throw, throwThe, MonadExceptOf.throw] at h
  repeat' split at h
  all_goals cases h
  exact ⟨rfl, rfl, rfl, rfl, rfl, rfl, rfl⟩

theorem mem_saveTask {tasks : List Task} {u x : Task} (h : x ∈ saveTask tasks u) :
    x = u ∨ x ∈ tasks := by
  simp only [saveTask, List.mem_map] at h
  obtain ⟨y, hy, rfl⟩ := h
  split
  · exact Or.inl rfl
  · exact Or.inr hy

theorem createTask_cases (db : Database) (s : Store) (caller : Option Caller)
    (body : CreateBody) (now : Int) :
    ((createTask db s caller body now).2 = s ∧
      (createTask db s caller body now).1.status? ≠ some 201) ∨
    ∃ c assignedUser machineId task,
      caller = some c ∧ missingRequired body = false ∧
      findManager db s.users body.assignedTo.ident = some assignedUser ∧
      (findEmployees s.users body.employees.items).length = body.employees.items.length ∧
      resolveMachine db s.machines body.machine = some machineId ∧
      Task.create s.nextTaskId body assignedUser machineId c.id now = .ok task ∧
      (createTask db s caller body now).2 =
        { s with tasks := s.tasks ++ [task], nextTaskId := s.nextTaskId + 1 } := by
  unfold createTask
  split
  · exact Or.inl ⟨rfl, by simp [Reply.fail, Reply.status?]⟩
  · rename_i c
    split
    · exact Or.inl ⟨rfl, by simp [Reply.fail, Reply.status?]⟩
    · rename_i hreq
      split
      · exact Or.inl ⟨rfl, by simp [Reply.fail, Reply.status?]⟩
      · rename_i assignedUser hman
        split
        · exact Or.inl ⟨rfl, by simp [Reply.fail, Reply.status?]⟩
        · rename_i hemp
          split
          · exact Or.inl ⟨rfl, by simp [Reply.fail, Reply.status?]⟩
          · rename_i machineId hmach
            split
            · exact Or.inl ⟨rfl, by simp [Reply.status?]⟩
            · rename_i task hcreate
              refine Or.inr ⟨c, assignedUser, machineId, task, rfl, by simpa using hreq, hman,
                by simpa using hemp, hmach, hcreate, ?_⟩
              dsimp only
              split <;> rfl

theorem findEmployees_length_eq {users : List User} {es : List Int}
    (hnodup : (users.map (fun u => u.id)).Nodup)
    (hlen : (findEmployees users es).length = es.length) :
    es.Nodup ∧ ∀ e ∈ es, ∃ u ∈ users, u.id = e ∧ u.role = Role.Employee := by
  have hL : ((findEmployees users es).map (fun u => u.id)).Nodup :=
    hnodup.sublist ((List.filter_sublist _).map _)
  have hsub : (findEmployees users es).map (fun u => u.id) ⊆ es := by
    intro x hx
    obtain ⟨u, hu, rfl⟩ := List.mem_map.mp hx
    have hu2 := (List.mem_filter.mp hu).2
    simp only [Bool.and_eq_true] at hu2
    exact List.elem_iff.mp hu2.1
  have hperm : List.Perm ((findEmployees users es).map (fun u => u.id)) es :=
    (List.subperm_of_subset hL hsub).perm_of_length_le (by simp [hlen])
  refine ⟨hperm.nodup_iff.mp hL, ?_⟩
  intro e he
  obtain ⟨u, hu, rfl⟩ := List.mem_map.mp (hperm.mem_iff.mpr he)
  have hu2 := List.mem_filter.mp hu
  refine ⟨u, hu2.1, rfl, ?_⟩
  have hu3 := hu2.2
  simp only [Bool.and_eq_true, beq_iff_eq] at hu3
  exact hu3.2

theorem findEmployees_length_ne_of_non_employee {users : List User} {es : List Int} {u : User}
    (hnodup : (users.map (fun u => u.id)).Nodup) (hu : u ∈ users)
    (hrole : u.role ≠ Role.Employee) (hmem : u.id ∈ es) :
    (findEmployees users es).length ≠ es.length := by
  intro hlen
  obtain ⟨v, hv, hid, hvrole⟩ := (findEmployees_length_eq hnodup hlen).2 u.id hmem
  have hvu : v = u := List.inj_on_of_nodup_map hnodup hv hu hid
  exact hrole (hvu ▸ hvrole)

theorem updateData_progress_status (caller : Option Caller) (body : UpdateBody) :
    (updateData caller body).progress = body.progress ∧
    (updateData caller body).status = body.status := by
  unfold updateData
  split
  · split <;> exact ⟨rfl, rfl⟩
  · exact ⟨rfl, rfl⟩

theorem TaskRequest.run_consistent (db : Database) (s : Store) (r : TaskRequest)
    (hr : r.derivesStatus = true) (h : ∀ t ∈ s.tasks, t.consistent) :
    ∀ t ∈ (r.run db s).tasks, t.consistent := by
  cases r with
  | updateTask caller id body =>
    simp only [TaskRequest.derivesStatus, Bool.and_eq_true, beq_iff_eq] at hr
    simp only [TaskRequest.run, Crm.updateTask]
    split
    · exact h
    · rename_i task hfind
      split
      · exact h
      · split
        · exact h
        · rename_i u hu
          split
          · intro t ht
            rcases mem_saveTask ht with rfl | ht
            · obtain ⟨-, hp, hs, -⟩ := Task.update_ok hu
              have hc := h task (findByPk_mem hfind)
              rw [(updateData_progress_status caller body).1, hr.1] at hp
              rw [(updateData_progress_status caller body).2, hr.2] at hs
              simp only [Field.assign] at hp hs
              simpa [Task.consistent, hp, hs] using hc
            · exact h t ht
          · exact h
  | createTask caller body now =>
    rcases createTask_cases db s caller body now with
      ⟨h1, -⟩ | ⟨c, au, mid, task, -, -, -, -, -, hc, h1⟩
    · simp only [TaskRequest.run, h1]; exact h
    · simp only [TaskRequest.run, h1]
      intro t ht
      rcases List.mem_append.mp ht with ht | ht
      · exact h t ht
      · obtain rfl := List.mem_singleton.mp ht
        obtain ⟨-, -, hp, hs, -⟩ := Task.create_ok hc
        constructor
        · intro h100; rw [hp] at h100; simp at h100
        · intro p hp2 h0 _; rw [hp] at hp2; cases hp2; omega
  | deleteTask id =>
    simp only [TaskRequest.run, Crm.deleteTask]
    split
    · exact h
    · intro t ht
      exact h t (List.mem_of_mem_filter ht)
  | addTaskComment caller id comment uuid now =>
    simp only [TaskRequest.run, Crm.addTaskComment]
    split
    · exact h
    · split
      · exact h
      · rename_i task hfind
        split
        · exact h
        · split
          · exact h
          · split
            · exact h
            · split
              · exact h
              · rename_i u hu
                intro t ht
                rcases mem_saveTask ht with rfl | ht
                · obtain ⟨-, hp, hs, -⟩ := Task.update_ok hu
                  have hc := h task (findByPk_mem hfind)
                  simp only [UpdateBody.empty, Field.assign] at hp hs
                  simpa [Task.consistent, hp, hs] using hc
                · exact h t ht
  | updateTaskProgress caller id progress =>
    simp only [TaskRequest.run, Crm.updateTaskProgress]
    split
    · exact h
    · split
      · exact h
      · rename_i task hfind
        split
        · exact h
        · split
          · exact h
          · rename_i u hu
            intro t ht
            rcases mem_saveTask ht with rfl | ht
            · obtain ⟨hs, hpa, hpn, hpi⟩ := Task.updateProgress_ok hu
              have hc := h task (findByPk_mem hfind)
              cases progress with
              | absent =>
                have hp := hpa rfl
                have hst : statusForProgress .absent = .absent := rfl
                rw [hst] at hs
                simp only [Field.assign] at hs
                simpa [Task.consistent, hp, hs] using hc
              | null =>
                have hp := hpn rfl
                simp [Task.consistent, hp]
              | num n k =>
                cases k with
                | succ k => simp [TaskRequest.derivesStatus] at hr
                | zero =>
                  have hp := hpi n rfl
                  rw [statusForProgress_integer] at hs
                  constructor
                  · intro h100
                    rw [hp] at h100
                    have hp100 : n = 100 := by simpa using h100
                    rw [hs]; simp [hp100, Field.assign]
                  · intro q hq h0 h100
                    rw [hp] at hq
                    have hpq : n = q := by simpa using hq
                    subst hpq
                    have hne : ¬ n = 100 := by omega
                    rw [hs]; simp [hne, h0, Field.assign]
              | bool b => simp [TaskRequest.derivesStatus] at hr
              | str x => simp [TaskRequest.derivesStatus] at hr
              | compound x => simp [TaskRequest.derivesStatus] at hr
            · exact h t ht

theorem Field.truthyIdent_val {f : Field Ident} (h : f.truthyIdent = true) :
    f = .val f.ident := by
  cases f with
  | absent => simp [Field.truthyIdent] at h
  | null => simp [Field.truthyIdent] at h
  | val i => rfl

theorem missingRequired_false {body : CreateBody} (h : missingRequired body = false) :
    body.assignedTo.truthyIdent = true := by
  simp only [missingRequired, Bool.or_eq_false_iff, Bool.not_eq_false'] at h
  exact h.1.1.2

theorem createTask_employees_mismatch (db : Database) (s : Store) (c : Caller)
    (body : CreateBody) (now : Int) (m : User) (hreq : missingRequired body = false)
    (hman : findManager db s.users body.assignedTo.ident = some m)
    (hlen : (findEmployees s.users body.employees.items).length
      ≠ body.employees.items.length) :
    createTask db s (some c) body now =
      (Reply.fail 404 "One or more assigned employees not found or not employees", s) := by
  simp [createTask, hreq, hman, hlen]

theorem Task.create_ok_eq {id : Int} {body : CreateBody} {assignedUser : User}
    {machineId : Option Int} {createdBy now : Int} {task : Task}
    (h : Task.create id body assignedUser machineId createdBy now = .ok task) :
    task = { id := id, title := body.title.text, description := body.description.text,
             assignedTo := assignedUser.id, employees := some body.employees.items,
             deadline := body.deadline.orNum (now + sevenDays),
             priority := some (body.priority.orElse .Medium), status := some .Pending,
             progress := some 0, machine := machineId,
             category := some (body.category.orElse .Production), attachments := some [],
             comments := some [], estimatedHours := some (body.estimatedHours.orNum 0),
             actualHours := some 0, tags := some [],
             location := some (body.location.orStr ""),
             isRecurring := some body.isRecurring.orBool,
             recurringPattern := some (body.recurringPattern.orElse .Weekly),
             createdBy := some createdBy } := by
  unfold Task.create at h
  simp only [bind, Except.bind, pure, Except.pure, throw, throwThe, MonadExceptOf.throw] at h
  repeat' split at h
  all_goals cases h
  rfl

theorem findByPk_append_self (xs : List Task) (t : Task) :
    findByPk (xs ++ [t]) t.id ≠ none := by
  intro h
  have h2 := List.find?_eq_none.mp h t (by simp)
  simp at h2

theorem createTask_created {db : Database} {s : Store} {c : Caller} {body : CreateBody}
    {now : Int} {assignedUser : User} {machineId : Option Int} {task : Task}
    (hreq : missingRequired body = false)
    (hman : findManager db s.users body.assignedTo.ident = some assignedUser)
    (hlen : (findEmployees s.users body.employees.items).length
      = body.employees.items.length)
    (hmach : resolveMachine db s.machines body.machine = some machineId)
    (hcreate : Task.create s.nextTaskId body assignedUser machineId c.id now = .ok task) :
    (createTask db s (some c) body now).1.status? = some 201 ∧
    (createTask db s (some c) body now).1.success? = some true ∧
    (createTask db s (some c) body now).2 =
      { s with tasks := s.tasks ++ [task], nextTaskId := s.nextTaskId + 1 } := by
  simp only [createTask, hreq, hman, hlen, hmach, hcreate]
  cases hf : findByPk (s.tasks ++ [task]) task.id with
  | none => exact absurd hf (findByPk_append_self _ _)
  | some created => simp [Reply.ok, Reply.status?, Reply.success?]

theorem missingRequired_iff (body : CreateBody) :
    missingRequired body = true ↔
      ((body.title = .absent ∨ body.title = .null ∨ body.title = .val "") ∨
       (body.description = .absent ∨ body.description = .null ∨
        body.description = .val "") ∨
       (body.assignedTo = .absent ∨ body.assignedTo = .null ∨
        body.assignedTo = .val (.id 0) ∨ body.assignedTo = .val (.name "")) ∨
       (body.employees = .absent ∨ body.employees = .null ∨ body.employees = .val [])) := by
  have ht : body.title.truthyStr = false ↔
      (body.title = .absent ∨ body.title = .null ∨ body.title = .val "") := by
    cases body.title <;> simp [Field.truthyStr]
  have hd : body.description.truthyStr = false ↔
      (body.description = .absent ∨ body.description = .null ∨
        body.description = .val "") := by
    cases body.description <;> simp [Field.truthyStr]
  have ha : body.assignedTo.truthyIdent = false ↔
      (body.assignedTo = .absent ∨ body.assignedTo = .null ∨
        body.assignedTo = .val (.id 0) ∨ body.assignedTo = .val (.name "")) := by
    cases h : body.assignedTo with
    | absent => simp [Field.truthyIdent]
    | null => simp [Field.truthyIdent]
    | val i => cases i <;> simp [Field.truthyIdent]
  have he : (body.employees.present = false ∨ body.employees.items.length = 0) ↔
      (body.employees = .absent ∨ body.employees = .null ∨ body.employees = .val []) := by
    cases h : body.employees with
    | absent => simp [Field.present]
    | null => simp [Field.present]
    | val es => simp [Field.present, Field.items]
  simp only [missingRequired, Bool.or_eq_true, Bool.not_eq_true', beq_iff_eq, or_assoc]
  rw [ht, hd, ha, he]
  simp only [or_assoc]

theorem getTasks_eq (s : Store) (query : Query) :
    getTasks s query =
      (paginated s (s.tasks.filter query.matchesTask) (parseIntOr query.page 1)
        (parseIntOr query.limit 10), s) := rfl

theorem parseIntOr_ne_zero (text : Option String) (dflt : Int) (h : dflt ≠ 0) :
    parseIntOr text dflt ≠ 0 := by
  unfold parseIntOr
  split
  · exact h
  · split
    · exact h
    · assumption

theorem ceilDiv_le_iff (count : Nat) (limit n : Int) (hl : 0 < limit) :
    ceilDiv count limit ≤ n ↔ (count : Int) ≤ n * limit := by
  unfold ceilDiv
  constructor
  · intro h
    have h1 := Int.ediv_add_emod ((count : Int) + limit - 1) limit
    have h2 := Int.emod_lt_of_pos ((count : Int) + limit - 1) hl
    have h3 : limit * (((count : Int) + limit - 1) / limit) ≤ limit * n :=
      Int.mul_le_mul_of_nonneg_left h (le_of_lt hl)
    have h4 : limit * n = n * limit := mul_comm _ _
    omega
  · intro h
    have : ((count : Int) + limit - 1) / limit < n + 1 :=
      Int.ediv_lt_of_lt_mul hl (by linarith)
    omega

theorem ceilDiv_eq_ceil (count : Nat) (limit : Int) (hl : 0 < limit) :
    ceilDiv count limit = ⌈(count : ℚ) / (limit : ℚ)⌉ := by
  have hq : (0 : ℚ) < (limit : ℚ) := by exact_mod_cast hl
  apply le_antisymm
  · rw [ceilDiv_le_iff count limit _ hl]
    have h := Int.le_ceil ((count : ℚ) / (limit : ℚ))
    rw [div_le_iff₀ hq] at h
    exact_mod_cast h
  · rw [Int.ceil_le, div_le_iff₀ hq]
    have h := (ceilDiv_le_iff count limit (ceilDiv count limit) hl).mp le_rfl
    exact_mod_cast h

theorem roundToDouble_of_lt {n : Nat} (h : n < 2 ^ 53) : roundToDouble n = n := by
  unfold roundToDouble
  rw [if_pos h]

theorem roundInt_of_lt {n : Int} (h0 : 0 ≤ n) (h : n < 2 ^ 53) : roundInt n = n := by
  have hn : n.natAbs < 2 ^ 53 := by omega
  have h1 : ¬ n < 0 := by omega
  simp only [roundInt, h1, if_false, roundToDouble_of_lt hn]
  omega

theorem roundInt_nonneg {n : Int} (h0 : 0 ≤ n) : 0 ≤ roundInt n := by
  have h1 : ¬ n < 0 := by omega
  simp only [roundInt, h1, if_false]
  exact Int.ofNat_nonneg _

theorem offsetOf_exact {page limit : Int} (hp : 1 ≤ page) (hl : 0 < limit)
    (hsafe : page * limit < 2 ^ 53) : offsetOf page limit = (page - 1) * limit := by
  have h1 : 0 ≤ page - 1 := by omega
  have h2 : (page - 1) * limit ≤ page * limit := by nlinarith
  have h3 : page - 1 ≤ (page - 1) * limit := by nlinarith
  have h4 : 0 ≤ (page - 1) * limit := mul_nonneg h1 (le_of_lt hl)
  unfold offsetOf
  rw [roundInt_of_lt h1 (by omega), roundInt_of_lt h4 (by omega)]

theorem paginated_sent {s : Store} {matching : List Task} {page limit : Int} {r : Response}
    (h : paginated s matching page limit = .sent r) :
    0 ≤ limit ∧ 0 ≤ offsetOf page limit ∧ r.status = 200 ∧
    r.pagination = some { total := matching.length, pages := ceilDiv matching.length limit,
                          currentPage := page, limit := limit } ∧
    r.data = .taskViews
      (((matching.drop (offsetOf page limit).toNat).take limit.toNat).map s.view) ∧
    r.count = some ((matching.drop (offsetOf page limit).toNat).take limit.toNat).length := by
  unfold paginated at h
  simp only at h
  split at h
  · cases h
  · rename_i hneg
    injection h with h
    subst h
    refine ⟨by omega, by omega, rfl, rfl, rfl, rfl⟩

theorem paginated_ok (s : Store) (matching : List Task) (page limit : Int) (hp : 1 ≤ page)
    (hl : 0 < limit) (hsafe : page * limit < 2 ^ 53) :
    ∃ r, paginated s matching page limit = .sent r ∧ r.status = 200 := by
  have hoff := offsetOf_exact hp hl hsafe
  have h1 : 0 ≤ (page - 1) * limit := mul_nonneg (by omega) (le_of_lt hl)
  have h2 : (page - 1) * limit ≤ page * limit := by nlinarith
  have h3 : limit ≤ page * limit := by nlinarith
  have hneg : ¬ (limit < 0 ∨ offsetOf page limit < 0 ∨ 2 ^ 64 ≤ limit ∨
      2 ^ 64 ≤ offsetOf page limit) := by
    rw [hoff]; omega
  simp only [paginated, hneg, if_false]
  exact ⟨_, rfl, rfl⟩

theorem getKey_setKey_self (acc : List (String × Nat)) (k : String) (v : Nat) :
    getKey (setKey acc k v) k = some v := by
  induction acc with
  | nil => simp [setKey, getKey]
  | cons e rest ih =>
    obtain ⟨k1, v1⟩ := e
    by_cases h : k1 = k
    · simp [setKey, getKey, h]
    · simp [setKey, getKey, h, ih]

theorem getKey_setKey_other (acc : List (String × Nat)) (k k2 : String) (v : Nat)
    (hne : k2 ≠ k) : getKey (setKey acc k v) k2 = getKey acc k2 := by
  induction acc with
  | nil => simp [setKey, getKey, Ne.symm hne]
  | cons e rest ih =>
    obtain ⟨k1, v1⟩ := e
    by_cases h : k1 = k
    · have h2 : ¬ k1 = k2 := fun h3 => hne (h3 ▸ h)
      simp [setKey, getKey, h, h2, Ne.symm hne]
    · by_cases h2 : k1 = k2
      · subst h2
        simp [setKey, getKey, h]
      · simp [setKey, getKey, h, h2, ih]

theorem distribution_foldl_get (keyOf : Field String → String) (k : String) (v : Nat) :
    ∀ (data : List Group) (acc : List (String × Nat)),
      (∀ g ∈ data, keyOf g.key = k → g.count = v) →
      (getKey acc k = some v ∨ ∃ g ∈ data, keyOf g.key = k) →
      getKey (data.foldl (fun acc item => setKey acc (keyOf item.key) item.count) acc) k
        = some v := by
  intro data
  induction data with
  | nil =>
    intro acc _ h
    rcases h with h | ⟨g, hg, -⟩
    · exact h
    · simp at hg
  | cons g gs ih =>
    intro acc hall h
    simp only [List.foldl_cons]
    apply ih
    · intro g2 hg2 hk
      exact hall g2 (List.mem_cons_of_mem _ hg2) hk
    · by_cases hgk : keyOf g.key = k
      · left
        rw [hgk, ← hall g (List.mem_cons_self _ _) hgk]
        exact getKey_setKey_self _ _ _
      · rcases h with h | ⟨g2, hg2, hk⟩
        · left
          rw [getKey_setKey_other _ _ _ _ (Ne.symm hgk)]
          exact h
        · right
          rcases List.mem_cons.mp hg2 with rfl | hg2
          · exact absurd hk hgk
          · exact ⟨g2, hg2, hk⟩

theorem distribution_foldl_none (keyOf : Field String → String) (k : String) :
    ∀ (data : List Group) (acc : List (String × Nat)),
      (∀ g ∈ data, keyOf g.key ≠ k) →
      getKey (data.foldl (fun acc item => setKey acc (keyOf item.key) item.count) acc) k
        = getKey acc k := by
  intro data
  induction data with
  | nil => intro acc _; rfl
  | cons g gs ih =>
    intro acc hall
    simp only [List.foldl_cons]
    rw [ih _ (fun g2 hg2 => hall g2 (List.mem_cons_of_mem _ hg2))]
    exact getKey_setKey_other _ _ _ _ (Ne.symm (hall g (List.mem_cons_self _ _)))

theorem distribution_foldl_isSome (keyOf : Field String → String) (k : String) :
    ∀ (data : List Group) (acc : List (String × Nat)),
      ((getKey acc k).isSome = true ∨ ∃ g ∈ data, keyOf g.key = k) →
      (getKey (data.foldl (fun acc item => setKey acc (keyOf item.key) item.count) acc)
        k).isSome = true := by
  intro data
  induction data with
  | nil =>
    intro acc h
    rcases h with h | ⟨g, hg, -⟩
    · exact h
    · simp at hg
  | cons g gs ih =>
    intro acc h
    simp only [List.foldl_cons]
    apply ih
    by_cases hgk : keyOf g.key = k
    · left
      rw [hgk, getKey_setKey_self]
      rfl
    · rcases h with h | ⟨g2, hg2, hk⟩
      · left
        rw [getKey_setKey_other _ _ _ _ (Ne.symm hgk)]
        exact h
      · right
        rcases List.mem_cons.mp hg2 with rfl | hg2
        · exact absurd hk hgk
        · exact ⟨g2, hg2, hk⟩

theorem distribution_get (keyOf : Field String → String) (data : List Group) (g : Group)
    (hg : g ∈ data) (huniq : ∀ g2 ∈ data, keyOf g2.key = keyOf g.key → g2.count = g.count) :
    getKey (distribution keyOf data) (keyOf g.key) = some g.count :=
  distribution_foldl_get keyOf _ _ data [] huniq (Or.inr ⟨g, hg, rfl⟩)

theorem distribution_isSome (keyOf : Field String → String) (data : List Group) (g : Group)
    (hg : g ∈ data) : (getKey (distribution keyOf data) (keyOf g.key)).isSome = true :=
  distribution_foldl_isSome keyOf _ data [] (Or.inr ⟨g, hg, rfl⟩)

theorem distribution_key (keyOf : Field String → String) (data : List Group) (k : String)
    (h : getKey (distribution keyOf data) k ≠ none) : ∃ g ∈ data, keyOf g.key = k := by
  by_contra hnone
  apply h
  have hall : ∀ g ∈ data, keyOf g.key ≠ k := fun g hg hk => hnone ⟨g, hg, hk⟩
  have := distribution_foldl_none keyOf k data [] hall
  simpa [distribution, getKey] using this

theorem Field.orStr_cases (f : Field String) (dflt : String) :
    f.orStr dflt = dflt ∨ ∃ x, f = .val x ∧ x ≠ "" ∧ f.orStr dflt = x := by
  cases f with
  | absent => exact Or.inl rfl
  | null => exact Or.inl rfl
  | val x =>
    by_cases hx : x = ""
    · left; simp [Field.orStr, hx]
    · right; exact ⟨x, rfl, hx, by simp [Field.orStr, hx]⟩

theorem mem_saveUser {users : List User} {id : Int} {user updated : User}
    (hfind : findUserByPk users id = some user) (hid : updated.id = user.id) :
    updated ∈ saveUser users updated := by
  have hmem : user ∈ users := List.mem_of_find?_eq_some hfind
  simp only [saveUser, List.mem_map]
  exact ⟨user, hmem, by simp [hid]⟩

theorem User.withoutPassword_isPublicOf (u : User) : u.withoutPassword.isPublicOf u :=
  ⟨rfl, rfl, rfl, rfl, rfl, rfl, rfl, rfl, rfl, rfl, rfl, rfl, rfl, rfl, rfl⟩

/-! ## Theorems -/

/-- C1: an Employee caller who is not the `assignedTo` of a stored task gets 403 with
`success: false` from `getTask` and from `updateTask`, whatever the body and whatever the
task's `employees` list contains (the caller may be listed there). -/
theorem employee_not_assignee_forbidden (s : Store) (t : Task) (c : Caller) (body : UpdateBody)
    (hstored : findByPk s.tasks t.id = some t) (hrole : c.role = Role.Employee)
    (hne : t.assignedTo ≠ c.id) :
    (getTask s (some c) t.id).1.status? = some 403 ∧
    (getTask s (some c) t.id).1.success? = some false ∧
    (updateTask s (some c) t.id body).1.status? = some 403 ∧
    (updateTask s (some c) t.id body).1.success? = some false := by
  simp [getTask, updateTask, hstored, notOwner, hrole, hne, Reply.fail, Reply.status?,
    Reply.success?]

/-- C1 at task 7 and Employee 10, who is listed in the task's `employees`. -/
theorem employee_not_assignee_forbidden_witness :
    (10 : Int) ∈ (task7.employees.getD []) ∧
    (getTask store7 (some eve) task7.id).1.status? = some 403 ∧
    (getTask store7 (some eve) task7.id).1.success? = some false ∧
    (updateTask store7 (some eve) task7.id UpdateBody.empty).1.status? = some 403 ∧
    (updateTask store7 (some eve) task7.id UpdateBody.empty).1.success? = some false :=
  ⟨by decide, employee_not_assignee_forbidden store7 task7 eve UpdateBody.empty (by decide)
    (by decide) (by decide)⟩

/-- C2: a request to `updateTask`, `updateTaskProgress` or `addTaskComment` that is answered
with 403 leaves the store as it was. -/
theorem forbidden_leaves_store (db : Database) (s : Store) (caller : Option Caller) (id : Int)
    (body : UpdateBody) (progress : Json) (comment : Field String) (uuid : String)
    (now : Int) :
    ((updateTask s caller id body).1.status? = some 403 →
      (updateTask s caller id body).2 = s) ∧
    ((updateTaskProgress db s caller id progress).1.status? = some 403 →
      (updateTaskProgress db s caller id progress).2 = s) ∧
    ((addTaskComment s caller id comment uuid now).1.status? = some 403 →
      (addTaskComment s caller id comment uuid now).2 = s) := by
  refine ⟨?_, ?_, ?_⟩
  · unfold updateTask
    split
    · intro _; rfl
    · split
      · intro _; rfl
      · split
        · intro _; rfl
        · split
          · intro h; simp [Reply.ok, Reply.status?] at h
          · intro _; rfl
  · unfold updateTaskProgress
    split
    · intro _; rfl
    · split
      · intro _; rfl
      · split
        · intro _; rfl
        · split
          · intro _; rfl
          · intro h; simp [Reply.ok, Reply.status?] at h
  · unfold addTaskComment
    split
    · intro _; rfl
    · split
      · intro _; rfl
      · split
        · intro _; rfl
        · split
          · intro _; rfl
          · dsimp only
            split
            · intro _; rfl
            · split
              · intro _; rfl
              · intro h; simp [Reply.ok, Reply.status?] at h

/-- C2 at the scenario of the specification: Employee 10 on task 7 of Manager 5. -/
theorem forbidden_leaves_store_witness :
    (updateTask store7 (some eve) 7 { UpdateBody.empty with progress := .val 50 }).1.status?
      = some 403 ∧
    (updateTask store7 (some eve) 7 { UpdateBody.empty with progress := .val 50 }).2
      = store7 ∧
    (updateTaskProgress db0 store7 (some eve) 7 (.num 50 0)).2 = store7 ∧
    (addTaskComment store7 (some eve) 7 (.val "done") "u-1" 0).2 = store7 :=
  have h := forbidden_leaves_store db0 store7 (some eve) 7
    { UpdateBody.empty with progress := .val 50 } (.num 50 0) (.val "done") "u-1" 0
  ⟨by decide, h.1 (by decide), h.2.1 (by decide), h.2.2 (by decide)⟩

/-- C3, as stated, fails: for the Employee 10, who is not the `assignedTo` of task 7,
`updateTaskProgress` answers 400 to a progress of -5 and of 150, and `addTaskComment` answers
400 to a missing and to an empty comment. -/
theorem employee_not_assignee_invalid_payload_400 :
    findByPk store7.tasks task7.id = some task7 ∧ eve.role = Role.Employee ∧
    task7.assignedTo ≠ eve.id ∧
    (∀ db : Database,
      (updateTaskProgress db store7 (some eve) task7.id (.num (-5) 0)).1.status? = some 400 ∧
      (updateTaskProgress db store7 (some eve) task7.id (.num 150 0)).1.status? = some 400) ∧
    (addTaskComment store7 (some eve) task7.id .absent "u-1" 0).1.status? = some 400 ∧
    (addTaskComment store7 (some eve) task7.id (.val "") "u-1" 0).1.status? = some 400 := by
  refine ⟨by decide, by decide, by decide, fun db => ⟨?_, ?_⟩, by decide, by decide⟩
  · simp [updateTaskProgress, progressOutOfRange_integer, Reply.fail, Reply.status?]
  · simp [updateTaskProgress, progressOutOfRange_integer, Reply.fail, Reply.status?]

/-- C3, amended: for an Employee caller who is not the `assignedTo` of a stored task,
`updateTaskProgress` answers 403 when the progress is missing, null or a number from 0 to 100
and 400 when it is a number below 0 or above 100 (a number being `m / 2 ^ k`, an integer when
`k` is 0); `addTaskComment` answers 403 when the comment is a non-empty text and 400 when it is
missing, null or empty.  The store is unchanged in every case, whatever the progress is. -/
theorem employee_not_assignee_progress_comment (db : Database) (s : Store) (t : Task)
    (c : Caller) (progress : Json) (comment : Field String) (uuid : String) (now : Int)
    (hstored : findByPk s.tasks t.id = some t) (hrole : c.role = Role.Employee)
    (hne : t.assignedTo ≠ c.id) :
    ((progress = .absent ∨ progress = .null ∨
        ∃ (m : Int) (k : Nat), progress = .num m k ∧ 0 ≤ m ∧ m ≤ 100 * 2 ^ k) →
      (updateTaskProgress db s (some c) t.id progress).1.status? = some 403) ∧
    ((∃ (m : Int) (k : Nat), progress = .num m k ∧ (m < 0 ∨ 100 * 2 ^ k < m)) →
      (updateTaskProgress db s (some c) t.id progress).1.status? = some 400) ∧
    ((∃ x, comment = .val x ∧ x ≠ "") →
      (addTaskComment s (some c) t.id comment uuid now).1.status? = some 403) ∧
    ((comment = .absent ∨ comment = .null ∨ comment = .val "") →
      (addTaskComment s (some c) t.id comment uuid now).1.status? = some 400) ∧
    (updateTaskProgress db s (some c) t.id progress).2 = s ∧
    (addTaskComment s (some c) t.id comment uuid now).2 = s := by
  have hno : notOwner (some c) t = true := by simp [notOwner, hrole, hne]
  have hnum : ∀ (m : Int) (k : Nat), progressOutOfRange (.num m k) =
      (decide (m < 0) || decide (100 * 2 ^ k < m)) := by
    intro m k
    simp [progressOutOfRange, Json.toNumber, Numeric.ltZero, Numeric.gtHundred]
  refine ⟨?_, ?_, ?_, ?_, ?_, ?_⟩
  · intro h
    have hr : progressOutOfRange progress = false := by
      rcases h with rfl | rfl | ⟨m, k, rfl, h0, h100⟩
      · rfl
      · rfl
      · rw [hnum]
        have h1 : ¬ m < 0 := by omega
        have h2 : ¬ 100 * 2 ^ k < m := by omega
        simp [h1, h2]
    simp [updateTaskProgress, hr, hstored, hno, Reply.fail, Reply.status?]
  · rintro ⟨m, k, rfl, hp⟩
    have hr : progressOutOfRange (.num m k) = true := by
      rw [hnum]
      rcases hp with hp | hp <;> simp [hp]
    simp [updateTaskProgress, hr, Reply.fail, Reply.status?]
  · rintro ⟨x, rfl, hx⟩
    simp [addTaskComment, Field.truthyStr, hx, hstored, hno, Reply.fail, Reply.status?]
  · rintro (rfl | rfl | rfl) <;>
      simp [addTaskComment, Field.truthyStr, Reply.fail, Reply.status?]
  · unfold updateTaskProgress
    split
    · rfl
    · simp [hstored, hno]
  · unfold addTaskComment
    split
    · rfl
    · simp [hstored, hno]

/-- C3, amended, at task 7 and Employee 10 with progress 50 and the comment "done". -/
theorem employee_not_assignee_progress_comment_witness :
    (updateTaskProgress db0 store7 (some eve) task7.id (.num 50 0)).1.status? = some 403 ∧
    (addTaskComment store7 (some eve) task7.id (.val "done") "u-1" 0).1.status? = some 403 :=
  have h := employee_not_assignee_progress_comment db0 store7 task7 eve (.num 50 0)
    (.val "done") "u-1" 0 (by decide) (by decide) (by decide)
  ⟨h.1 (Or.inr (Or.inr ⟨50, 0, rfl, by decide, by decide⟩)), h.2.2.1 ⟨"done", rfl, by decide⟩⟩

/-- C4, as stated, fails: the Employee 10 is the `assignedTo` of task 8, and the body
`{ progress: 150 }` is not answered with 200: the `max: 100` validator of the model rejects
the update and the error is passed to `next`.  Nor is the body `{ machine: 999 }`, which names
no machine: the foreign key of `machine` rejects the update. -/
theorem employee_assignee_update_rejected :
    findByPk store8.tasks task8.id = some task8 ∧ eve.role = Role.Employee ∧
    task8.assignedTo = eve.id ∧
    updateTask store8 (some eve) task8.id { UpdateBody.empty with progress := .val 150 } =
      (.failed (.validation "progress"), store8) ∧
    updateTask store8 (some eve) task8.id { UpdateBody.empty with machine := .val 999 } =
      (.failed .foreignKey, store8) := by
  decide

/-- C4, amended: for an Employee caller who is the `assignedTo` of a stored task, the update
handed to the ORM is the body restricted to the keys `deadline`, `priority`, `machine`,
`progress` and `status` (every other key is dropped, not rejected).  When the restricted update
passes the validators of the model (`deadline` not null, `progress` within 0..100) and its
`machine`, if it is an id, is the machine the task already has or the id of a machine, the
answer is 200 and the stored task has these five attributes assigned and every other attribute
as before; otherwise the request fails and the store is unchanged, with a foreign-key error
when only the machine is at fault. -/
theorem employee_assignee_update (s : Store) (t : Task) (c : Caller) (b : UpdateBody)
    (hstored : findByPk s.tasks t.id = some t) (hrole : c.role = Role.Employee)
    (hown : t.assignedTo = c.id) :
    updateData (some c) b =
      { UpdateBody.empty with deadline := b.deadline, priority := b.priority,
                              machine := b.machine, progress := b.progress,
                              status := b.status } ∧
    ((b.deadline ≠ .null ∧ (∀ p, b.progress = .val p → 0 ≤ p ∧ p ≤ 100) ∧
        ∀ m, b.machine = .val m → t.machine = some m ∨ ∃ x ∈ s.machines, x.id = m) →
      ∃ u : Task,
        u = { t with deadline := (match b.deadline with
                                  | .val d => d
                                  | _ => t.deadline),
                     priority := b.priority.assign t.priority,
                     machine := b.machine.assign t.machine,
                     progress := b.progress.assign t.progress,
                     status := b.status.assign t.status } ∧
        updateTask s (some c) t.id b =
          (Reply.ok 200 (.task u), { s with tasks := saveTask s.tasks u }) ∧
        findByPk (saveTask s.tasks u) t.id = some u ∧
        ∀ id, id ≠ t.id → findByPk (saveTask s.tasks u) id = findByPk s.tasks id) ∧
    ((b.deadline = .null ∨ (∃ p, b.progress = .val p ∧ (p < 0 ∨ 100 < p)) ∨
        ∃ m, b.machine = .val m ∧ t.machine ≠ some m ∧ ∀ x ∈ s.machines, x.id ≠ m) →
      ∃ e, updateTask s (some c) t.id b = (.failed e, s)) ∧
    ((b.deadline ≠ .null ∧ (∀ p, b.progress = .val p → 0 ≤ p ∧ p ≤ 100) ∧
        ∃ m, b.machine = .val m ∧ t.machine ≠ some m ∧ ∀ x ∈ s.machines, x.id ≠ m) →
      updateTask s (some c) t.id b = (.failed .foreignKey, s)) := by
  have hno : notOwner (some c) t = false := by simp [notOwner, hrole, hown]
  have hdata : updateData (some c) b = allowedFields b := by simp [updateData, hrole]
  have hkeys0 : ∀ (u : Task), u.assignedTo = t.assignedTo → u.createdBy = t.createdBy →
      u.machine = b.machine.assign t.machine →
      (s.foreignKeysHold t u = true ↔
        ∀ m, b.machine = .val m → t.machine = some m ∨ ∃ x ∈ s.machines, x.id = m) := by
    intro u ha hc hm
    cases hb : b.machine with
    | absent => simp [Store.foreignKeysHold, ha, hc, hm, hb, Field.assign]
    | null => simp [Store.foreignKeysHold, ha, hc, hm, hb, Field.assign]
    | val m =>
      simp only [Store.foreignKeysHold, ha, hc, hm, hb, Field.assign, beq_self_eq_true,
        Bool.true_or, Bool.true_and, Bool.and_true, Bool.or_eq_true, beq_iff_eq,
        List.any_eq_true]
      constructor
      · rintro (h | ⟨x, hx, hid⟩) m2 hm2
        · cases hm2; exact Or.inl h.symm
        · cases hm2; exact Or.inr ⟨x, hx, hid⟩
      · intro h
        rcases h m rfl with h | ⟨x, hx, hid⟩
        · exact Or.inl h.symm
        · exact Or.inr ⟨x, hx, hid⟩
  have hkeys := hkeys0
    { t with deadline := (match b.deadline with
                          | .val d => d
                          | _ => t.deadline),
             priority := b.priority.assign t.priority,
             machine := b.machine.assign t.machine,
             progress := b.progress.assign t.progress,
             status := b.status.assign t.status } rfl rfl rfl
  have hbad : (∃ m, b.machine = .val m ∧ t.machine ≠ some m ∧ ∀ x ∈ s.machines, x.id ≠ m) →
      s.foreignKeysHold t
        { t with deadline := (match b.deadline with
                              | .val d => d
                              | _ => t.deadline),
                 priority := b.priority.assign t.priority,
                 machine := b.machine.assign t.machine,
                 progress := b.progress.assign t.progress,
                 status := b.status.assign t.status } = false := by
    rintro ⟨m, hbm, hne, hnone⟩
    rw [← Bool.not_eq_true]
    intro hf
    rcases hkeys.mp hf m hbm with h | ⟨x, hx, hid⟩
    · exact absurd h hne
    · exact absurd hid (hnone x hx)
  refine ⟨by rw [hdata]; rfl, ?_, ?_, ?_⟩
  · rintro ⟨hd, hp, hmach⟩
    refine ⟨_, rfl, ?_, ?_, ?_⟩
    · have hfk := hkeys.mpr hmach
      simp only [updateTask, hstored, hno, hdata, Task.update_allowedFields t b hd hp, hfk,
        if_true]
      rfl
    · exact findByPk_saveTask_self hstored rfl
    · intro id hid
      exact findByPk_saveTask_other (fun h => hid h.symm)
  · intro h
    by_cases hval : b.deadline ≠ .null ∧ ∀ p, b.progress = .val p → 0 ≤ p ∧ p ≤ 100
    · rcases h with h | h | h
      · exact absurd h hval.1
      · obtain ⟨p, hp, hr⟩ := h
        have := hval.2 p hp
        omega
      · have hfk := hbad h
        refine ⟨.foreignKey, ?_⟩
        simp only [updateTask, hstored, hno, hdata,
          Task.update_allowedFields t b hval.1 hval.2, hfk]
        rfl
    · have hv : b.deadline = .null ∨ ∃ p, b.progress = .val p ∧ (p < 0 ∨ 100 < p) := by
        by_contra hcon
        push_neg at hcon
        apply hval
        refine ⟨hcon.1, ?_⟩
        intro p hp
        have := hcon.2 p hp
        omega
      obtain ⟨e, he⟩ := Task.update_allowedFields_error t b hv
      exact ⟨e, by simp only [updateTask, hstored, hno, hdata, he]; rfl⟩
  · rintro ⟨hd, hp, hmach⟩
    have hfk := hbad hmach
    simp only [updateTask, hstored, hno, hdata, Task.update_allowedFields t b hd hp, hfk]
    rfl

/-- C4, amended, at task 8 and its assignee, Employee 10, with a body that also carries a
title: the title is dropped and the progress and status are stored. -/
theorem employee_assignee_update_witness :
    updateTask store8 (some eve) task8.id
        { UpdateBody.empty with title := .val "Renamed", progress := .val 40,
                                status := .val .InProgress } =
      (Reply.ok 200 (.task { task8 with progress := some 40, status := some .InProgress }),
       { store8 with tasks := [task7, { task8 with progress := some 40,
                                                   status := some .InProgress }] }) :=
  have h := (employee_assignee_update store8 task8 eve
    { UpdateBody.empty with title := .val "Renamed", progress := .val 40,
                            status := .val .InProgress } (by decide) (by decide)
    (by decide)).2.1 ⟨by decide, by intro p hp; cases hp; decide, by intro m hm; cases hm⟩
  by
    obtain ⟨u, hu, hres, -, -⟩ := h
    rw [hres, hu]
    decide

/-- C6, as stated, fails: the progress `"100"`, a string, passes the range guard, whose
comparisons convert it to the number 100, but is not strictly equal to 100.  For the Manager 5
on task 7 the answer is 200, and the stored task has the progress 100 with the status
'In Progress', not 'Completed'; this is so for every database. -/
theorem updateTaskProgress_string_hundred :
    findByPk store7.tasks task7.id = some task7 ∧ ana.role ≠ Role.Employee ∧
    progressOutOfRange (.str "100") = false ∧
    statusForProgress (.str "100") = .val Status.InProgress ∧
    ∀ db : Database,
      updateTaskProgress db store7 (some ana) task7.id (.str "100") =
        (Reply.ok 200
          (.taskRaw { task7 with progress := some 100, status := some .InProgress }
            (.str "100")),
         { store7 with tasks := [{ task7 with progress := some 100,
                                              status := some .InProgress }] }) := by
  refine ⟨by decide, by decide, by decide, by decide, ?_⟩
  intro db
  have hguard : progressOutOfRange (.str "100") = false := by decide
  have hst : statusForProgress (.str "100") = .val Status.InProgress := by decide
  have hfind : findByPk store7.tasks task7.id = some task7 := by decide
  have hno : notOwner (some ana) task7 = false := by decide
  have hv : ((Json.str "100").validatorNumber.ltZero ||
      (Json.str "100").validatorNumber.gtHundred) = false := by decide
  have hint : db.integerColumn (.str "100") = some 100 := by
    simp only [Database.integerColumn, Json.integer?]
    exact db.toInteger_digits "100" 100 (by decide) (by decide)
  have hup : task7.updateProgress db (.str "100") (.val .InProgress) =
      .ok { task7 with progress := some 100, status := some .InProgress } := by
    simp only [Task.updateProgress, hv, hint, Field.assign]
    rfl
  simp only [updateTaskProgress, hguard, hfind, hno, hst, hup]
  decide

/-- C6, amended: for a stored task, a caller who passes the ownership test and a progress
that is a JSON number with an integer value `p`, `0 ≤ p ≤ 100`, `updateTaskProgress` answers
200 and stores `progress = p`, with status 'Completed' when `p` is 100, 'In Progress' when
`0 < p < 100`, and the old status when `p` is 0; no other attribute of the task and no other
task changes. -/
theorem updateTaskProgress_sets_progress_and_status (db : Database) (s : Store) (t : Task)
    (c : Caller) (p : Int) (hstored : findByPk s.tasks t.id = some t)
    (hperm : c.role ≠ Role.Employee ∨ t.assignedTo = c.id) (h0 : 0 ≤ p) (h100 : p ≤ 100) :
    ∃ u : Task,
      u = { t with progress := some p,
                   status := if p = 100 then some Status.Completed
                             else if 0 < p then some Status.InProgress else t.status } ∧
      updateTaskProgress db s (some c) t.id (.num p 0) =
        (Reply.ok 200 (.task u), { s with tasks := saveTask s.tasks u }) ∧
      findByPk (saveTask s.tasks u) t.id = some u ∧
      ∀ id, id ≠ t.id → findByPk (saveTask s.tasks u) id = findByPk s.tasks id := by
  have hno : notOwner (some c) t = false := by
    rcases hperm with h | h <;> simp [notOwner, h]
  have hr : progressOutOfRange (.num p 0) = false := by
    rw [progressOutOfRange_integer]
    have h1 : ¬ p < 0 := by omega
    have h2 : ¬ 100 < p := by omega
    simp [h1, h2]
  have hst : (statusForProgress (.num p 0)).assign t.status =
      (if p = 100 then some Status.Completed
       else if 0 < p then some Status.InProgress else t.status) := by
    rw [statusForProgress_integer]
    by_cases h1 : p = 100
    · simp [Field.assign, h1]
    · by_cases h2 : 0 < p
      · simp [Field.assign, h1, h2]
      · simp [Field.assign, h1, h2]
  have hpay : ∀ u : Task, Payload.instance u (.num p 0) = .task u := by
    intro u
    simp [Payload.instance, Json.integer?]
  refine ⟨_, rfl, ?_, findByPk_saveTask_self hstored rfl, ?_⟩
  · simp only [updateTaskProgress, hr, hstored, hno, Task.updateProgress_integer db t p _ h0 h100,
      hst, hpay]
    rfl
  · intro id hid
    exact findByPk_saveTask_other (fun h => hid h.symm)

/-- C6, amended, at the scenario of the specification: the number 100 on task 7 gives status
'Completed'. -/
theorem updateTaskProgress_sets_progress_and_status_witness :
    updateTaskProgress db0 store7 (some ana) task7.id (.num 100 0) =
      (Reply.ok 200 (.task { task7 with progress := some 100, status := some .Completed }),
       { store7 with tasks := [{ task7 with progress := some 100,
                                            status := some .Completed }] }) :=
  have h := updateTaskProgress_sets_progress_and_status db0 store7 task7 ana 100 (by decide)
    (Or.inl (by decide)) (by decide) (by decide)
  by
    obtain ⟨u, hu, hres, -, -⟩ := h
    rw [hres, hu]
    decide

/-- C7, as stated, fails, in two ways.  From an empty Tasks table an Admin creates a task
and then sends `PUT /api/tasks/1` with the body `{ progress: 100 }`; both requests succeed and
the stored task has progress 100 with status 'Pending'.  And without any `updateTask`, the
Manager sends `PUT /api/tasks/1/progress` with the progress `"100"`, a string: the stored task
has progress 100 with status 'In Progress'. -/
theorem updateTask_breaks_progress_status :
    (createTask db0 store0 (some root) createBody 0).1.status? = some 201 ∧
    (updateTask (createTask db0 store0 (some root) createBody 0).2 (some root) 1
      { UpdateBody.empty with progress := .val 100 }).1.status? = some 200 ∧
    (runAll db0 store0 [.createTask (some root) createBody 0,
        .updateTask (some root) 1 { UpdateBody.empty with progress := .val 100 }]).tasks =
      [{ task7 with id := 1, progress := some 100 }] ∧
    ({ task7 with id := 1, progress := some 100 } : Task).status = some Status.Pending ∧
    ¬ ({ task7 with id := 1, progress := some 100 } : Task).consistent ∧
    (updateTaskProgress db0 (createTask db0 store0 (some root) createBody 0).2 (some ana) 1
      (.str "100")).1.status? = some 200 ∧
    (runAll db0 store0 [.createTask (some root) createBody 0,
        .updateTaskProgress (some ana) 1 (.str "100")]).tasks =
      [{ task7 with id := 1, progress := some 100, status := some .InProgress }] ∧
    ¬ ({ task7 with id := 1, progress := some 100, status := some .InProgress } :
        Task).consistent := by
  refine ⟨by decide, by decide, by decide, by decide, ?_, by decide, by decide, ?_⟩
  · intro h
    exact absurd (h.1 rfl) (by decide)
  · intro h
    exact absurd (h.1 rfl) (by decide)

/-- C7, amended: in every store reached from an empty Tasks table by a sequence of
`createTask`, `updateTask`, `updateTaskProgress`, `addTaskComment` and `deleteTask` requests
in which every `updateTask` body has neither `progress` nor `status` and every
`updateTaskProgress` body has a `progress` that is missing, null or a JSON number with an
integer value, every task with progress 100 has status 'Completed' and every task with a
progress strictly between 0 and 100 has status 'In Progress'. -/
theorem progress_status_consistent_when_derived (db : Database) (s0 : Store)
    (requests : List TaskRequest) (hempty : s0.tasks = [])
    (hreq : ∀ r ∈ requests,
      (∀ caller id body, r = .updateTask caller id body →
        body.progress = .absent ∧ body.status = .absent) ∧
      (∀ caller id progress, r = .updateTaskProgress caller id progress →
        progress = .absent ∨ progress = .null ∨ ∃ n : Int, progress = .num n 0)) :
    ∀ t ∈ (runAll db s0 requests).tasks,
      (t.progress = some 100 → t.status = some Status.Completed) ∧
      (∀ p, t.progress = some p → 0 < p → p < 100 → t.status = some Status.InProgress) := by
  have hinit : ∀ t ∈ s0.tasks, t.consistent := by simp [hempty]
  have hall : ∀ r ∈ requests, r.derivesStatus = true := by
    intro r hr
    obtain ⟨hu, hp⟩ := hreq r hr
    cases r with
    | updateTask caller id body =>
      obtain ⟨h1, h2⟩ := hu caller id body rfl
      simp [TaskRequest.derivesStatus, h1, h2]
    | updateTaskProgress caller id progress =>
      rcases hp caller id progress rfl with rfl | rfl | ⟨n, rfl⟩ <;> rfl
    | createTask caller body now => rfl
    | addTaskComment caller id comment uuid now => rfl
    | deleteTask id => rfl
  have key : ∀ (rs : List TaskRequest) (s : Store),
      (∀ r ∈ rs, r.derivesStatus = true) → (∀ t ∈ s.tasks, t.consistent) →
      ∀ t ∈ (runAll db s rs).tasks, t.consistent := by
    intro rs
    induction rs with
    | nil => intro s _ h; exact h
    | cons r rs ih =>
      intro s hrs h
      exact ih (r.run db s) (fun x hx => hrs x (List.mem_cons_of_mem _ hx))
        (TaskRequest.run_consistent db s r (hrs r (List.mem_cons_self _ _)) h)
  exact key requests s0 hall hinit

/-- C7, amended, at a run that creates a task, renames it with `updateTask`, sets its progress
to 40 and then to 100 and adds a comment: the stored task has progress 100 and status
'Completed'. -/
theorem progress_status_consistent_when_derived_witness :
    (runAll db0 store0 [.createTask (some root) createBody 0,
        .updateTask (some root) 1 { UpdateBody.empty with title := .val "Renamed" },
        .updateTaskProgress (some ana) 1 (.num 40 0),
        .updateTaskProgress (some ana) 1 (.num 100 0),
        .addTaskComment (some ana) 1 (.val "done") "u-1" 5]).tasks.map
      (fun t => (t.title, t.progress, t.status)) =
        [("Renamed", some 100, some Status.Completed)] ∧
    ∀ t ∈ (runAll db0 store0 [.createTask (some root) createBody 0,
        .updateTask (some root) 1 { UpdateBody.empty with title := .val "Renamed" },
        .updateTaskProgress (some ana) 1 (.num 40 0),
        .updateTaskProgress (some ana) 1 (.num 100 0),
        .addTaskComment (some ana) 1 (.val "done") "u-1" 5]).tasks,
      (t.progress = some 100 → t.status = some Status.Completed) ∧
      (∀ p, t.progress = some p → 0 < p → p < 100 → t.status = some Status.InProgress) :=
  ⟨by decide, progress_status_consistent_when_derived db0 store0 _ rfl (by
    intro r hr
    simp only [List.mem_cons, List.mem_singleton, List.not_mem_nil, or_false] at hr
    rcases hr with rfl | rfl | rfl | rfl | rfl
    · exact ⟨(fun _ _ _ h => nomatch h), (fun _ _ _ h => nomatch h)⟩
    · refine ⟨fun _ _ _ h => ?_, (fun _ _ _ h => nomatch h)⟩
      cases h
      exact ⟨rfl, rfl⟩
    · refine ⟨(fun _ _ _ h => nomatch h), fun _ _ _ h => ?_⟩
      cases h
      exact Or.inr (Or.inr ⟨40, rfl⟩)
    · refine ⟨(fun _ _ _ h => nomatch h), fun _ _ _ h => ?_⟩
      cases h
      exact Or.inr (Or.inr ⟨100, rfl⟩)
    · exact ⟨(fun _ _ _ h => nomatch h), (fun _ _ _ h => nomatch h)⟩)⟩

/-- C8: for an authenticated `createTask` request that passes the required-field guard, the
answer is 404 and the store is unchanged when no user with role 'Manager' has an id or a name
that the database finds equal to the given `assignedTo`; and when the answer is 201, some user
of the store with role 'Manager' has such an id or name, is the user the lookup returned, and
the task added to the store has this user's id as `assignedTo`.  The value is compared with
both columns: a number equal to a user's id, a string equal to a user's name and a string of
digits that writes a user's id are each found equal to that user. -/
theorem createTask_assignee_is_manager (db : Database) (s : Store) (c : Caller)
    (body : CreateBody) (now : Int) (hreq : missingRequired body = false) :
    ((∀ u ∈ s.users, u.role = Role.Manager → body.assignedTo.ident.matchesUser db u = false) →
      (createTask db s (some c) body now).1.status? = some 404 ∧
      (createTask db s (some c) body now).2 = s) ∧
    ((createTask db s (some c) body now).1.status? = some 201 →
      ∃ u ∈ s.users, u.role = Role.Manager ∧ body.assignedTo.ident.matchesUser db u = true ∧
        findManager db s.users body.assignedTo.ident = some u ∧
        ∃ task, (createTask db s (some c) body now).2.tasks = s.tasks ++ [task] ∧
          task.assignedTo = u.id) ∧
    (∀ u : User, body.assignedTo = .val (.id u.id) ∨ body.assignedTo = .val (.name u.name) →
      body.assignedTo.ident.matchesUser db u = true) ∧
    (∀ (u : User) (text : String) (n : Nat), body.assignedTo = .val (.name text) →
      digitString text = some n → n < 2 ^ 31 → u.id = (n : Int) →
      body.assignedTo.ident.matchesUser db u = true) := by
  refine ⟨?_, ?_, ?_, ?_⟩
  · intro hnone
    have hfind : findManager db s.users body.assignedTo.ident = none := by
      apply List.find?_eq_none.mpr
      intro u hu hmatch
      simp only [Bool.and_eq_true, beq_iff_eq] at hmatch
      rw [hnone u hu hmatch.2] at hmatch
      exact absurd hmatch.1 (by decide)
    simp [createTask, hreq, hfind, Reply.fail, Reply.status?]
  · intro h201
    rcases createTask_cases db s (some c) body now with ⟨-, hne⟩ | ⟨c2, au, mid, task, -, -,
      hman, -, -, hcreate, hstore⟩
    · exact absurd h201 hne
    · have hp := List.find?_some hman
      simp only [Bool.and_eq_true, beq_iff_eq] at hp
      exact ⟨au, List.mem_of_find?_eq_some hman, hp.2, hp.1, hman, task, by rw [hstore],
        (Task.create_ok hcreate).2.1⟩
  · rintro u (h | h)
    · simp [h, Field.ident, Ident.matchesUser, db.idEq_id]
    · simp [h, Field.ident, Ident.matchesUser, db.nameEq_self]
  · intro u text n h hdigits hn hid
    have hid2 : db.idEq (.name text) u.id = true := by
      rw [db.idEq_digits text n u.id hdigits hn, hid]
      exact beq_self_eq_true _
    simp [h, Field.ident, Ident.matchesUser, hid2]

/-- C8 at the scenario of the specification: the assignee is named "Ana" and the stored
task's `assignedTo` is her id, 5; the same task is stored when the assignee is given as the
string "5". -/
theorem createTask_assignee_is_manager_witness :
    (createTask db0 store0 (some root) createBody 0).1.status? = some 201 ∧
    (∃ u ∈ store0.users, u.role = Role.Manager ∧
      createBody.assignedTo.ident.matchesUser db0 u = true ∧
      findManager db0 store0.users createBody.assignedTo.ident = some u ∧
      ∃ task, (createTask db0 store0 (some root) createBody 0).2.tasks
          = store0.tasks ++ [task] ∧ task.assignedTo = u.id) ∧
    findManager db0 store0.users createBody.assignedTo.ident = some (mkUser 5 "Ana" .Manager) ∧
    (createTask db0 store0 (some root) createBodyFive 0).2.tasks = [{ task7 with id := 1 }] ∧
    createBodyFive.assignedTo.ident.matchesUser db0 (mkUser 5 "Ana" .Manager) = true :=
  ⟨by decide,
    (createTask_assignee_is_manager db0 store0 root createBody 0 (by decide)).2.1 (by decide),
    by decide, by decide,
    (createTask_assignee_is_manager db0 store0 root createBodyFive 0 (by decide)).2.2.2
      (mkUser 5 "Ana" .Manager) "5" 5 rfl (by decide) (by decide) (by decide)⟩

/-- C9, as stated, fails: the employees list names user 5, a Manager, and the request, which
has no title, is answered with 400, not 404. -/
theorem createTask_non_employee_missing_title_400 :
    mkUser 5 "Ana" Role.Manager ∈ store7.users ∧
    (createTask db0 store7 (some root)
      { createBody with title := .absent, employees := .val [10, 5] } 0).1.status?
      = some 400 := by
  decide

/-- C9, amended: in a store whose user ids are unique, a `createTask` request whose
employees list contains the id of a user whose role is not 'Employee' never creates a task:
the store is unchanged and the answer is 401 (no caller), 400 (a required field is missing)
or 404; it is 404 whenever the caller is authenticated and the required fields are present. -/
theorem createTask_non_employee_rejected (db : Database) (s : Store) (caller : Option Caller)
    (body : CreateBody) (now : Int) (u : User) (es : List Int)
    (hnodup : (s.users.map (fun u => u.id)).Nodup) (hu : u ∈ s.users)
    (hrole : u.role ≠ Role.Employee) (hes : body.employees = .val es) (hmem : u.id ∈ es) :
    (createTask db s caller body now).2 = s ∧
    ((createTask db s caller body now).1.status? = some 401 ∨
      (createTask db s caller body now).1.status? = some 400 ∨
      (createTask db s caller body now).1.status? = some 404) ∧
    (∀ c, caller = some c → missingRequired body = false →
      (createTask db s caller body now).1.status? = some 404) := by
  have hlen : (findEmployees s.users body.employees.items).length
      ≠ body.employees.items.length := by
    apply findEmployees_length_ne_of_non_employee hnodup hu hrole
    simpa [hes, Field.items] using hmem
  cases caller with
  | none => simp [createTask, Reply.fail, Reply.status?]
  | some c =>
    by_cases hreq : missingRequired body = true
    · simp [createTask, hreq, Reply.fail, Reply.status?]
    · have hreq2 : missingRequired body = false := by simpa using hreq
      cases hman : findManager db s.users body.assignedTo.ident with
      | none => simp [createTask, hreq2, hman, Reply.fail, Reply.status?]
      | some m =>
        rw [createTask_employees_mismatch db s c body now m hreq2 hman hlen]
        simp [Reply.fail, Reply.status?]

/-- C9, amended, at a request whose employees list names the Manager 5. -/
theorem createTask_non_employee_rejected_witness :
    (createTask db0 store7 (some root) { createBody with employees := .val [10, 5] } 0).2
      = store7 ∧
    (createTask db0 store7 (some root)
      { createBody with employees := .val [10, 5] } 0).1.status? = some 404 :=
  have h := createTask_non_employee_rejected db0 store7 (some root)
    { createBody with employees := .val [10, 5] } 0 (mkUser 5 "Ana" Role.Manager) [10, 5]
    (by decide) (by decide) (by decide) rfl (by decide)
  ⟨h.1, h.2.2 root rfl (by decide)⟩

/-- C10: for a `createTask` request that passes the required-field and assignee checks, in a
store whose user ids are unique, the request is answered 404 with the store unchanged whenever
the number of users with role 'Employee' whose id occurs in the employees list differs from
the length of the list; this is so when the list repeats an id and when it names an id of no
user; and a request that is not rejected at this step has a list whose entries are distinct
and are each the id of an Employee. -/
theorem createTask_employees_all_or_nothing (db : Database) (s : Store) (c : Caller)
    (body : CreateBody) (now : Int) (m : User)
    (hnodup : (s.users.map (fun u => u.id)).Nodup) (hreq : missingRequired body = false)
    (hman : findManager db s.users body.assignedTo.ident = some m) :
    (((s.users.filter
          (fun u => decide (u.role = Role.Employee ∧ u.id ∈ body.employees.items))).length
        ≠ body.employees.items.length ∨
      ¬ body.employees.items.Nodup ∨
      (∃ e ∈ body.employees.items, ∀ u ∈ s.users, u.id ≠ e)) →
      createTask db s (some c) body now =
        (Reply.fail 404 "One or more assigned employees not found or not employees", s)) ∧
    ((createTask db s (some c) body now).1 ≠
        Reply.fail 404 "One or more assigned employees not found or not employees" →
      body.employees.items.Nodup ∧
      ∀ e ∈ body.employees.items, ∃ u ∈ s.users, u.id = e ∧ u.role = Role.Employee) := by
  have hfilter : s.users.filter
      (fun u => decide (u.role = Role.Employee ∧ u.id ∈ body.employees.items))
      = findEmployees s.users body.employees.items := by
    unfold findEmployees
    apply List.filter_congr
    intro u _
    by_cases h1 : u.role = Role.Employee <;> by_cases h2 : u.id ∈ body.employees.items <;>
      simp [h1, h2]
  constructor
  · intro h
    apply createTask_employees_mismatch db s c body now m hreq hman
    rcases h with h | h | ⟨e, he, hnone⟩
    · rwa [hfilter] at h
    · intro hlen
      exact h (findEmployees_length_eq hnodup hlen).1
    · intro hlen
      obtain ⟨u, hu, hid, -⟩ := (findEmployees_length_eq hnodup hlen).2 e he
      exact hnone u hu hid
  · intro hne
    by_cases hlen : (findEmployees s.users body.employees.items).length
        = body.employees.items.length
    · exact findEmployees_length_eq hnodup hlen
    · rw [createTask_employees_mismatch db s c body now m hreq hman hlen] at hne
      exact absurd rfl hne

/-- C10 at a list that repeats the id of Employee 10: the request is rejected. -/
theorem createTask_employees_all_or_nothing_witness :
    createTask db0 store7 (some root) { createBody with employees := .val [10, 11, 10] } 0 =
      (Reply.fail 404 "One or more assigned employees not found or not employees", store7) :=
  (createTask_employees_all_or_nothing db0 store7 root
    { createBody with employees := .val [10, 11, 10] } 0 (mkUser 5 "Ana" Role.Manager)
    (by decide) (by decide) (by decide)).1 (Or.inr (Or.inl (by decide)))

/-- C5: 'Admin' and 'Sub Admin' are equivalent on every route of the users, tasks and
machines routers.  Every `authorize` list that contains one of the two roles contains the
other; and for every request and store, a caller with role 'Admin' and the same caller with
role 'Sub Admin' get the same decision from the route's `authorize` list, the same reply from
the handler and the same resulting store. -/
theorem admin_subadmin_equivalent (env : Env) (mc : MachineController) (route : Route)
    (req : Request) (s : Store) (c : Caller) :
    (∀ roles, route.authorizeList = some roles →
      (Role.Admin ∈ roles ↔ Role.SubAdmin ∈ roles)) ∧
    (∀ roles, route.authorizeList = some roles →
      authorize roles { c with role := Role.Admin } =
        authorize roles { c with role := Role.SubAdmin }) ∧
    route.handler env mc { c with role := Role.Admin } req s =
      route.handler env mc { c with role := Role.SubAdmin } req s ∧
    serve env mc route { req with caller := some { c with role := Role.Admin } } s =
      serve env mc route { req with caller := some { c with role := Role.SubAdmin } } s := by
  have hlist : ∀ roles, route.authorizeList = some roles →
      (Role.Admin ∈ roles ↔ Role.SubAdmin ∈ roles) := by
    intro roles h
    cases route <;> simp [Route.authorizeList] at h <;> subst h <;> simp
  have hauth : ∀ roles, route.authorizeList = some roles →
      authorize roles { c with role := Role.Admin } =
        authorize roles { c with role := Role.SubAdmin } := by
    intro roles h
    cases route <;> simp [Route.authorizeList] at h <;> subst h <;> rfl
  have hhandler : ∀ x y : Option Caller,
      route.handler env mc { c with role := Role.Admin } { req with caller := x } s =
        route.handler env mc { c with role := Role.SubAdmin } { req with caller := y } s := by
    intro x y
    cases route <;>
      simp [Route.handler, Request.machineInput, getTask, updateTask, updateTaskProgress,
        addTaskComment, createTask, notOwner, updateData]
  refine ⟨hlist, hauth, hhandler req.caller req.caller, ?_⟩
  simp only [serve]
  cases hr : route.authorizeList with
  | none => exact hhandler _ _
  | some roles =>
    simp only [hauth roles hr, hhandler _ (some { c with role := Role.SubAdmin })]

/-- C11: an authenticated `createTask` request in which `title`, `description` or
`assignedTo` is missing or empty, or `employees` is missing or an empty list, is answered 400
with `success: false`; the reply is the same for every store (no lookup influences it) and the
store is unchanged. -/
theorem createTask_missing_required_400 (db : Database) (s other : Store) (c : Caller)
    (body : CreateBody) (now : Int)
    (hmissing :
      (body.title = .absent ∨ body.title = .null ∨ body.title = .val "") ∨
      (body.description = .absent ∨ body.description = .null ∨ body.description = .val "") ∨
      (body.assignedTo = .absent ∨ body.assignedTo = .null ∨
        body.assignedTo = .val (.id 0) ∨ body.assignedTo = .val (.name "")) ∨
      (body.employees = .absent ∨ body.employees = .null ∨ body.employees = .val [])) :
    (createTask db s (some c) body now).1.status? = some 400 ∧
    (createTask db s (some c) body now).1.success? = some false ∧
    (createTask db s (some c) body now).2 = s ∧
    (createTask db other (some c) body now).1 = (createTask db s (some c) body now).1 := by
  have hreq : missingRequired body = true := (missingRequired_iff body).mpr hmissing
  simp [createTask, hreq, Reply.fail, Reply.status?, Reply.success?]

/-- C11 at a request whose employees list is empty. -/
theorem createTask_missing_required_400_witness :
    (createTask db0 store7 (some root) { createBody with employees := .val [] } 0).1.status?
      = some 400 ∧
    (createTask db0 store7 (some root) { createBody with employees := .val [] } 0).1.success?
      = some false ∧
    (createTask db0 store7 (some root) { createBody with employees := .val [] } 0).2
      = store7 ∧
    (createTask db0 store0 (some root) { createBody with employees := .val [] } 0).1 =
      (createTask db0 store7 (some root) { createBody with employees := .val [] } 0).1 :=
  createTask_missing_required_400 db0 store7 store0 root
    { createBody with employees := .val [] } 0
    (Or.inr (Or.inr (Or.inr (Or.inr (Or.inr rfl)))))

/-- C12: for a `createTask` request that passes the assignee and employees checks: when a
machine identifier is given and no machine has an id or a name that the database finds equal
to it, the answer is 404 and the store is unchanged; and when the answer is 201, the task
added to the store has as `machine` the id of the machine the lookup returned for that
identifier if one is given, and null if none is given.  The identifier is compared with both
columns: a number equal to a machine's id, a string equal to a machine's name and a string of
digits that writes a machine's id are each found equal to that machine. -/
theorem createTask_machine_resolution (db : Database) (s : Store) (c : Caller)
    (body : CreateBody) (now : Int) (m : User) (hreq : missingRequired body = false)
    (hman : findManager db s.users body.assignedTo.ident = some m)
    (hlen : (findEmployees s.users body.employees.items).length
      = body.employees.items.length) :
    ((body.machine.truthyIdent = true ∧
        ∀ mach ∈ s.machines, body.machine.ident.matchesMachine db mach = false) →
      createTask db s (some c) body now = (Reply.fail 404 "Machine not found", s)) ∧
    ((createTask db s (some c) body now).1.status? = some 201 →
      ∃ task, (createTask db s (some c) body now).2.tasks = s.tasks ++ [task] ∧
        (body.machine.truthyIdent = true →
          ∃ mach ∈ s.machines,
            body.machine.ident.matchesMachine db mach = true ∧
            findMachine db s.machines body.machine.ident = some mach ∧
            task.machine = some mach.id) ∧
        (body.machine.truthyIdent = false → task.machine = none)) ∧
    (∀ mach : Machine,
      body.machine = .val (.id mach.id) ∨ body.machine = .val (.name mach.name) →
      body.machine.ident.matchesMachine db mach = true) ∧
    (∀ (mach : Machine) (text : String) (n : Nat), body.machine = .val (.name text) →
      digitString text = some n → n < 2 ^ 31 → mach.id = (n : Int) →
      body.machine.ident.matchesMachine db mach = true) := by
  refine ⟨?_, ?_, ?_, ?_⟩
  · rintro ⟨htruthy, hnone⟩
    have hfind : findMachine db s.machines body.machine.ident = none := by
      apply List.find?_eq_none.mpr
      intro mach hmach hmatch
      rw [hnone mach hmach] at hmatch
      exact absurd hmatch (by decide)
    simp [createTask, hreq, hman, hlen, resolveMachine, htruthy, hfind]
  · intro h201
    rcases createTask_cases db s (some c) body now with ⟨-, hne⟩ | ⟨c2, au, mid, task, -, -,
      -, -, hmach, hcreate, hstore⟩
    · exact absurd h201 hne
    · refine ⟨task, by rw [hstore], ?_, ?_⟩
      · intro htruthy
        simp only [resolveMachine, htruthy, if_true] at hmach
        cases hf : findMachine db s.machines body.machine.ident with
        | none => simp [hf] at hmach
        | some mach =>
          simp only [hf, Option.some.injEq] at hmach
          have hp := List.find?_some hf
          refine ⟨mach, List.mem_of_find?_eq_some hf, hp, rfl, ?_⟩
          rw [(Task.create_ok hcreate).2.2.2.2.1, ← hmach]
      · intro hfalsy
        simp only [resolveMachine, hfalsy, Bool.false_eq_true, if_false,
          Option.some.injEq] at hmach
        rw [(Task.create_ok hcreate).2.2.2.2.1, ← hmach]
  · rintro mach (h | h)
    · simp [h, Field.ident, Ident.matchesMachine, db.idEq_id]
    · simp [h, Field.ident, Ident.matchesMachine, db.nameEq_self]
  · intro mach text n h hdigits hn hid
    have hid2 : db.idEq (.name text) mach.id = true := by
      rw [db.idEq_digits text n mach.id hdigits hn, hid]
      exact beq_self_eq_true _
    simp [h, Field.ident, Ident.matchesMachine, hid2]

/-- C12 at a request that names machine 3 by its name "P-100": the stored task has machine
3; so it has when the machine is given as the string "3". -/
theorem createTask_machine_resolution_witness :
    (createTask db0 store3 (some root) createBodyPress 0).1.status? = some 201 ∧
    (∃ task, (createTask db0 store3 (some root) createBodyPress 0).2.tasks
        = store3.tasks ++ [task] ∧ task.machine = some 3) ∧
    (createTask db0 store3 (some root) createBodyThree 0).2.tasks =
      [{ task7 with id := 1, machine := some 3 }] := by
  have h := (createTask_machine_resolution db0 store3 root createBodyPress 0
    (mkUser 5 "Ana" Role.Manager) (by decide) (by decide) (by decide)).2.1 (by decide)
  obtain ⟨task, htasks, hgiven, -⟩ := h
  obtain ⟨mach, -, -, hfind, hmachine⟩ := hgiven (by decide)
  have hpress : findMachine db0 store3.machines createBodyPress.machine.ident
      = some press := by
    decide
  rw [hpress] at hfind
  cases hfind
  exact ⟨by decide, ⟨task, htasks, hmachine⟩, by decide⟩

/-- C13: for a `createTask` request answered with 201, the task added to the store has status
'Pending' and progress 0, and for each optional field that the request omits the default:
deadline `now + 7 * 24 * 60 * 60 * 1000`, priority 'Medium', category 'Production',
recurringPattern 'Weekly', estimatedHours 0, location '' and isRecurring false; an optional
value that is supplied and truthy is stored as given. -/
theorem createTask_defaults (db : Database) (s : Store) (c : Caller) (body : CreateBody)
    (now : Int) (h201 : (createTask db s (some c) body now).1.status? = some 201) :
    ∃ task, (createTask db s (some c) body now).2.tasks = s.tasks ++ [task] ∧
      task.status = some Status.Pending ∧ task.progress = some 0 ∧
      (body.deadline = .absent → task.deadline = now + 7 * 24 * 60 * 60 * 1000) ∧
      (body.priority = .absent → task.priority = some Priority.Medium) ∧
      (body.category = .absent → task.category = some Category.Production) ∧
      (body.recurringPattern = .absent → task.recurringPattern = some Pattern.Weekly) ∧
      (body.estimatedHours = .absent → task.estimatedHours = some 0) ∧
      (body.location = .absent → task.location = some "") ∧
      (body.isRecurring = .absent → task.isRecurring = some false) ∧
      (∀ d, body.deadline = .val d → d ≠ 0 → task.deadline = d) ∧
      (∀ p, body.priority = .val p → task.priority = some p) ∧
      (∀ k, body.category = .val k → task.category = some k) ∧
      (∀ r, body.recurringPattern = .val r → task.recurringPattern = some r) ∧
      (∀ h, body.estimatedHours = .val h → h ≠ 0 → task.estimatedHours = some h) ∧
      (∀ l, body.location = .val l → l ≠ "" → task.location = some l) ∧
      (body.isRecurring = .val true → task.isRecurring = some true) := by
  rcases createTask_cases db s (some c) body now with ⟨-, hne⟩ | ⟨c2, au, mid, task, -, -, -,
    -, -, hcreate, hstore⟩
  · exact absurd h201 hne
  · have heq := Task.create_ok_eq hcreate
    refine ⟨task, by rw [hstore], by rw [heq], by rw [heq], ?_, ?_, ?_, ?_, ?_, ?_, ?_, ?_, ?_,
      ?_, ?_, ?_, ?_, ?_⟩
    · intro h; rw [heq]; simp [h, Field.orNum, sevenDays]
    · intro h; rw [heq]; simp [h, Field.orElse]
    · intro h; rw [heq]; simp [h, Field.orElse]
    · intro h; rw [heq]; simp [h, Field.orElse]
    · intro h; rw [heq]; simp [h, Field.orNum]
    · intro h; rw [heq]; simp [h, Field.orStr]
    · intro h; rw [heq]; simp [h, Field.orBool]
    · intro d h hd; rw [heq]; simp [h, Field.orNum, hd]
    · intro p h; rw [heq]; simp [h, Field.orElse]
    · intro k h; rw [heq]; simp [h, Field.orElse]
    · intro r h; rw [heq]; simp [h, Field.orElse]
    · intro e h he; rw [heq]; simp [h, Field.orNum, he]
    · intro l h hl; rw [heq]; simp [h, Field.orStr, hl]
    · intro h; rw [heq]; simp [h, Field.orBool]

/-- C13 at the scenario of the specification: assignee "Ana", Employees 10 and 11, no machine
and no optional field, at time 0. -/
theorem createTask_defaults_witness :
    ∃ task, (createTask db0 store0 (some root) createBody 0).2.tasks
        = store0.tasks ++ [task] ∧
      task.priority = some Priority.Medium ∧ task.status = some Status.Pending ∧
      task.deadline = 604800000 ∧ task.category = some Category.Production := by
  obtain ⟨task, htasks, hstatus, -, hdeadline, hpriority, hcategory, -⟩ :=
    createTask_defaults db0 store0 root createBody 0 (by decide)
  exact ⟨task, htasks, hpriority rfl, hstatus, by rw [hdeadline rfl]; rfl, hcategory rfl⟩

/-- C14: `createTask` is atomic.  When the answer is not 201 the store is unchanged (the
answer is 401 when there is no caller); when it is 201 the Tasks table gains exactly one task
at its end, whose `createdBy` is the caller's id and whose `employees` is the list of the
request, and the earlier tasks, the users and the machines are as before. -/
theorem createTask_atomic (db : Database) (s : Store) (caller : Option Caller)
    (body : CreateBody) (now : Int) :
    ((createTask db s caller body now).1.status? ≠ some 201 →
      (createTask db s caller body now).2 = s) ∧
    (caller = none → (createTask db s caller body now).1.status? = some 401) ∧
    ((createTask db s caller body now).1.status? = some 201 →
      ∃ c es task, caller = some c ∧ body.employees = .val es ∧
        (createTask db s caller body now).2 =
          { s with tasks := s.tasks ++ [task], nextTaskId := s.nextTaskId + 1 } ∧
        task.createdBy = some c.id ∧ task.employees = some es) := by
  refine ⟨?_, ?_, ?_⟩
  · intro hne
    rcases createTask_cases db s caller body now with ⟨hs, -⟩ | ⟨c, au, mid, task, rfl, hreq,
      hman, hlen, hmach, hcreate, -⟩
    · exact hs
    · exact absurd (createTask_created hreq hman hlen hmach hcreate).1 hne
  · rintro rfl
    simp [createTask, Reply.fail, Reply.status?]
  · intro h201
    rcases createTask_cases db s caller body now with ⟨-, hne⟩ | ⟨c, au, mid, task, rfl, hreq,
      -, -, -, hcreate, hstore⟩
    · exact absurd h201 hne
    · have hpresent : body.employees.present = true := by
        simp only [missingRequired, Bool.or_eq_false_iff, Bool.not_eq_false'] at hreq
        exact hreq.1.2
      cases hes : body.employees with
      | absent => simp [hes, Field.present] at hpresent
      | null => simp [hes, Field.present] at hpresent
      | val es =>
        obtain ⟨-, -, -, -, -, hby, hemp⟩ := Task.create_ok hcreate
        exact ⟨c, es, task, rfl, rfl, hstore, hby, by rw [hemp, hes]; rfl⟩

/-- C15, the code at the failing input: user 10 exists and no task is assigned to them, yet
`deleteUser` does not answer 200 and does not remove the user.  The handler evaluates the
identifier `Task`, which `userController.js` does not import, so a ReferenceError is passed to
`next`.  The same happens for user 5, who has an assigned task, instead of the 400 answer,
and for every existing user of every store. -/
theorem deleteUser_throws_reference_error :
    findUserByPk store7.users 10 = some (mkUser 10 "Eve" Role.Employee) ∧
    (store7.tasks.filter (fun t => t.assignedTo == 10)).length = 0 ∧
    deleteUser store7 10 = (.failed (.referenceError "Task"), store7) ∧
    findUserByPk store7.users 5 = some (mkUser 5 "Ana" Role.Manager) ∧
    (store7.tasks.filter (fun t => t.assignedTo == 5)).length = 1 ∧
    deleteUser store7 5 = (.failed (.referenceError "Task"), store7) ∧
    (∀ (s : Store) (id : Int) (u : User), findUserByPk s.users id = some u →
      deleteUser s id = (.failed (.referenceError "Task"), s)) := by
  refine ⟨by decide, by decide, by decide, by decide, by decide, by decide, ?_⟩
  intro s id u hu
  simp [deleteUser, hu, userControllerTask]

/-- C16: in `getTasks` and `getEmployeeTasks` the effective page is the integer parsed from
`page` (a double: exact below `2 ^ 53`, rounded above), or 1 when it is absent, unparseable or
0, and the effective limit is the integer parsed from `limit`, or 10 in the same cases, so it
is never 0.  `getTasks` answers with the paginated list of the tasks that pass its filters;
`getEmployeeTasks` answers 404 when no user has the id and otherwise with the paginated list
of the tasks assigned to that id.  Every paginated response has status 200 and carries the
rows from offset `(page - 1) * limit` on, at most `limit` of them, and the pagination
`{ total: count, pages: ceil(count / limit), currentPage: page, limit }`, with a positive
limit; a response is sent whenever the page is at least 1, the limit positive and
`page * limit` below `2 ^ 53`, and the offset is then exact; and for a positive limit `pages`
is the least integer `n` with `n * limit ≥ total`. -/
theorem pagination_contract (s : Store) (q : Query) (employeeId : Int) :
    ((parseInt q.page = none ∨ parseInt q.page = some 0) → parseIntOr q.page 1 = 1) ∧
    (∀ n, parseInt q.page = some n → n ≠ 0 → parseIntOr q.page 1 = n) ∧
    ((parseInt q.limit = none ∨ parseInt q.limit = some 0) → parseIntOr q.limit 10 = 10) ∧
    (∀ n, parseInt q.limit = some n → n ≠ 0 → parseIntOr q.limit 10 = n) ∧
    parseIntOr q.limit 10 ≠ 0 ∧
    (∀ n : Nat, n < 2 ^ 53 → roundToDouble n = n) ∧
    (getTasks s q).1 =
      paginated s (s.tasks.filter q.matchesTask) (parseIntOr q.page 1)
        (parseIntOr q.limit 10) ∧
    (findUserByPk s.users employeeId = none →
      (getEmployeeTasks s employeeId q).1 = Reply.fail 404 "Employee not found") ∧
    (∀ u, findUserByPk s.users employeeId = some u →
      (getEmployeeTasks s employeeId q).1 =
        paginated s (s.tasks.filter (fun t => t.assignedTo == employeeId))
          (parseIntOr q.page 1) (parseIntOr q.limit 10)) ∧
    (∀ (matching : List Task) (r : Response),
      paginated s matching (parseIntOr q.page 1) (parseIntOr q.limit 10) = .sent r →
      r.status = 200 ∧
      r.pagination = some
        { total := matching.length,
          pages := ceilDiv matching.length (parseIntOr q.limit 10),
          currentPage := parseIntOr q.page 1, limit := parseIntOr q.limit 10 } ∧
      r.data = .taskViews (((matching.drop
        (offsetOf (parseIntOr q.page 1) (parseIntOr q.limit 10)).toNat).take
        (parseIntOr q.limit 10).toNat).map s.view) ∧
      r.count = some ((matching.drop
        (offsetOf (parseIntOr q.page 1) (parseIntOr q.limit 10)).toNat).take
        (parseIntOr q.limit 10).toNat).length ∧
      0 < parseIntOr q.limit 10) ∧
    (1 ≤ parseIntOr q.page 1 → 0 < parseIntOr q.limit 10 →
      parseIntOr q.page 1 * parseIntOr q.limit 10 < 2 ^ 53 →
      offsetOf (parseIntOr q.page 1) (parseIntOr q.limit 10) =
        (parseIntOr q.page 1 - 1) * parseIntOr q.limit 10 ∧
      (∃ r, (getTasks s q).1 = .sent r ∧ r.status = 200) ∧
      (∀ u, findUserByPk s.users employeeId = some u →
        ∃ r, (getEmployeeTasks s employeeId q).1 = .sent r ∧ r.status = 200)) ∧
    (∀ (count : Nat) (limit : Int), 0 < limit →
      ceilDiv count limit = ⌈(count : ℚ) / (limit : ℚ)⌉ ∧
      (count : Int) ≤ ceilDiv count limit * limit ∧
      ∀ n : Int, (count : Int) ≤ n * limit → ceilDiv count limit ≤ n) := by
  have hlim : parseIntOr q.limit 10 ≠ 0 := parseIntOr_ne_zero _ _ (by decide)
  have hemp : ∀ u, findUserByPk s.users employeeId = some u →
      (getEmployeeTasks s employeeId q).1 =
        paginated s (s.tasks.filter (fun t => t.assignedTo == employeeId))
          (parseIntOr q.page 1) (parseIntOr q.limit 10) := by
    intro u hu
    simp only [getEmployeeTasks, hu]
  refine ⟨?_, ?_, ?_, ?_, hlim, fun n hn => roundToDouble_of_lt hn, ?_, ?_, hemp, ?_, ?_, ?_⟩
  · rintro (h | h) <;> simp [parseIntOr, h]
  · intro n h hn; simp [parseIntOr, h, hn]
  · rintro (h | h) <;> simp [parseIntOr, h]
  · intro n h hn; simp [parseIntOr, h, hn]
  · rw [getTasks_eq]
  · intro hnone
    simp only [getEmployeeTasks, hnone]
  · intro matching r hr
    obtain ⟨h0, -, hstatus, hpag, hdata, hcount⟩ := paginated_sent hr
    exact ⟨hstatus, hpag, hdata, hcount, lt_of_le_of_ne h0 (Ne.symm hlim)⟩
  · intro hp hl hsafe
    refine ⟨offsetOf_exact hp hl hsafe, ?_, ?_⟩
    · rw [getTasks_eq]
      exact paginated_ok s _ _ _ hp hl hsafe
    · intro u hu
      rw [hemp u hu]
      exact paginated_ok s _ _ _ hp hl hsafe
  · intro count limit hl
    exact ⟨ceilDiv_eq_ceil count limit hl,
      (ceilDiv_le_iff count limit _ hl).mp le_rfl,
      fun n hn => (ceilDiv_le_iff count limit n hl).mpr hn⟩

/-- C16 at `?page=2&limit=1` over the two tasks of `store8`: the second task is returned with
`{ total: 2, pages: 2, currentPage: 2, limit: 1 }`, also by `getEmployeeTasks` for a user
whose tasks these are not; `?page=x&limit=0` falls back to page 1 and limit 10; and the page
`9007199254740993` is the double `9007199254740992`. -/
theorem pagination_contract_witness :
    (getTasks store8 (pageQuery "2" "1")).1 =
      .sent { status := 200, success := true, message := none,
              data := .taskViews [store8.view task8], count := some 1,
              pagination := some { total := 2, pages := 2, currentPage := 2, limit := 1 },
              newPassword := none } ∧
    (getEmployeeTasks store8 5 (pageQuery "1" "10")).1 =
      .sent { status := 200, success := true, message := none,
              data := .taskViews [store8.view task7], count := some 1,
              pagination := some { total := 1, pages := 1, currentPage := 1, limit := 10 },
              newPassword := none } ∧
    parseIntOr (pageQuery "x" "0").page 1 = 1 ∧ parseIntOr (pageQuery "x" "0").limit 10 = 10 ∧
    parseIntOr (some "9007199254740993") 1 = 9007199254740992 :=
  have h := pagination_contract store8 (pageQuery "x" "0") 10
  ⟨by decide, by decide, h.1 (Or.inl (by decide)), h.2.2.1 (Or.inr (by decide)), by decide⟩

/-- C17: `getTasksByUser` answers 404 when no user has the given id; when the user found has
role 'Employee' it returns exactly the tasks whose `assignedTo` is that id, in table order;
when the user has another role it returns all tasks; and in both cases `count` is the length
of the returned list. -/
theorem getTasksByUser_contract (s : Store) (userId : Int) :
    ((∀ u ∈ s.users, u.id ≠ userId) →
      (getTasksByUser s userId).1.status? = some 404 ∧
      (getTasksByUser s userId).1.success? = some false) ∧
    (∀ u, findUserByPk s.users userId = some u →
      ∃ r views, (getTasksByUser s userId).1 = .sent r ∧ r.status = 200 ∧
        r.data = .taskViews views ∧ r.count = some views.length ∧
        views = (views.map (fun v => v.task)).map s.view ∧
        (u.role = Role.Employee →
          views.map (fun v => v.task) =
            s.tasks.filter (fun t => decide (t.assignedTo = userId))) ∧
        (u.role ≠ Role.Employee → views.map (fun v => v.task) = s.tasks)) ∧
    (getTasksByUser s userId).2 = s := by
  have hview : ∀ ts : List Task, (ts.map s.view).map (fun v => v.task) = ts := by
    intro ts
    induction ts with
    | nil => rfl
    | cons t ts ih => simp [Store.view, ih]
  refine ⟨?_, ?_, ?_⟩
  · intro hnone
    have hfind : findUserByPk s.users userId = none := by
      apply List.find?_eq_none.mpr
      intro u hu
      simpa using hnone u hu
    simp [getTasksByUser, hfind, Reply.fail, Reply.status?, Reply.success?]
  · intro u hu
    by_cases hrole : u.role = Role.Employee
    · refine ⟨{ status := 200, success := true, message := none,
                data := .taskViews
                  ((s.tasks.filter (fun t => t.assignedTo == userId)).map s.view),
                count := some (s.tasks.filter (fun t => t.assignedTo == userId)).length,
                pagination := none, newPassword := none },
        (s.tasks.filter (fun t => t.assignedTo == userId)).map s.view, ?_, rfl, rfl,
        ?_, ?_, ?_, ?_⟩
      · simp only [getTasksByUser, hu, hrole, beq_self_eq_true, if_true]
      · simp
      · rw [hview]
      · intro _
        rw [hview]
        apply List.filter_congr
        intro t _
        by_cases h : t.assignedTo = userId <;> simp [h]
      · intro h; exact absurd hrole h
    · refine ⟨{ status := 200, success := true, message := none,
                data := .taskViews (s.tasks.map s.view), count := some s.tasks.length,
                pagination := none, newPassword := none },
        s.tasks.map s.view, ?_, rfl, rfl, ?_, ?_, ?_, ?_⟩
      · have hb : (u.role == Role.Employee) = false := by simpa using hrole
        simp only [getTasksByUser, hu, hb, Bool.false_eq_true, if_false]
      · simp
      · rw [hview]
      · intro h; exact absurd h hrole
      · intro _; rw [hview]
  · unfold getTasksByUser
    split <;> rfl

/-- C17 at `store8`: the Employee 10 gets task 8 only, and the Manager 5 gets both tasks. -/
theorem getTasksByUser_contract_witness :
    (getTasksByUser store8 10).1 =
      .sent { status := 200, success := true, message := none,
              data := .taskViews [store8.view task8], count := some 1, pagination := none,
              newPassword := none } ∧
    (getTasksByUser store8 5).1 =
      .sent { status := 200, success := true, message := none,
              data := .taskViews [store8.view task7, store8.view task8], count := some 2,
              pagination := none, newPassword := none } ∧
    (getTasksByUser store8 99).1.status? = some 404 :=
  ⟨by decide, by decide,
    ((getTasksByUser_contract store8 99).1 (by decide)).1⟩

/-- C18, as stated, fails: a grouped result holds the group of the null department with count
3 and a group of the department named "Unassigned" with count 5; both are written to the key
"Unassigned" and the later one wins, in either order.  Such a result arises from three
machines, one without a department and two of the department "Unassigned". -/
theorem machinesByDepartment_sentinel_collision :
    getKey (machinesByDepartment
      [{ key := .null, count := 3 }, { key := .val "Unassigned", count := 5 }]) "Unassigned"
      = some 5 ∧
    getKey (machinesByDepartment
      [{ key := .val "Unassigned", count := 5 }, { key := .null, count := 3 }]) "Unassigned"
      = some 3 ∧
    groupCount (machines3.map (fun m => columnKey id m.department)) =
      [{ key := .null, count := 1 }, { key := .val "Unassigned", count := 2 }] ∧
    getKey (machineDepartmentDistribution { store0 with machines := machines3 }) "Unassigned"
      = some 2 := by
  decide

/-- C18, amended: for a grouped-by-department count result over machines with one group per
department value: when it contains the group of the null department, with count `n`, and
every other group has a non-empty department other than "Unassigned", then
`machinesByDepartment['Unassigned']` is `n`; and every group with a non-empty department `d`
other than "Unassigned" maps `d` to that group's count. -/
theorem machinesByDepartment_unassigned (byDepartment : List Group) (g : Group)
    (hnodup : (byDepartment.map (fun x => x.key)).Nodup) (hg : g ∈ byDepartment)
    (hnull : g.key = .null) :
    ((∀ g2 ∈ byDepartment, g2 ≠ g → ∃ d, g2.key = .val d ∧ d ≠ "" ∧ d ≠ "Unassigned") →
      getKey (machinesByDepartment byDepartment) "Unassigned" = some g.count) ∧
    (∀ g2 ∈ byDepartment, ∀ d, g2.key = .val d → d ≠ "" → d ≠ "Unassigned" →
      getKey (machinesByDepartment byDepartment) d = some g2.count) := by
  constructor
  · intro hothers
    have hkey : (fun key : Field String => key.orStr "Unassigned") g.key = "Unassigned" := by
      simp [hnull, Field.orStr]
    have h := distribution_get (fun key => key.orStr "Unassigned") byDepartment g hg (by
      intro g2 hg2 hk
      by_cases hgg : g2 = g
      · rw [hgg]
      · obtain ⟨d, hd, hne, hnu⟩ := hothers g2 hg2 hgg
        rw [hkey] at hk
        simp [hd, Field.orStr, hne] at hk
        exact absurd hk hnu)
    rw [hkey] at h
    exact h
  · intro g2 hg2 d hd hne hnu
    have hkey : (fun key : Field String => key.orStr "Unassigned") g2.key = d := by
      simp [hd, Field.orStr, hne]
    have h := distribution_get (fun key => key.orStr "Unassigned") byDepartment g2 hg2 (by
      intro g3 hg3 hk
      rw [hkey] at hk
      have hk3 : g3.key = .val d := by
        rcases Field.orStr_cases g3.key "Unassigned" with h1 | ⟨x, hx, -, h1⟩
        · exact absurd (h1.symm.trans hk) (Ne.symm hnu)
        · have hk2 : g3.key.orStr "Unassigned" = d := hk
          rw [hx, ← hk2, h1]
      have : g3 = g2 :=
        List.inj_on_of_nodup_map hnodup hg3 hg2 (by rw [hk3, hd])
      rw [this])
    rw [hkey] at h
    exact h

/-- C18, amended, at the groups null (3 machines) and "Production" (4 machines). -/
theorem machinesByDepartment_unassigned_witness :
    getKey (machinesByDepartment
      [{ key := .null, count := 3 }, { key := .val "Production", count := 4 }]) "Unassigned"
      = some 3 ∧
    getKey (machinesByDepartment
      [{ key := .null, count := 3 }, { key := .val "Production", count := 4 }]) "Production"
      = some 4 :=
  have h := machinesByDepartment_unassigned
    [{ key := .null, count := 3 }, { key := .val "Production", count := 4 }]
    { key := .null, count := 3 } (by decide) (by decide) rfl
  ⟨h.1 (by
      intro g2 hg2 hne
      simp only [List.mem_cons, List.mem_singleton, List.not_mem_nil, or_false] at hg2
      rcases hg2 with rfl | rfl
      · exact absurd rfl hne
      · exact ⟨"Production", rfl, by decide, by decide⟩),
    h.2 { key := .val "Production", count := 4 } (by decide) "Production" rfl
      (by decide) (by decide)⟩

/-- C19, as stated, fails: `formatDistribution` and `userStatusDistribution` record the group
of the null key under the key "null" (and a missing key under "undefined"), with no sentinel.
Such a group arises in the task status distribution once an Admin sets the status of task 7
to null. -/
theorem formatDistribution_null_key :
    formatDistribution [{ key := .null, count := 2 }] = [("null", 2)] ∧
    formatDistribution [{ key := .absent, count := 2 }] = [("undefined", 2)] ∧
    userStatusDistribution [{ key := .null, count := 2 }] = [("null", 2)] ∧
    (updateTask store7 (some root) 7
      { UpdateBody.empty with status := .null }).1.status? = some 200 ∧
    taskStatusDistribution (updateTask store7 (some root) 7
      { UpdateBody.empty with status := .null }).2 = [("null", 1)] := by
  decide

/-- C19, amended: `tasksByCategory` (sentinel "Uncategorized") and `usersByDepartment`
(sentinel "Unassigned") map a grouped-count result to a mapping in which a group whose key is
null, missing or empty is recorded under the sentinel key, with that group's count when every
other group has a non-empty key other than the sentinel; and every key of the mapping is the
sentinel or the key of a group, so "null" or "undefined" occur only as a group's own key. -/
theorem sentinel_distributions (groups : List Group) (g : Group) (hg : g ∈ groups)
    (hkey : g.key = .null ∨ g.key = .absent ∨ g.key = .val "") :
    (getKey (tasksByCategory groups) "Uncategorized").isSome = true ∧
    (getKey (usersByDepartment groups) "Unassigned").isSome = true ∧
    ((∀ g2 ∈ groups, g2 ≠ g → ∃ d, g2.key = .val d ∧ d ≠ "" ∧ d ≠ "Uncategorized") →
      getKey (tasksByCategory groups) "Uncategorized" = some g.count) ∧
    ((∀ g2 ∈ groups, g2 ≠ g → ∃ d, g2.key = .val d ∧ d ≠ "" ∧ d ≠ "Unassigned") →
      getKey (usersByDepartment groups) "Unassigned" = some g.count) ∧
    (∀ k, getKey (tasksByCategory groups) k ≠ none →
      k = "Uncategorized" ∨ ∃ g2 ∈ groups, g2.key = .val k) ∧
    (∀ k, getKey (usersByDepartment groups) k ≠ none →
      k = "Unassigned" ∨ ∃ g2 ∈ groups, g2.key = .val k) := by
  have hsent : ∀ sentinel : String, g.key.orStr sentinel = sentinel := by
    intro sentinel
    rcases hkey with h | h | h <;> simp [h, Field.orStr]
  have hcount : ∀ sentinel : String,
      (∀ g2 ∈ groups, g2 ≠ g → ∃ d, g2.key = .val d ∧ d ≠ "" ∧ d ≠ sentinel) →
      getKey (distribution (fun key => key.orStr sentinel) groups) sentinel
        = some g.count := by
    intro sentinel hothers
    have h := distribution_get (fun key => key.orStr sentinel) groups g hg (by
      intro g2 hg2 hk
      by_cases hgg : g2 = g
      · rw [hgg]
      · obtain ⟨d, hd, hne, hnu⟩ := hothers g2 hg2 hgg
        simp only [hsent sentinel] at hk
        simp [hd, Field.orStr, hne] at hk
        exact absurd hk hnu)
    simp only [hsent sentinel] at h
    exact h
  have hkeys : ∀ (sentinel k : String),
      getKey (distribution (fun key => key.orStr sentinel) groups) k ≠ none →
      k = sentinel ∨ ∃ g2 ∈ groups, g2.key = .val k := by
    intro sentinel k hk
    obtain ⟨g2, hg2, hk2⟩ := distribution_key _ groups k hk
    rcases Field.orStr_cases g2.key sentinel with h1 | ⟨x, hx, -, h1⟩
    · left
      have hk3 : g2.key.orStr sentinel = k := hk2
      rw [← hk3, h1]
    · right
      have hk3 : g2.key.orStr sentinel = k := hk2
      exact ⟨g2, hg2, by rw [hx, ← hk3, h1]⟩
  refine ⟨?_, ?_, hcount "Uncategorized", hcount "Unassigned", hkeys "Uncategorized",
    hkeys "Unassigned"⟩
  · have h := distribution_isSome (fun key => key.orStr "Uncategorized") groups g hg
    simp only [hsent "Uncategorized"] at h
    exact h
  · have h := distribution_isSome (fun key => key.orStr "Unassigned") groups g hg
    simp only [hsent "Unassigned"] at h
    exact h

/-- C19, amended, at the groups null (2 rows) and "Production" (5 rows). -/
theorem sentinel_distributions_witness :
    getKey (tasksByCategory
      [{ key := .null, count := 2 }, { key := .val "Production", count := 5 }]) "Uncategorized"
      = some 2 ∧
    getKey (usersByDepartment
      [{ key := .null, count := 2 }, { key := .val "Production", count := 5 }]) "Unassigned"
      = some 2 ∧
    getKey (tasksByCategory
      [{ key := .null, count := 2 }, { key := .val "Production", count := 5 }]) "null"
      = none :=
  have h := sentinel_distributions
    [{ key := .null, count := 2 }, { key := .val "Production", count := 5 }]
    { key := .null, count := 2 } (by decide) (Or.inl rfl)
  have hothers : ∀ sentinel : String, sentinel ≠ "Production" →
      ∀ g2 ∈ [({ key := .null, count := 2 } : Group), { key := .val "Production", count := 5 }],
        g2 ≠ { key := .null, count := 2 } →
        ∃ d, g2.key = .val d ∧ d ≠ "" ∧ d ≠ sentinel := by
    intro sentinel hs g2 hg2 hne
    simp only [List.mem_cons, List.mem_singleton, List.not_mem_nil, or_false] at hg2
    rcases hg2 with rfl | rfl
    · exact absurd rfl hne
    · exact ⟨"Production", rfl, by decide, Ne.symm hs⟩
  ⟨h.2.2.1 (hothers "Uncategorized" (by decide)),
    h.2.2.2.1 (hothers "Unassigned" (by decide)), by decide⟩

/-- C20: no user object in a read response carries a password.  Every user in the data of
`getUsers`, `getEmployees` and `getUser`, the user returned by `createUser` and `updateUser`,
and every entry of `recentUsers` of `getUserAnalytics` is a row of the Users table (after the
request) without the key `password` and with every other attribute as stored; a response of
these handlers that returns no user has no data. -/
theorem responses_without_password (env : Env) (s : Store) (q : Query) (id : Int)
    (body : UserBody) :
    (∀ r, (getUsers s q).1 = .sent r →
      ∃ vs, r.data = .users vs ∧ ∀ v ∈ vs, ∃ u ∈ s.users, v.isPublicOf u) ∧
    (∀ r, (getEmployees s).1 = .sent r →
      ∃ vs, r.data = .users vs ∧ ∀ v ∈ vs, ∃ u ∈ s.users, v.isPublicOf u) ∧
    (∀ r, (getUser s id).1 = .sent r →
      r.data = .none ∨ ∃ v u, r.data = .user v ∧ u ∈ s.users ∧ v.isPublicOf u) ∧
    (∀ r, (createUser env s body).1 = .sent r →
      r.data = .none ∨
      ∃ v u, r.data = .user v ∧ u ∈ (createUser env s body).2.users ∧ v.isPublicOf u) ∧
    (∀ r, (updateUser env s id body).1 = .sent r →
      r.data = .none ∨
      ∃ v u, r.data = .user v ∧ u ∈ (updateUser env s id body).2.users ∧ v.isPublicOf u) ∧
    (∃ a, (getUserAnalytics s).1 = Reply.ok 200 (.userAnalytics a) ∧
      ∀ v ∈ a.recentUsers, ∃ u ∈ s.users, v.isPublicOf u) := by
  have hlist : ∀ (users : List User) (r : Response), (∀ u ∈ users, u ∈ s.users) →
      Reply.userList users = .sent r →
      ∃ vs, r.data = .users vs ∧ ∀ v ∈ vs, ∃ u ∈ s.users, v.isPublicOf u := by
    intro users r hsub hr
    simp only [Reply.userList] at hr
    injection hr with hr
    subst hr
    refine ⟨_, rfl, ?_⟩
    intro v hv
    obtain ⟨u, hu, rfl⟩ := List.mem_map.mp hv
    exact ⟨u, hsub u hu, u.withoutPassword_isPublicOf⟩
  refine ⟨?_, ?_, ?_, ?_, ?_, ?_⟩
  · intro r hr
    exact hlist _ r (fun u hu => List.mem_of_mem_filter hu) hr
  · intro r hr
    exact hlist _ r (fun u hu => List.mem_of_mem_filter hu) hr
  · intro r hr
    unfold getUser at hr
    split at hr
    · simp only [Reply.fail] at hr
      injection hr with hr
      subst hr
      exact Or.inl rfl
    · rename_i user hfind
      simp only [Reply.ok] at hr
      injection hr with hr
      subst hr
      exact Or.inr ⟨_, user, rfl, List.mem_of_find?_eq_some hfind,
        user.withoutPassword_isPublicOf⟩
  · intro r hr
    unfold createUser at hr
    split at hr
    · simp only [Reply.fail] at hr
      injection hr with hr
      subst hr
      exact Or.inl rfl
    · split at hr
      · simp only [Reply.fail] at hr
        injection hr with hr
        subst hr
        exact Or.inl rfl
      · split at hr
        · cases hr
        · rename_i h0 h1 _ _ hval
          simp only [Reply.ok] at hr
          injection hr with hr
          subst hr
          refine Or.inr ⟨_, _, rfl, ?_, User.withoutPassword_isPublicOf _⟩
          simp only [createUser, if_neg h0, if_neg h1, hval]
          simp
  · intro r hr
    unfold updateUser at hr
    split at hr
    · simp only [Reply.fail] at hr
      injection hr with hr
      subst hr
      exact Or.inl rfl
    · rename_i user hfind
      split at hr
      · cases hr
      · rename_i _ _ hval
        simp only [Reply.ok] at hr
        injection hr with hr
        subst hr
        refine Or.inr ⟨_, _, rfl, ?_, User.withoutPassword_isPublicOf _⟩
        simp only [updateUser, hfind, hval]
        exact mem_saveUser hfind rfl
  · refine ⟨_, rfl, ?_⟩
    intro v hv
    obtain ⟨u, hu, rfl⟩ := List.mem_map.mp hv
    exact ⟨u, List.mem_reverse.mp (List.mem_of_mem_take hu), u.withoutPassword_isPublicOf⟩

/-- C20 at `store7`: `getUser` returns Employee 10 without a password, and `createUser`
returns the new user 12 without the password (which is stored hashed). -/
theorem responses_without_password_witness :
    (getUser store7 10).1 =
      Reply.ok 200 (.user (mkUser 10 "Eve" Role.Employee).withoutPassword) ∧
    ((mkUser 10 "Eve" Role.Employee).withoutPassword).password = none ∧
    (∀ r, (createUser env0 store7 kimBody).1 = .sent r →
      r.data = .none ∨
      ∃ v u, r.data = .user v ∧ u ∈ (createUser env0 store7 kimBody).2.users ∧
        v.isPublicOf u) :=
  ⟨by decide, rfl, (responses_without_password env0 store7 (pageQuery "1" "10") 10
    kimBody).2.2.2.1⟩

/-- C21, the code at the failing input: the Manager 5 posts the comment "done" on task 7,
whose `comments` is `[]`.  The answer is 200 and shows the comment, but the store is unchanged:
the stored task keeps `comments = []`.  The handler pushes the comment onto the array that the
task instance holds and then calls `task.update({ comments })` with that same array, so the
ORM sees no change and writes nothing.  This is so for every stored task whose `comments` is
an array, every permitted caller and every non-empty text, and the `comments` of every task
that `createTask` stores is an array.  A missing, null or empty comment is answered 400 and
the store is unchanged. -/
theorem addTaskComment_not_stored :
    findByPk store7.tasks task7.id = some task7 ∧ task7.comments = some [] ∧
    ana.role ≠ Role.Employee ∧
    addTaskComment store7 (some ana) task7.id (.val "done") "u-1" 5 =
      (Reply.ok 200 (.task task7Commented), store7) ∧
    task7Commented.comments = some [doneComment] ∧
    (findByPk (addTaskComment store7 (some ana) task7.id (.val "done") "u-1" 5).2.tasks
      task7.id).map (fun t => t.comments) = some (some []) ∧
    (∀ (s : Store) (t : Task) (c : Caller) (cs : List Comment) (x uuid : String) (now : Int),
      findByPk s.tasks t.id = some t → t.comments = some cs →
      (c.role ≠ Role.Employee ∨ t.assignedTo = c.id) → x ≠ "" →
      addTaskComment s (some c) t.id (.val x) uuid now =
        (Reply.ok 200 (.task { t with comments := some (cs ++
          [{ id := uuid, user := c.id, userName := c.name, comment := x,
             createdAt := now }]) }), s)) ∧
    (∀ (db : Database) (s : Store) (c : Caller) (body : CreateBody) (now : Int),
      (createTask db s (some c) body now).1.status? = some 201 →
      ∃ task, (createTask db s (some c) body now).2.tasks = s.tasks ++ [task] ∧
        task.comments = some []) ∧
    (∀ (s : Store) (caller : Option Caller) (id : Int) (bad : Field String) (uuid : String)
        (now : Int), bad = .absent ∨ bad = .null ∨ bad = .val "" →
      addTaskComment s caller id bad uuid now = (Reply.fail 400 "Comment is required", s)) := by
  refine ⟨by decide, by decide, by decide, by decide, by decide, by decide, ?_, ?_, ?_⟩
  · intro s t c cs x uuid now hstored hcs hperm hx
    have hno : notOwner (some c) t = false := by
      rcases hperm with h | h <;> simp [notOwner, h]
    have htruthy : (Field.val x : Field String).truthyStr = true := by
      simp [Field.truthyStr, hx]
    simp only [addTaskComment, htruthy, Bool.not_true, Bool.false_eq_true, if_false,
      hstored, hno, hcs, Field.text]
  · intro db s c body now h201
    rcases createTask_cases db s (some c) body now with ⟨-, hne⟩ | ⟨c2, au, mid, task, -, -,
      -, -, -, hcreate, hstore⟩
    · exact absurd h201 hne
    · exact ⟨task, by rw [hstore], by rw [Task.create_ok_eq hcreate]⟩
  · rintro s caller id bad uuid now (rfl | rfl | rfl) <;>
      simp [addTaskComment, Field.truthyStr]

/-- C22: a request to `updateTaskProgress` whose progress is a number below 0 or above 100
(the number `m / 2 ^ k`, an integer when `k` is 0) is answered 400 with the message
'Progress must be between 0 and 100' and leaves the store unchanged, for every store, every
caller (also none) and every task id (also the id of no task): the range guard is the first
step of the handler. -/
theorem updateTaskProgress_out_of_range_400 (db : Database) (s : Store)
    (caller : Option Caller) (id m : Int) (k : Nat) (hrange : m < 0 ∨ 100 * 2 ^ k < m) :
    updateTaskProgress db s caller id (.num m k) =
      (Reply.fail 400 "Progress must be between 0 and 100", s) ∧
    (updateTaskProgress db s caller id (.num m k)).1.status? = some 400 := by
  have hr : progressOutOfRange (.num m k) = true := by
    simp only [progressOutOfRange, Json.toNumber, Numeric.ltZero, Numeric.gtHundred,
      Bool.or_eq_true, decide_eq_true_eq]
    exact hrange
  simp [updateTaskProgress, hr, Reply.fail, Reply.status?]

/-- C22 at the id of no task and a progress of 101, for the Admin. -/
theorem updateTaskProgress_out_of_range_400_witness :
    findByPk store7.tasks 99 = none ∧
    updateTaskProgress db0 store7 (some root) 99 (.num 101 0) =
      (Reply.fail 400 "Progress must be between 0 and 100", store7) :=
  ⟨by decide, (updateTaskProgress_out_of_range_400 db0 store7 (some root) 99 101 0
    (Or.inr (by decide))).1⟩

/-- C23, as stated, fails: an Admin creates task 1 for the Manager 5 and then sends
`PUT /api/users/5` with the body `{ role: 'Employee' }`.  The user ids of the store are still
unique, task 1 is as it was created, and user 5, now a caller with role 'Employee', is
answered 200 by `getTask`: the task's `assignedTo` is the caller's own id. -/
theorem created_task_readable_after_role_change :
    (createTask db0 store0 (some root) createBody 0).1.status? = some 201 ∧
    (updateUser env0 (createTask db0 store0 (some root) createBody 0).2 5
      employeeRoleBody).1.status? = some 200 ∧
    ((updateUser env0 (createTask db0 store0 (some root) createBody 0).2 5
      employeeRoleBody).2.users.map (fun u => u.id)).Nodup ∧
    (findUserByPk (updateUser env0 (createTask db0 store0 (some root) createBody 0).2 5
      employeeRoleBody).2.users 5).map (fun u => u.role) = some Role.Employee ∧
    (updateUser env0 (createTask db0 store0 (some root) createBody 0).2 5
      employeeRoleBody).2.tasks = (createTask db0 store0 (some root) createBody 0).2.tasks ∧
    anaEmployee.role = Role.Employee ∧
    (getTask (updateUser env0 (createTask db0 store0 (some root) createBody 0).2 5
      employeeRoleBody).2 (some anaEmployee) 1).1.status? = some 200 := by
  decide

/-- C23, amended: a task created by a `createTask` request answered with 201, in a store whose
user ids are unique, and stored as created is answered 403 by `getTask` to every caller with
role 'Employee' who was a user with role 'Employee' of the store at the creation, also one
listed in the task's `employees`: the task's `assignedTo` is the id of a user who was a Manager
then.  In any store that is read, the answer to a caller with role 'Employee' is 403 exactly
when the task's `assignedTo` is not the caller's id; it is 403 for every Employee of that
store when its user ids are unique and the user with the task's `assignedTo` still is not an
Employee there. -/
theorem created_task_unreadable_by_employees (db : Database) (s later : Store)
    (c0 c : Caller) (body : CreateBody) (now : Int) (t : Task)
    (hnodup : (s.users.map (fun x => x.id)).Nodup)
    (h201 : (createTask db s (some c0) body now).1.status? = some 201)
    (hcreated : (createTask db s (some c0) body now).2.tasks = s.tasks ++ [t])
    (hstored : findByPk later.tasks t.id = some t)
    (hcrole : c.role = Role.Employee) :
    (∃ m ∈ s.users, m.role = Role.Manager ∧ t.assignedTo = m.id) ∧
    ((∃ u ∈ s.users, u.id = c.id ∧ u.role = Role.Employee) →
      (getTask later (some c) t.id).1.status? = some 403 ∧
      (getTask later (some c) t.id).1.success? = some false ∧
      t.assignedTo ≠ c.id) ∧
    ((getTask later (some c) t.id).1.status? = some 403 ↔ t.assignedTo ≠ c.id) ∧
    (t.assignedTo = c.id → (getTask later (some c) t.id).1.status? = some 200) ∧
    ((later.users.map (fun x => x.id)).Nodup →
      (∃ a ∈ later.users, a.id = t.assignedTo ∧ a.role ≠ Role.Employee) →
      (∃ u ∈ later.users, u.id = c.id ∧ u.role = Role.Employee) →
      (getTask later (some c) t.id).1.status? = some 403) := by
  have hiff : (getTask later (some c) t.id).1.status? = some 403 ↔ t.assignedTo ≠ c.id := by
    by_cases hne : t.assignedTo = c.id
    · simp [getTask, hstored, notOwner, hcrole, hne, Reply.ok, Reply.status?]
    · simp [getTask, hstored, notOwner, hcrole, hne, Reply.fail, Reply.status?]
  rcases createTask_cases db s (some c0) body now with ⟨-, hne⟩ | ⟨c2, au, mid, task, -, -,
    hman, -, -, hcreate, hstore⟩
  · exact absurd h201 hne
  · have htask : t = task := by
      rw [hstore] at hcreated
      have h1 := List.append_cancel_left hcreated
      simpa using h1.symm
    subst htask
    have hp := List.find?_some hman
    simp only [Bool.and_eq_true, beq_iff_eq] at hp
    have hau : au ∈ s.users := List.mem_of_find?_eq_some hman
    have hassigned : t.assignedTo = au.id := (Task.create_ok hcreate).2.1
    refine ⟨⟨au, hau, hp.2, hassigned⟩, ?_, hiff, ?_, ?_⟩
    · rintro ⟨u, hu, hid, hurole⟩
      have hne : t.assignedTo ≠ c.id := by
        intro heq
        have hsame : au = u :=
          List.inj_on_of_nodup_map hnodup hau hu (by rw [← hassigned, heq, hid])
        rw [hsame, hurole] at hp
        exact absurd hp.2 (by decide)
      refine ⟨hiff.mpr hne, ?_, hne⟩
      simp [getTask, hstored, notOwner, hcrole, hne, Reply.fail, Reply.success?]
    · intro heq
      simp [getTask, hstored, notOwner, hcrole, heq, Reply.ok, Reply.status?]
    · rintro hnodup2 ⟨a, ha, haid, harole⟩ ⟨u, hu, hid, hurole⟩
      apply hiff.mpr
      intro heq
      have hsame : a = u :=
        List.inj_on_of_nodup_map hnodup2 ha hu (by rw [haid, heq, hid])
      rw [hsame] at harole
      exact harole hurole

/-- C23, amended, at the scenario of the specification: the task created for Manager "Ana"
with Employees 10 and 11 is answered 403 to Employee 10. -/
theorem created_task_unreadable_by_employees_witness :
    (10 : Int) ∈ createBody.employees.items ∧
    (getTask (createTask db0 store0 (some root) createBody 0).2 (some eve) 1).1.status?
      = some 403 :=
  ⟨by decide,
    ((created_task_unreadable_by_employees db0 store0
      (createTask db0 store0 (some root) createBody 0).2
      root eve createBody 0 { task7 with id := 1 } (by decide)
      (by decide) (by decide) (by decide) (by decide)).2.1
      ⟨mkUser 10 "Eve" Role.Employee, by decide, by decide, by decide⟩).1⟩

/-- C24: the answer of `getTasks` does not depend on the caller.  For every store and request
and any two callers the two answers of `GET /api/tasks` are equal; the rows returned are the
page of the tasks that pass the `status`, `priority` and `assignedTo` filters of the query and
no other filter.  In particular the Employee 10 receives task 7, whose `assignedTo` is 5. -/
theorem getTasks_caller_independent (env : Env) (mc : MachineController) (req : Request)
    (s : Store) (c1 c2 : Caller) :
    serve env mc Route.tasksList { req with caller := some c1 } s =
      serve env mc Route.tasksList { req with caller := some c2 } s ∧
    serve env mc Route.tasksList { req with caller := some c1 } s =
      (paginated s (s.tasks.filter req.query.matchesTask) (parseIntOr req.query.page 1)
        (parseIntOr req.query.limit 10), s) ∧
    (eve.role = Role.Employee ∧ task7.assignedTo ≠ eve.id ∧
      ∃ r, (serve env mc Route.tasksList { request0 with caller := some eve } store7).1
          = .sent r ∧
        r.status = 200 ∧ r.data = .taskViews [store7.view task7]) := by
  refine ⟨rfl, rfl, by decide, by decide, ?_⟩
  have h : (serve env mc Route.tasksList { request0 with caller := some eve } store7).1 =
      (getTasks store7 (pageQuery "1" "10")).1 := rfl
  rw [h]
  refine ⟨{ status := 200, success := true, message := none,
            data := .taskViews [store7.view task7], count := some 1,
            pagination := some { total := 1, pages := 1, currentPage := 1, limit := 10 },
            newPassword := none }, ?_, rfl, rfl⟩
  decide

end Crm
